import Mathlib

set_option maxRecDepth 8000

/-!
Verification of the `Preprocessor` component of `src/core/_machine_learning.py`.

The Python class is embedded shallowly:

* pandas `DataFrame`s become the `DF` structure (ordered column labels plus
  rows carrying an integer index label and a list of cells);
* cells are `Cell` (`null` models `NaN`, strings and exact rationals model the
  object/float payloads; the floating-point kernels of the external sklearn
  routines are modelled with exact rational arithmetic, the claims under
  verification are independent of rounding);
* Python exceptions become `Except PErr`; the `except AttributeError: pass`
  handlers of the source are modelled by explicit `Option` matches on the
  instance attributes that may be unset;
* the mutable instance attributes of the `Preprocessor` object become the
  `Attrs` record threaded through `fit` and `transform`.
-/

inductive PErr where
  | keyError : PErr
  | attributeError : PErr
  | valueError : PErr
  | typeError : PErr
deriving DecidableEq, Repr

instance {ε α : Type} [DecidableEq ε] [DecidableEq α] : DecidableEq (Except ε α) := fun a b =>
  match a, b with
  | Except.ok x, Except.ok y =>
    if h : x = y then isTrue (by rw [h]) else isFalse (by intro hc; cases hc; exact h rfl)
  | Except.error x, Except.error y =>
    if h : x = y then isTrue (by rw [h]) else isFalse (by intro hc; cases hc; exact h rfl)
  | Except.ok _, Except.error _ => isFalse (by intro hc; cases hc)
  | Except.error _, Except.ok _ => isFalse (by intro hc; cases hc)

/-! Exact rational arithmetic.  The numeric payloads are modelled with a
normalized fraction type whose operations are structurally recursive, so that
every concrete pipeline run reduces inside the kernel. -/

def gcdF : Nat → Nat → Nat → Nat
  | 0, _, b => b
  | fuel + 1, a, b => if a == 0 then b else gcdF fuel (b % a) a

def natGcd (a b : Nat) : Nat := gcdF (a + b + 1) a b

/-- A rational number as a reduced fraction with positive denominator (all
values produced by the smart constructor `Q.mk'` are in canonical form, so
structural equality is value equality). -/
structure Q where
  n : Int
  d : Nat
deriving DecidableEq, Repr

def Q.mk' (num : Int) (den : Nat) : Q :=
  if den == 0 then ⟨0, 1⟩
  else
    let g := natGcd num.natAbs den
    ⟨num / (g : Int), den / g⟩

def Q.add (a b : Q) : Q := Q.mk' (a.n * (b.d : Int) + b.n * (a.d : Int)) (a.d * b.d)

def Q.neg (a : Q) : Q := ⟨-a.n, a.d⟩

def Q.sub (a b : Q) : Q := a.add b.neg

def Q.mul (a b : Q) : Q := Q.mk' (a.n * b.n) (a.d * b.d)

def Q.div (a b : Q) : Q :=
  if b.n < 0 then Q.mk' (-(a.n * (b.d : Int))) (a.d * b.n.natAbs)
  else Q.mk' (a.n * (b.d : Int)) (a.d * b.n.natAbs)

def Q.le (a b : Q) : Bool := decide (a.n * (b.d : Int) ≤ b.n * (a.d : Int))

instance (n : Nat) : OfNat Q n := ⟨⟨n, 1⟩⟩

instance : Neg Q := ⟨Q.neg⟩

instance : Add Q := ⟨Q.add⟩

instance : Sub Q := ⟨Q.sub⟩

instance : Mul Q := ⟨Q.mul⟩

instance : Div Q := ⟨Q.div⟩

def Q.ofNat (m : Nat) : Q := ⟨m, 1⟩

def Q.sum (l : List Q) : Q := l.foldl Q.add ⟨0, 1⟩

inductive Cell where
  | null : Cell
  | str : String → Cell
  | num : Q → Cell
deriving DecidableEq, Repr

/-- A pandas DataFrame: ordered column labels and rows, each row carrying its
integer index label (DataFrames produced by the Preprocessor are indexed by the
input row labels). -/
structure DF where
  cols : List String
  rows : List (Nat × List Cell)
deriving DecidableEq, Repr

/-- A frame indexed by cell values, as produced by `unique.set_index(col)` in
the `hasher` / `text_vectorizer` / `text_similarity` helpers. -/
structure KeyedDF where
  cols : List String
  rows : List (Cell × List Cell)
deriving DecidableEq, Repr

def DF.idx (d : DF) : List Nat := d.rows.map Prod.fst

def DF.nrows (d : DF) : Nat := d.rows.length

/-- Value of row `r` (cells listed in the order of `cols`) at column `c`:
walk the labels and cells in lockstep and return the cell under the first
matching label; `null` when the column is absent or the row is too short. -/
def cellAt : List String → List Cell → String → Cell
  | [], _, _ => Cell.null
  | _ :: _, [], _ => Cell.null
  | c0 :: cs, x :: xs, c => if c0 == c then x else cellAt cs xs c

def DF.colVals (d : DF) (c : String) : List Cell :=
  d.rows.map (fun p => cellAt d.cols p.2 c)

def DF.colCells (d : DF) (j : Nat) : List Cell :=
  d.rows.map (fun p => p.2.getD j Cell.null)

/-- `X[ns]`: column projection; raises `KeyError` when a requested label is
absent, like pandas `__getitem__` with a label list. -/
def DF.selectCols (d : DF) (ns : List String) : Except PErr DF :=
  if ns.all (fun c => d.cols.contains c) then
    Except.ok { cols := ns, rows := d.rows.map (fun p => (p.1, ns.map (cellAt d.cols p.2))) }
  else Except.error PErr.keyError

/-- `df.align(template, join='right', axis=1)[0]`: force the column set and
order of `template`, filling columns absent from `df` with `NaN`. -/
def alignRight (d t : DF) : DF :=
  { cols := t.cols, rows := d.rows.map (fun p => (p.1, t.cols.map (cellAt d.cols p.2))) }

/-- `pd.DataFrame().reindex_like(df)`: a frame with the columns and index of
`df` and every value `NaN`; used as the per-strategy alignment template. -/
def structureOf (d : DF) : DF :=
  { cols := d.cols, rows := d.rows.map (fun p => (p.1, d.cols.map (fun _ => Cell.null))) }

/-- `df.drop(c, axis=1)`: remove every column labelled `c`. -/
def DF.dropCol (d : DF) (c : String) : DF :=
  { cols := d.cols.filter (fun x => !(x == c)),
    rows := d.rows.map (fun p =>
      (p.1, ((d.cols.zip p.2).filter (fun q => !(q.1 == c))).map Prod.snd)) }

/-- `a.join(b)`: left join on the row index.  pandas raises `ValueError` when
column labels overlap; rows of `a` whose label matches several rows of `b` are
replicated, unmatched rows are filled with `NaN`. -/
def DF.join (a b : DF) : Except PErr DF :=
  if a.cols.any (fun c => b.cols.contains c) then Except.error PErr.valueError
  else Except.ok {
    cols := a.cols ++ b.cols,
    rows := a.rows.flatMap (fun p =>
      match b.rows.filter (fun q => q.1 == p.1) with
      | [] => [(p.1, p.2 ++ b.cols.map (fun _ => Cell.null))]
      | ms => ms.map (fun q => (p.1, p.2 ++ q.2))) }

/-- `d.join(u, on = c)`: left join matching the value of `d` at column `c`
against the (cell-valued) index of `u`. -/
def DF.joinOn (d : DF) (c : String) (u : KeyedDF) : Except PErr DF :=
  if d.cols.any (fun x => u.cols.contains x) then Except.error PErr.valueError
  else Except.ok {
    cols := d.cols ++ u.cols,
    rows := d.rows.flatMap (fun p =>
      match u.rows.filter (fun q => q.1 == cellAt d.cols p.2 c) with
      | [] => [(p.1, p.2 ++ u.cols.map (fun _ => Cell.null))]
      | ms => ms.map (fun q => (p.1, p.2 ++ q.2))) }

/-! Ordering and deduplication helpers (pandas `unique`, sorted categories,
sorted vocabularies). -/

/-- Order-preserving deduplication, as `pd.unique` (first occurrence kept). -/
def dedupFirstAux {α : Type} [BEq α] : List α → List α → List α
  | [], acc => acc.reverse
  | a :: rest, acc => if acc.contains a then dedupFirstAux rest acc else dedupFirstAux rest (a :: acc)

def dedupFirst {α : Type} [BEq α] (l : List α) : List α := dedupFirstAux l []

def insertLe {α : Type} (le : α → α → Bool) (a : α) : List α → List α
  | [] => [a]
  | b :: r => if le a b then a :: b :: r else b :: insertLe le a r

def sortLe {α : Type} (le : α → α → Bool) (l : List α) : List α :=
  l.foldr (insertLe le) []

def charListLt : List Char → List Char → Bool
  | [], [] => false
  | [], _ :: _ => true
  | _ :: _, [] => false
  | a :: as, b :: bs =>
    if a.toNat < b.toNat then true else if b.toNat < a.toNat then false else charListLt as bs

def strLtB (a b : String) : Bool := charListLt a.data b.data

def cellLe : Cell → Cell → Bool
  | Cell.null, _ => true
  | _, Cell.null => false
  | Cell.num a, Cell.num b => Q.le a b
  | Cell.num _, Cell.str _ => true
  | Cell.str _, Cell.num _ => false
  | Cell.str a, Cell.str b => a == b || strLtB a b

def strLe (a b : String) : Bool := a == b || strLtB a b

def natLe (a b : Nat) : Bool := a ≤ b

/-- Rendering of a cell value inside a generated column label (pandas uses the
`str()` of the category value in dummy-column names). -/
def ratStr (q : Q) : String :=
  if q.d == 1 then toString q.n else toString q.n ++ "/" ++ toString q.d

def cellStr : Cell → String
  | Cell.null => "nan"
  | Cell.str s => s
  | Cell.num q => ratStr q

def isNum : Cell → Bool
  | Cell.num _ => true
  | _ => false

def numsOf (cells : List Cell) : List Q :=
  cells.filterMap (fun c => match c with | Cell.num q => some q | _ => none)

/-! Column statistics for `fillna` (`df.mean()`, `df.median()`,
`df.mode().iloc[0]`).  pandas computes mean/median only over numeric columns;
a column holding any string is an object column and is left unfilled. -/

def colMeanCell (cells : List Cell) : Cell :=
  let nn := cells.filter (fun c => !(c == Cell.null))
  let ns := numsOf nn
  if ns.length == nn.length && 0 < ns.length then Cell.num (Q.div (Q.sum ns) (Q.ofNat ns.length))
  else Cell.null

def colMedianCell (cells : List Cell) : Cell :=
  let nn := cells.filter (fun c => !(c == Cell.null))
  let ns := numsOf nn
  if ns.length == nn.length && 0 < ns.length then
    let s := sortLe Q.le ns
    let n := s.length
    if n % 2 == 1 then Cell.num (s.getD (n / 2) ⟨0, 1⟩)
    else Cell.num ((s.getD (n / 2 - 1) ⟨0, 1⟩ + s.getD (n / 2) ⟨0, 1⟩) / 2)
  else Cell.null

/-- First row of `df.mode()` for one column: the most frequent non-null value,
ties resolved toward the smallest value; `null` when the column is all null. -/
def colModeCell (cells : List Cell) : Cell :=
  let nn := cells.filter (fun c => !(c == Cell.null))
  let cands := sortLe cellLe (dedupFirst nn)
  let best := cands.foldl (fun acc v =>
    match acc with
    | Cell.null => v
    | b => if nn.count v > nn.count b then v else b) Cell.null
  best

def fillBy (d : DF) (f : List Cell → Cell) : DF :=
  let fills := (List.range d.cols.length).map (fun j => f (d.colCells j))
  { cols := d.cols,
    rows := d.rows.map (fun p =>
      (p.1, p.2.enum.map (fun q => if q.2 == Cell.null then fills.getD q.1 Cell.null else q.2))) }

/-- `Preprocessor.fillna` (static method, lines 622-638): fill empty values
with the chosen method; `mean`/`median`/`mode` are computed from `df` itself,
`none` leaves the frame unchanged, anything else fills with zeros. -/
def Preprocessor.fillna (d : DF) (missing : String) : DF :=
  if missing == "mean" then fillBy d colMeanCell
  else if missing == "median" then fillBy d colMedianCell
  else if missing == "mode" then fillBy d colModeCell
  else if missing == "none" then d
  else fillBy d (fun _ => Cell.num 0)

/-! One hot encoding: `pd.get_dummies(df, columns=df.columns)`; every column is
expanded into one indicator column per distinct non-null value, values sorted,
named `col_value`. -/

def dummyVals (cells : List Cell) : List Cell :=
  sortLe cellLe (dedupFirst (cells.filter (fun c => !(c == Cell.null))))

def getDummies (d : DF) : DF :=
  let spec := d.cols.enum.map (fun p => (p.1, p.2, dummyVals (d.colCells p.1)))
  { cols := spec.flatMap (fun t => t.2.2.map (fun v => t.2.1 ++ "_" ++ cellStr v)),
    rows := d.rows.map (fun p =>
      (p.1, spec.flatMap (fun t => t.2.2.map (fun v =>
        if p.2.getD t.1 Cell.null == v then Cell.num 1 else Cell.num 0)))) }

/-! External sklearn kernels.  The spec treats the mathematical routines of the
numerical library (hashing trick, tokenization, vectorizer weighting, scaler
formulas) as out-of-scope collaborators; they are modelled here as concrete
deterministic executable functions with the same shape contract as sklearn:
`FeatureHasher(n_features)` maps one string to a signed indicator among
`n_features` buckets, the vectorizers tokenize lowercased alphanumeric runs of
length at least two and weight token counts, the scaler applies a per-column
affine map fitted from the data.  None of the claims depend on the numeric
content of these kernels. -/

def strHash (s : String) : Nat :=
  s.data.foldl (fun a c => (a * 31 + c.toNat) % 1000003) 7

/-- Model of `FeatureHasher(n_features=n, input_type="string")` on one sample:
a vector with a single signed unit entry at the hashed bucket. -/
def featureHash (n : Nat) (s : String) : List Cell :=
  (List.range n).map (fun i =>
    if i == strHash s % n then (if strHash s % 2 == 0 then Cell.num 1 else Cell.num (-1))
    else Cell.num 0)

def charAlnum (c : Char) : Bool := c.isAlpha || c.isDigit

def tokenizeAux : List Char → List Char → List (List Char)
  | [], cur => if cur.isEmpty then [] else [cur.reverse]
  | c :: rest, cur =>
    if charAlnum c then tokenizeAux rest (c.toLower :: cur)
    else if cur.isEmpty then tokenizeAux rest [] else cur.reverse :: tokenizeAux rest []

/-- Model of the sklearn default analyzer: lowercased maximal alphanumeric
runs of length at least two. -/
def tokenize (s : String) : List String :=
  ((tokenizeAux s.data []).filter (fun t => 2 ≤ t.length)).map List.asString

def asStr : Cell → Except PErr String
  | Cell.str s => Except.ok s
  | _ => Except.error PErr.typeError

/-- Read a list of cells as strings; the first non-string raises `TypeError`
(hashing / vectorizing / text-similarity all iterate raw string values). -/
def mapStrs : List Cell → Except PErr (List String)
  | [] => Except.ok []
  | c :: rest => do
    let s ← asStr c
    let ss ← mapStrs rest
    Except.ok (s :: ss)

/-- Strategy arguments carried in the `strategy_args` column of the feature
definitions table. -/
inductive StratArg where
  | none : StratArg
  | nat : Nat → StratArg
  | str : String → StratArg
  | kwargs : List (String × String) → StratArg
deriving DecidableEq, Repr

/-- `Preprocessor.hasher` (static method, lines 567-577): dedupe the values of
column `c`, hash each unique string into `n_features` buckets, and return the
hashed frame indexed by the original value.  Hashing a non-string raises, as
does instantiating `FeatureHasher` without a positive integer bucket count. -/
def Preprocessor.hasher (d : DF) (c : String) (arg : StratArg) : Except PErr KeyedDF := do
  let vals := dedupFirst (d.colVals c)
  let strs ← mapStrs vals
  match arg with
  | StratArg.nat n =>
    if n == 0 then Except.error PErr.valueError
    else Except.ok {
      cols := (List.range n).map (fun i => c ++ toString i),
      rows := strs.map (fun s => (Cell.str s, featureHash n s)) }
  | _ => Except.error PErr.valueError

/-- `Preprocessor.text_vectorizer` (static method, lines 579-602): dedupe the
values of column `c`, fit a count / tf-idf vectorizer on the unique values and
return the vectorized frame indexed by the original value; output columns are
named `col_rank_token`.  An empty vocabulary raises `ValueError` as in sklearn;
the keyword arguments are forwarded to the external vectorizer (whose numeric
kernel is modelled, so they do not alter the modelled output). -/
def Preprocessor.text_vectorizer (d : DF) (c : String) (ty : String)
    (kwargs : List (String × String)) : Except PErr KeyedDF := do
  let vals := dedupFirst (d.colVals c)
  let strs ← mapStrs vals
  let vocab := sortLe strLe (dedupFirst (strs.flatMap tokenize))
  if vocab.isEmpty then Except.error PErr.valueError
  else
    let n : Q := Q.ofNat strs.length
    let dfreq := fun (t : String) => Q.ofNat (strs.filter (fun s => (tokenize s).contains t)).length
    let wt := fun (t : String) (cnt : Nat) =>
      if ty == "tfidf" then (Q.ofNat cnt) * ((n + 1) / (dfreq t + 1)) else Q.ofNat cnt
    let _ := kwargs
    Except.ok {
      cols := vocab.enum.map (fun p => c ++ "_" ++ toString p.1 ++ "_" ++ p.2),
      rows := strs.map (fun s =>
        (Cell.str s, vocab.map (fun t => Cell.num (wt t ((tokenize s).count t))))) }

/-- `Preprocessor.text_similarity` (static method, lines 604-620): dedupe the
values of column `c`, map each unique string to its set of character code
points and multi-label binarize, one indicator column per distinct character
seen in the column.  Iterating a non-string raises. -/
def Preprocessor.text_similarity (d : DF) (c : String) : Except PErr KeyedDF := do
  let vals := dedupFirst (d.colVals c)
  let strs ← mapStrs vals
  let classes := sortLe natLe (dedupFirst (strs.flatMap (fun s => s.data.map Char.toNat)))
  Except.ok {
    cols := classes.map (fun k => c ++ "_" ++ toString k),
    rows := strs.map (fun s =>
      (Cell.str s, classes.map (fun k =>
        Cell.num (if (s.data.map Char.toNat).contains k then 1 else 0)))) }

/-! The scaler.  `get_scaler` resolves the scaler name dynamically with
`getattr(preprocessing, scaler)` — an unknown name raises `AttributeError` —
then fits it on the frame after `fillna`.  The fitted state is the per-column
affine parameters; its `transform` rejects a frame whose columns disagree with
the fit-time columns and any non-numeric (or `NaN`) input, like sklearn. -/

structure ScalerState where
  scalerName : String
  kwargs : List (String × String)
  cols : List String
  stats : List (Q × Q)
deriving DecidableEq, Repr

def knownScalers : List String :=
  ["StandardScaler", "MinMaxScaler", "MaxAbsScaler", "RobustScaler", "QuantileTransformer"]

def colStats (cells : List Cell) : Q × Q :=
  let ns := numsOf cells
  if ns.isEmpty then (⟨0, 1⟩, ⟨1, 1⟩)
  else
    let n : Q := Q.ofNat ns.length
    let m := Q.sum ns / n
    let v := Q.sum (ns.map (fun x => (x - m) * (x - m))) / n
    (m, if v == ⟨0, 1⟩ then ⟨1, 1⟩ else v)

def scaleCell (st : Q × Q) : Cell → Cell
  | Cell.num x => Cell.num ((x - st.1) / st.2)
  | c => c

def ScalerState.transform (sc : ScalerState) (d : DF) : Except PErr DF :=
  if !(d.cols == sc.cols) then Except.error PErr.valueError
  else if d.rows.any (fun p => p.2.any (fun c => !(isNum c))) then Except.error PErr.valueError
  else Except.ok {
    cols := d.cols,
    rows := d.rows.map (fun p =>
      (p.1, p.2.enum.map (fun q => scaleCell (sc.stats.getD q.1 (0, 1)) q.2))) }

/-- `Preprocessor.get_scaler` (static method, lines 640-654): resolve the
scaler by name (unknown name: `AttributeError`), fill missing values with the
`missing` policy, fit on the filled frame (non-numeric or remaining `NaN`
values raise `ValueError` as in sklearn). -/
def Preprocessor.get_scaler (d : DF) (missing : String) (scaler : String)
    (kwargs : List (String × String)) : Except PErr ScalerState :=
  if !(knownScalers.contains scaler) then Except.error PErr.attributeError
  else
    let filled := Preprocessor.fillna d missing
    if filled.rows.any (fun p => p.2.any (fun c => !(isNum c))) then Except.error PErr.valueError
    else Except.ok {
      scalerName := scaler, kwargs := kwargs, cols := filled.cols,
      stats := (List.range filled.cols.length).map (fun j => colStats (filled.colCells j)) }

/-! The feature definitions table and the constructor (`__init__`,
lines 79-171). -/

structure FeatureSpec where
  name : String
  variable_type : String
  feature_strategy : String
  strategy_args : StratArg
deriving DecidableEq, Repr

/-- Constructor-level options of the Preprocessor (the keyword parameters of
`__init__`; `kwargs` are the extra keyword arguments forwarded to the scaler). -/
structure Opts where
  return_type : String
  scale_hashed : Bool
  scale_vectors : Bool
  missing : String
  scaler : String
  kwargs : List (String × String)
  logfile : Option String
deriving DecidableEq, Repr

/-- The defaults of `__init__`: `return_type='np'`, `scale_hashed=True`,
`scale_vectors=True`, `missing="zeros"`, `scaler="StandardScaler"`,
`logfile=None`, no extra keyword arguments. -/
def defaultOpts : Opts :=
  ⟨"np", true, true, "zeros", "StandardScaler", [], Option.none⟩

def metaFor (fs : List FeatureSpec) (strat : String) : List FeatureSpec :=
  fs.filter (fun f => f.feature_strategy == strat)

/-- `self.hash_meta.loc[:,"strategy_args"].astype(np.int64, errors="ignore")`:
numeric strings become integers, anything unconvertible is left unchanged. -/
def coerceHashArgs (fs : List FeatureSpec) : List FeatureSpec :=
  fs.map (fun f => match f.strategy_args with
    | StratArg.str s =>
      match s.toNat? with
      | some n => { f with strategy_args := StratArg.nat n }
      | Option.none => f
    | _ => f)

/-- Modelled from the spec: `_utils.get_kwargs` and `_utils.get_kwargs_by_type`
(module `_utils.py`, imported by the source but not present under `src/`)
parse the declarative `strategy_args` value of a count/tf-idf vectorizing
feature into a keyword-argument mapping with type-coerced values; modelled as
the already-parsed mapping passed through unchanged. -/
def coerceVectArgs (fs : List FeatureSpec) : List FeatureSpec := fs

/-- Configuration state assembled by `__init__`: the options, the per-strategy
metadata subsets and derived activity flags. -/
structure Config where
  features : List FeatureSpec
  opts : Opts
  ohe : Bool
  hash : Bool
  cv : Bool
  tfidf : Bool
  text : Bool
  scale : Bool
  no_prep : Bool
  ohe_meta : List FeatureSpec
  hash_meta : List FeatureSpec
  cv_meta : List FeatureSpec
  tfidf_meta : List FeatureSpec
  text_meta : List FeatureSpec
  scale_meta : List FeatureSpec
  none_meta : List FeatureSpec
deriving DecidableEq, Repr

/-- `__init__(features, ...)`: partition the feature definitions by strategy,
coerce strategy arguments, and set the activity flags. -/
def initConfig (features : List FeatureSpec) (o : Opts) : Config :=
  let ohe_meta := metaFor features "one hot encoding"
  let hash_meta := coerceHashArgs (metaFor features "hashing")
  let cv_meta := coerceVectArgs (metaFor features "count_vectorizing")
  let tfidf_meta := coerceVectArgs (metaFor features "tf_idf")
  let text_meta := metaFor features "text_similarity"
  let scale_meta := metaFor features "scaling"
  let none_meta := metaFor features "none"
  { features := features, opts := o,
    ohe := !ohe_meta.isEmpty, hash := !hash_meta.isEmpty, cv := !cv_meta.isEmpty,
    tfidf := !tfidf_meta.isEmpty, text := !text_meta.isEmpty,
    scale := !scale_meta.isEmpty, no_prep := !none_meta.isEmpty,
    ohe_meta := ohe_meta, hash_meta := hash_meta, cv_meta := cv_meta,
    tfidf_meta := tfidf_meta, text_meta := text_meta, scale_meta := scale_meta,
    none_meta := none_meta }

/-- The mutable instance attributes assigned during `fit`/`transform`.  An
attribute that has never been assigned is `Option.none`; reading it raises
`AttributeError` in Python, modelled by `ofOption`.  Note that `__init__` does
not clear these attributes: on `fit(retrain=True)` they survive. -/
structure Attrs where
  ohe_df : Option DF
  hash_df : Option DF
  cv_df : Option DF
  tfidf_df : Option DF
  text_df : Option DF
  scale_df : Option DF
  no_prep_df : Option DF
  ohe_df_structure : Option DF
  cv_df_structure : Option DF
  tfidf_df_structure : Option DF
  text_df_structure : Option DF
  scale_df_structure : Option DF
  scaler_instance : Option ScalerState
  X_transform : Option DF
deriving DecidableEq, Repr

def emptyAttrs : Attrs :=
  ⟨Option.none, Option.none, Option.none, Option.none, Option.none, Option.none, Option.none,
   Option.none, Option.none, Option.none, Option.none, Option.none, Option.none, Option.none⟩

/-- Reading a possibly-unset instance attribute: `AttributeError` when unset. -/
def ofOption {α : Type} : Option α → Except PErr α
  | some a => Except.ok a
  | Option.none => Except.error PErr.attributeError

/-- The whole Preprocessor object: configuration plus instance attributes. -/
structure PState where
  cfg : Config
  attrs : Attrs
deriving DecidableEq, Repr

/-- A freshly constructed `Preprocessor(features, ...)`. -/
def construct (features : List FeatureSpec) (o : Opts) : PState :=
  ⟨initConfig features o, emptyAttrs⟩

def namesOf (fs : List FeatureSpec) : List String := fs.map FeatureSpec.name

def argFor (ms : List FeatureSpec) (c : String) : StratArg :=
  match ms.find? (fun f => f.name == c) with
  | some f => f.strategy_args
  | Option.none => StratArg.none

def kwargsFor (ms : List FeatureSpec) (c : String) : List (String × String) :=
  match argFor ms c with
  | StratArg.kwargs ks => ks
  | _ => []

/-- The per-column loop of the hashing branch: hash the unique values of each
column, join the hashed frame back on the value, drop the original column. -/
def hashFold (ms : List FeatureSpec) : List String → DF → Except PErr DF
  | [], d => Except.ok d
  | c :: rest, d => do
    let u ← Preprocessor.hasher d c (argFor ms c)
    let d2 ← d.joinOn c u
    hashFold ms rest (d2.dropCol c)

/-- The per-column loop of the count/tf-idf vectorizing branches. -/
def vectFold (ms : List FeatureSpec) (ty : String) : List String → DF → Except PErr DF
  | [], d => Except.ok d
  | c :: rest, d => do
    let u ← Preprocessor.text_vectorizer d c ty (kwargsFor ms c)
    let d2 ← d.joinOn c u
    vectFold ms ty rest (d2.dropCol c)

/-- The per-column loop of the text-similarity branch. -/
def textFold : List String → DF → Except PErr DF
  | [], d => Except.ok d
  | c :: rest, d => do
    let u ← Preprocessor.text_similarity d c
    let d2 ← d.joinOn c u
    textFold rest (d2.dropCol c)

/-! `fit` (lines 174-291).  The body mirrors the source statement by
statement; the `try/except AttributeError: pass` around the scaler setup is
modelled by matching on the optional attributes and on the
`AttributeError` outcome of `get_scaler`, every other exception propagates. -/

/-- One hot encoding at fit (lines 188-196). -/
def fitOheStage (c : Config) (X : DF) (a0 : Attrs) : Except PErr Attrs :=
  if c.ohe then do
    let d ← X.selectCols (namesOf c.ohe_meta)
    let d := getDummies d
    pure { a0 with ohe_df := some d, ohe_df_structure := some (structureOf d) }
  else pure a0

/-- Scaling subset at fit (lines 199-201). -/
def fitScaleStage (c : Config) (X : DF) (a : Attrs) : Except PErr Attrs :=
  if c.scale then do
    let d ← X.selectCols (namesOf c.scale_meta)
    pure { a with scale_df := some d }
  else pure a

/-- Hashing at fit (lines 203-219). -/
def fitHashStage (c : Config) (X : DF) (a : Attrs) : Except PErr Attrs :=
  if c.hash then do
    let d ← X.selectCols (namesOf c.hash_meta)
    let d ← hashFold c.hash_meta (namesOf c.hash_meta) d
    let a := { a with hash_df := some d }
    if c.opts.scale_hashed then
      if c.scale then do
        let sd ← ofOption a.scale_df
        let j ← sd.join d
        pure { a with scale_df := some j }
      else pure { a with scale_df := some d }
    else pure a
  else pure a

/-- Count vectorizing at fit (lines 221-240). -/
def fitCvStage (c : Config) (X : DF) (a : Attrs) : Except PErr Attrs :=
  if c.cv then do
    let d ← X.selectCols (namesOf c.cv_meta)
    let d ← vectFold c.cv_meta "count" (namesOf c.cv_meta) d
    let a := { a with cv_df := some d, cv_df_structure := some (structureOf d) }
    if c.opts.scale_vectors then
      if c.scale || (c.opts.scale_hashed && c.hash) then do
        let sd ← ofOption a.scale_df
        let j ← sd.join d
        pure { a with scale_df := some j }
      else pure { a with scale_df := some d }
    else pure a
  else pure a

/-- Tf-idf vectorizing at fit (lines 242-261). -/
def fitTfidfStage (c : Config) (X : DF) (a : Attrs) : Except PErr Attrs :=
  if c.tfidf then do
    let d ← X.selectCols (namesOf c.tfidf_meta)
    let d ← vectFold c.tfidf_meta "tfidf" (namesOf c.tfidf_meta) d
    let a := { a with tfidf_df := some d, tfidf_df_structure := some (structureOf d) }
    if c.opts.scale_vectors then
      if c.scale || (c.opts.scale_hashed && c.hash) || c.cv then do
        let sd ← ofOption a.scale_df
        let j ← sd.join d
        pure { a with scale_df := some j }
      else pure { a with scale_df := some d }
    else pure a
  else pure a

/-- Text similarity at fit (lines 263-275). -/
def fitTextStage (c : Config) (X : DF) (a : Attrs) : Except PErr Attrs :=
  if c.text then do
    let d ← X.selectCols (namesOf c.text_meta)
    let d ← textFold (namesOf c.text_meta) d
    pure { a with text_df := some d, text_df_structure := some (structureOf d) }
  else pure a

/-- Scaler setup inside try/except AttributeError (lines 277-285). -/
def fitScalerStage (c : Config) (a : Attrs) : Except PErr Attrs :=
  match a.scale_df with
  | Option.none => pure a
  | some sd =>
    if 0 < sd.rows.length then
      match Preprocessor.get_scaler sd c.opts.missing c.opts.scaler c.opts.kwargs with
      | Except.error PErr.attributeError => pure a
      | Except.error e => Except.error e
      | Except.ok si =>
        pure { a with scaler_instance := some si, scale_df_structure := some (structureOf sd) }
    else pure a

def fitBody (c : Config) (a0 : Attrs) (X : DF) : Except PErr Attrs := do
  let a ← fitOheStage c X a0
  let a ← fitScaleStage c X a
  let a ← fitHashStage c X a
  let a ← fitCvStage c X a
  let a ← fitTfidfStage c X a
  let a ← fitTextStage c X a
  fitScalerStage c a

/-- `Preprocessor.fit(X, y=None, features=None, retrain=False)`: on retrain the
object is re-initialized via `self.__init__(features)` — which resets every
constructor option to its default and keeps the unset instance attributes —
then the fitted state is computed. -/
def Preprocessor.fit (s : PState) (X : DF) (features : Option (List FeatureSpec))
    (retrain : Bool) : Except PErr PState :=
  let c := if retrain then initConfig (features.getD s.cfg.features) defaultOpts else s.cfg
  (fitBody c s.attrs X).map (fun a => ⟨c, a⟩)

/-! `transform` (lines 294-476), decomposed into one definition per source
block so the shape lemmas can be stated per stage.  Each stage maps the
current `(attributes, X_transform)` pair; `X_transform = Option.none` models
the Python `None`. -/

def joinOpt (xt : Option DF) (d : DF) : Except PErr (Option DF) :=
  match xt with
  | Option.none => Except.ok (some d)
  | some x => (x.join d).map some

/-- Lines 303-318: one hot encode, align to the fit-time structure, zero-fill,
and start the result frame. -/
def stageOhe (c : Config) (X : DF) : Attrs × Option DF → Except PErr (Attrs × Option DF) :=
  fun (a, xt) =>
    if c.ohe then do
      let d ← X.selectCols (namesOf c.ohe_meta)
      let st ← ofOption a.ohe_df_structure
      let d2 := Preprocessor.fillna (alignRight (getDummies d) st) "zeros"
      pure ({ a with ohe_df := some d2 }, some d2)
    else pure (a, xt)

/-- Lines 320-329: hash the hashing subset. -/
def stageHash (c : Config) (X : DF) : Attrs × Option DF → Except PErr (Attrs × Option DF) :=
  fun (a, xt) =>
    if c.hash then do
      let d ← X.selectCols (namesOf c.hash_meta)
      let d ← hashFold c.hash_meta (namesOf c.hash_meta) d
      pure ({ a with hash_df := some d }, xt)
    else pure (a, xt)

/-- Lines 331-347: count vectorize, align to the fit-time structure,
zero-fill. -/
def stageCv (c : Config) (X : DF) : Attrs × Option DF → Except PErr (Attrs × Option DF) :=
  fun (a, xt) =>
    if c.cv then do
      let d ← X.selectCols (namesOf c.cv_meta)
      let d ← vectFold c.cv_meta "count" (namesOf c.cv_meta) d
      let st ← ofOption a.cv_df_structure
      let d2 := Preprocessor.fillna (alignRight d st) "zeros"
      pure ({ a with cv_df := some d2 }, xt)
    else pure (a, xt)

/-- Lines 349-365: tf-idf vectorize, align, zero-fill. -/
def stageTfidf (c : Config) (X : DF) : Attrs × Option DF → Except PErr (Attrs × Option DF) :=
  fun (a, xt) =>
    if c.tfidf then do
      let d ← X.selectCols (namesOf c.tfidf_meta)
      let d ← vectFold c.tfidf_meta "tfidf" (namesOf c.tfidf_meta) d
      let st ← ofOption a.tfidf_df_structure
      let d2 := Preprocessor.fillna (alignRight d st) "zeros"
      pure ({ a with tfidf_df := some d2 }, xt)
    else pure (a, xt)

/-- Lines 367-389: text-similarity encode, align, zero-fill, and join onto the
result frame. -/
def stageText (c : Config) (X : DF) : Attrs × Option DF → Except PErr (Attrs × Option DF) :=
  fun (a, xt) =>
    if c.text then do
      let d ← X.selectCols (namesOf c.text_meta)
      let d ← textFold (namesOf c.text_meta) d
      let st ← ofOption a.text_df_structure
      let d2 := Preprocessor.fillna (alignRight d st) "zeros"
      let xt2 ← joinOpt xt d2
      pure ({ a with text_df := some d2 }, xt2)
    else pure (a, xt)

/-- Lines 391-393: select the scaling subset. -/
def stageScaleSel (c : Config) (X : DF) : Attrs × Option DF → Except PErr (Attrs × Option DF) :=
  fun (a, xt) =>
    if c.scale then do
      let d ← X.selectCols (namesOf c.scale_meta)
      pure ({ a with scale_df := some d }, xt)
    else pure (a, xt)

/-- Lines 395-408: route the hashed columns into the scaling frame (when
`scale_hashed`) — refitting the scaler on the transform data when only hashed
columns are scaled — or join them onto the result frame. -/
def stageHashRoute (c : Config) : Attrs × Option DF → Except PErr (Attrs × Option DF) :=
  fun (a, xt) =>
    if c.hash && c.opts.scale_hashed then
      if c.scale then do
        let sd ← ofOption a.scale_df
        let hd ← ofOption a.hash_df
        let j ← sd.join hd
        pure ({ a with scale_df := some j }, xt)
      else do
        let hd ← ofOption a.hash_df
        let si ← Preprocessor.get_scaler hd c.opts.missing c.opts.scaler c.opts.kwargs
        pure ({ a with scale_df := some hd, scaler_instance := some si }, xt)
    else if c.hash then do
      let hd ← ofOption a.hash_df
      let xt2 ← joinOpt xt hd
      pure (a, xt2)
    else pure (a, xt)

/-- Lines 410-423: route the count vectors into the scaling frame or onto the
result frame. -/
def stageCvRoute (c : Config) : Attrs × Option DF → Except PErr (Attrs × Option DF) :=
  fun (a, xt) =>
    if c.cv && c.opts.scale_vectors then
      if c.scale || (c.hash && c.opts.scale_hashed) then do
        let sd ← ofOption a.scale_df
        let cd ← ofOption a.cv_df
        let j ← sd.join cd
        pure ({ a with scale_df := some j }, xt)
      else do
        let cd ← ofOption a.cv_df
        let si ← Preprocessor.get_scaler cd c.opts.missing c.opts.scaler c.opts.kwargs
        pure ({ a with scale_df := some cd, scaler_instance := some si }, xt)
    else if c.cv then do
      let cd ← ofOption a.cv_df
      let xt2 ← joinOpt xt cd
      pure (a, xt2)
    else pure (a, xt)

/-- Lines 425-438: route the tf-idf vectors into the scaling frame or onto the
result frame. -/
def stageTfidfRoute (c : Config) : Attrs × Option DF → Except PErr (Attrs × Option DF) :=
  fun (a, xt) =>
    if c.tfidf && c.opts.scale_vectors then
      if c.scale || (c.hash && c.opts.scale_hashed) || c.cv then do
        let sd ← ofOption a.scale_df
        let td ← ofOption a.tfidf_df
        let j ← sd.join td
        pure ({ a with scale_df := some j }, xt)
      else do
        let td ← ofOption a.tfidf_df
        let si ← Preprocessor.get_scaler td c.opts.missing c.opts.scaler c.opts.kwargs
        pure ({ a with scale_df := some td, scaler_instance := some si }, xt)
    else if c.tfidf then do
      let td ← ofOption a.tfidf_df
      let xt2 ← joinOpt xt td
      pure (a, xt2)
    else pure (a, xt)

/-- Lines 440-457, the `try/except AttributeError` block: align the scaling
frame to the fit-time structure, fill missing values with the configured
`missing` policy (computed from the transform-time frame), apply the fitted
scaler and join onto the result frame.  A missing attribute at any point
abandons the rest of the block silently, keeping the assignments already made;
any other exception propagates. -/
def stageTryScale (c : Config) : Attrs × Option DF → Except PErr (Attrs × Option DF) :=
  fun (a, xt) =>
    match a.scale_df with
    | Option.none => Except.ok (a, xt)
    | some sd =>
      if 0 < sd.rows.length then
        match a.scale_df_structure with
        | Option.none => Except.ok (a, xt)
        | some st =>
          let sd2 := Preprocessor.fillna (alignRight sd st) c.opts.missing
          let a2 := { a with scale_df := some sd2 }
          match a2.scaler_instance with
          | Option.none => Except.ok (a2, xt)
          | some si =>
            match si.transform sd2 with
            | Except.error e => Except.error e
            | Except.ok sd3 => do
              let xt2 ← joinOpt xt sd3
              pure ({ a2 with scale_df := some sd3 }, xt2)
      else Except.ok (a, xt)

/-- Lines 459-467: join the passthrough columns onto the result frame. -/
def stageNoPrep (c : Config) (X : DF) : Attrs × Option DF → Except PErr (Attrs × Option DF) :=
  fun (a, xt) =>
    if c.no_prep then do
      let d ← X.selectCols (namesOf c.none_meta)
      let xt2 ← joinOpt xt d
      pure ({ a with no_prep_df := some d }, xt2)
    else pure (a, xt)

def transformBody (c : Config) (a0 : Attrs) (X : DF) : Except PErr (Attrs × Option DF) := do
  let p ← stageOhe c X (a0, Option.none)
  let p ← stageHash c X p
  let p ← stageCv c X p
  let p ← stageTfidf c X p
  let p ← stageText c X p
  let p ← stageScaleSel c X p
  let p ← stageHashRoute c p
  let p ← stageCvRoute c p
  let p ← stageTfidfRoute c p
  let p ← stageTryScale c p
  stageNoPrep c X p

/-- `Preprocessor.transform(X, y=None)`: run the pipeline and return the
result per `return_type`; with `return_type='np'` a never-assembled result
(`X_transform` still `None`) raises `AttributeError` at `self.X_transform.values`,
otherwise the `None` is returned as-is. -/
def Preprocessor.transform (s : PState) (X : DF) : Except PErr (PState × Option DF) := do
  let (a, xt) ← transformBody s.cfg s.attrs X
  let a2 := { a with X_transform := xt }
  if s.cfg.opts.return_type == "np" then
    match xt with
    | Option.none => Except.error PErr.attributeError
    | some _ => pure (⟨s.cfg, a2⟩, xt)
  else pure (⟨s.cfg, a2⟩, xt)

/-- `Preprocessor.fit_transform(X, y=None, features=None, retrain=False)`
(lines 479-487): resolve `features`, then `fit` followed by `transform` on the
same data. -/
def Preprocessor.fit_transform (s : PState) (X : DF) (features : Option (List FeatureSpec))
    (retrain : Bool) : Except PErr (PState × Option DF) := do
  let f := features.getD s.cfg.features
  let s2 ← Preprocessor.fit s X (some f) retrain
  Preprocessor.transform s2 X

/-! Concrete scenarios used by the counterexample / code-evaluation theorems. -/

def c1feats : List FeatureSpec := [⟨"a", "num", "scaling", StratArg.none⟩]

def c1opts : Opts := ⟨"np", true, true, "mean", "StandardScaler", [], Option.none⟩

def c1p : PState := construct c1feats c1opts

def c1Xfit : DF := ⟨["a"], [(0, [Cell.num 1]), (1, [Cell.num 3])]⟩

def c1Xnew : DF := ⟨["a"], [(0, [Cell.num 10]), (1, [Cell.null])]⟩

/-- C1: the claim fails on the code.  With `missing="mean"`, fitting on a
column with values `[1, 3]` (fit-time mean `2`, fitted scaler parameters
`(2, 1)`) and transforming `[10, NaN]` fills the `NaN` with `10` — the mean
recomputed from the transform-time input by `fillna` at line 447 — rather than
with the fit-time statistic `2` (no fit-time fill statistic is carried in the
fitted state).  Both output cells equal `(10 - 2) / 1 = 8`; had the fit-time
mean been used the second cell would be `(2 - 2) / 1 = 0`. -/
theorem c1_transform_fill_recomputed :
    (Preprocessor.fit c1p c1Xfit Option.none false).map
        (fun s => s.attrs.scaler_instance.map ScalerState.stats) = Except.ok (some [(2, 1)]) ∧
    ((Preprocessor.fit c1p c1Xfit Option.none false).bind
        (fun s => Preprocessor.transform s c1Xnew)).map (fun p => p.2)
      = Except.ok (some ⟨["a"], [(0, [Cell.num ((10 - 2) / 1)]), (1, [Cell.num ((10 - 2) / 1)])]⟩) ∧
    colMeanCell (c1Xfit.colCells 0) = Cell.num 2 ∧
    colMeanCell (c1Xnew.colCells 0) = Cell.num 10 ∧
    Cell.num ((10 - 2) / 1) ≠ Cell.num ((2 - 2) / 1) := by
  refine ⟨by decide, by decide, by decide, by decide, by decide⟩

def c2feats : List FeatureSpec := [⟨"a", "num", "scaling", StratArg.none⟩]

def c2opts : Opts := ⟨"np", true, true, "zeros", "SuperScaler", [], Option.none⟩

def c2X : DF := ⟨["a"], [(0, [Cell.num 1])]⟩

/-- C2 counterexample: with the unknown scaler name `"SuperScaler"` and a
non-empty scaling input, `fit` does not raise — the `AttributeError` from
`getattr(preprocessing, scaler)` is swallowed by the
`except AttributeError: pass` at lines 284-285 — and no scaler is stored. -/
theorem c2_counterexample :
    (Preprocessor.fit (construct c2feats c2opts) c2X Option.none false).map
      (fun s => s.attrs.scaler_instance) = Except.ok Option.none := by
  decide

def c3feats : List FeatureSpec := [⟨"h", "str", "hashing", StratArg.nat 2⟩]

def c3opts : Opts := ⟨"np", false, true, "zeros", "StandardScaler", [], Option.none⟩

def c3X : DF := ⟨["h"], [(0, [Cell.str "aa"]), (1, [Cell.str "bb"]), (2, [Cell.str "aa"])]⟩

/-- C3 counterexample: a freshly constructed Preprocessor with a single
hashing feature and `scale_hashed=False` transforms successfully without any
prior `fit` — hashing keeps no fitted state — returning a full three-row
output rather than failing with a missing-state error. -/
theorem c3_counterexample :
    (Preprocessor.transform (construct c3feats c3opts) c3X).map
      (fun p => p.2.map DF.nrows) = Except.ok (some 3) := by
  decide

def c4p : PState := construct c3feats defaultOpts

def c4Xa : DF := ⟨["h"], [(0, [Cell.str "aa"]), (1, [Cell.str "ab"])]⟩

def c4Xb : DF := ⟨["h"], [(0, [Cell.str "zz"]), (1, [Cell.str "zz"])]⟩

/-- C4: the claim fails on the code.  For a Preprocessor with only a hashing
feature and the default `scale_hashed=True`, `fit` stores a scaler fitted on
the fit-time hashed data, but `transform` replaces `self.scaler_instance` with
a scaler refitted on the transform-time hashed data (line 402), mutating the
fitted state that the spec declares read-only during `transform` and
contradicting the source's own comment that scaling is fit exclusively on the
training data (line 198). -/
theorem c4_transform_refits_scaler :
    (Preprocessor.fit c4p c4Xa Option.none false).map
        (fun s => s.attrs.scaler_instance.map ScalerState.stats)
      = Except.ok (some [(⟨1, 2⟩, ⟨1, 4⟩), (⟨-1, 2⟩, ⟨1, 4⟩)]) ∧
    ((Preprocessor.fit c4p c4Xa Option.none false).bind
        (fun s => Preprocessor.transform s c4Xb)).map
        (fun p => p.1.attrs.scaler_instance.map ScalerState.stats)
      = Except.ok (some [(⟨0, 1⟩, ⟨1, 1⟩), (⟨-1, 1⟩, ⟨1, 1⟩)]) ∧
    (some [((⟨1, 2⟩ : Q), (⟨1, 4⟩ : Q)), (⟨-1, 2⟩, ⟨1, 4⟩)]
      ≠ some [((⟨0, 1⟩ : Q), (⟨1, 1⟩ : Q)), (⟨-1, 1⟩, ⟨1, 1⟩)]) := by
  refine ⟨by decide, by decide, by decide⟩

def c5feats : List FeatureSpec :=
  [⟨"a", "str", "one hot encoding", StratArg.none⟩, ⟨"b", "num", "scaling", StratArg.none⟩]

def c5p : PState := construct c5feats defaultOpts

def c5X1 : DF := ⟨["a", "b"], [(0, [Cell.str "x", Cell.num 1])]⟩

def c5X0 : DF := ⟨["a", "b"], []⟩

/-- C5 counterexample: for a Preprocessor fitted with a one-hot and a scaling
feature, transforming a one-row table yields columns `["a_x", "b"]` while
transforming a zero-row table yields only `["a_x"]` — the
`if len(self.scale_df) > 0` guard (line 442) silently skips the scaled block
for an empty input, so the output column set is not identical across inputs of
different row counts. -/
theorem c5_counterexample :
    ((Preprocessor.fit c5p c5X1 Option.none false).bind
        (fun s => Preprocessor.transform s c5X1)).map
        (fun p => p.1.attrs.X_transform.map DF.cols) = Except.ok (some ["a_x", "b"]) ∧
    ((Preprocessor.fit c5p c5X1 Option.none false).bind
        (fun s => Preprocessor.transform s c5X0)).map
        (fun p => p.1.attrs.X_transform.map DF.cols) = Except.ok (some ["a_x"]) ∧
    (["a_x", "b"] ≠ (["a_x"] : List String)) := by
  refine ⟨by decide, by decide, by decide⟩

def c7feats : List FeatureSpec :=
  [⟨"a", "str", "one hot encoding", StratArg.none⟩, ⟨"b", "str", "text_similarity", StratArg.none⟩]

def c7p : PState := construct c7feats defaultOpts

def c7X : DF := ⟨["a", "b"], [(0, [Cell.str "x", Cell.str "u"]), (0, [Cell.str "y", Cell.str "v"])]⟩

/-- C7 counterexample: with a duplicated row-index label, the index join of the
one-hot block with the text-similarity block (line 389) replicates rows: a
fitted Preprocessor transforming the two-row fit table itself returns four
rows, so row count is not preserved for every input table. -/
theorem c7_counterexample :
    ((Preprocessor.fit c7p c7X Option.none false).bind
        (fun s => Preprocessor.transform s c7X)).map (fun p => p.2.map DF.nrows)
      = Except.ok (some 4) ∧ c7X.nrows = 2 ∧ (4 ≠ 2) := by
  refine ⟨by decide, by decide, by decide⟩

/-- C6: `fit_transform(X, features, retrain)` equals `fit` followed by
`transform` on the same instance and the same data, for every Preprocessor
state, input table, features argument and retrain flag. -/
theorem c6_fit_transform_composes (s : PState) (X : DF)
    (features : Option (List FeatureSpec)) (retrain : Bool) :
    Preprocessor.fit_transform s X features retrain =
      (Preprocessor.fit s X features retrain).bind (fun s2 => Preprocessor.transform s2 X) := by
  cases features <;> rfl

/-- C10: `fit(X, retrain=True)` re-runs `self.__init__(features)` with only
the features argument, so every constructor option (`return_type`,
`scale_hashed`, `scale_vectors`, `missing`, `scaler`, extra scaler keyword
arguments, `logfile`) is reset to its default; only the features table (the
one passed, or the stored one) survives into the rebuilt configuration. -/
theorem c10_fit_retrain_resets (s : PState) (X : DF)
    (features : Option (List FeatureSpec)) (s2 : PState)
    (h : Preprocessor.fit s X features true = Except.ok s2) :
    s2.cfg = initConfig (features.getD s.cfg.features) defaultOpts ∧
      s2.cfg.opts = defaultOpts ∧ s2.cfg.features = features.getD s.cfg.features := by
  have h2 : (fitBody (initConfig (features.getD s.cfg.features) defaultOpts) s.attrs X).map
      (fun a => (⟨initConfig (features.getD s.cfg.features) defaultOpts, a⟩ : PState))
        = Except.ok s2 := h
  clear h
  revert h2
  cases fitBody (initConfig (features.getD s.cfg.features) defaultOpts) s.attrs X with
  | error e => intro h2; exact absurd h2 (by simp [Except.map])
  | ok a =>
    intro h2
    simp only [Except.map, Except.ok.injEq] at h2
    rw [← h2]
    exact ⟨rfl, rfl, rfl⟩

def c10opts : Opts := ⟨"df", false, false, "mean", "RobustScaler", [("q", "1")], some "log.txt"⟩

def c10p : PState := construct c1feats c10opts

/-- The state produced by the concrete retrain run of the C10 witness. -/
def c10s2 : PState :=
  ⟨initConfig c1feats defaultOpts,
   { emptyAttrs with
      scale_df := some ⟨["a"], [(0, [Cell.num ⟨1, 1⟩]), (1, [Cell.num ⟨3, 1⟩])]⟩,
      scale_df_structure := some ⟨["a"], [(0, [Cell.null]), (1, [Cell.null])]⟩,
      scaler_instance := some ⟨"StandardScaler", [], ["a"], [(⟨2, 1⟩, ⟨1, 1⟩)]⟩ }⟩

/-- Witness for C10: a concrete retrain run on a Preprocessor constructed with
every option set away from its default; the rebuilt configuration carries the
default options. -/
theorem c10_fit_retrain_resets_witness :
    Preprocessor.fit c10p c1Xfit Option.none true = Except.ok c10s2 ∧
      c10s2.cfg.opts = defaultOpts ∧ c10s2.cfg.features = c1feats :=
  have hfit : Preprocessor.fit c10p c1Xfit Option.none true = Except.ok c10s2 := by decide
  have h2 := c10_fit_retrain_resets c10p c1Xfit Option.none c10s2 hfit
  ⟨hfit, h2.2.1, h2.2.2⟩

/-! Reduction lemmas for the `Except` monad used throughout the pipeline
proofs. -/

theorem ebind_ok {ε α β : Type} (a : α) (f : α → Except ε β) :
    (Except.ok a : Except ε α) >>= f = f a := rfl

theorem ebind_err {ε α β : Type} (e : ε) (f : α → Except ε β) :
    (Except.error e : Except ε α) >>= f = Except.error e := rfl

theorem epure {ε α : Type} (a : α) : (pure a : Except ε α) = Except.ok a := rfl

theorem emap_ok {ε α β : Type} (a : α) (f : α → β) :
    (Except.ok a : Except ε α).map f = Except.ok (f a) := rfl

theorem emap_err {ε α β : Type} (e : ε) (f : α → β) :
    (Except.error e : Except ε α).map f = Except.error e := rfl

theorem metaFor_nil_of_ne (features : List FeatureSpec) (s0 s : String)
    (h : ∀ f ∈ features, f.feature_strategy = s0) (hs : s ≠ s0) :
    metaFor features s = [] := by
  unfold metaFor
  rw [List.filter_eq_nil]
  intro f hf
  rw [h f hf]
  simp only [beq_iff_eq]
  exact fun h2 => hs h2.symm

/-- C2 amended: for a Preprocessor whose features all use the scaling strategy
and whose scaler name is unknown, `fit(X)` does not raise a configuration
error — the `AttributeError` from `getattr(preprocessing, scaler)` is caught
by the `except AttributeError: pass` handler at lines 284-285 — and the fitted
state carries no scaler; the consequence (the scaled block silently skipped)
is deferred to `transform`. -/
theorem c2_amended (features : List FeatureSpec) (o : Opts) (X : DF)
    (hscaler : knownScalers.contains o.scaler = false)
    (honly : ∀ f ∈ features, f.feature_strategy = "scaling")
    (hsel : (namesOf (metaFor features "scaling")).all (fun c => X.cols.contains c) = true) :
    (Preprocessor.fit (construct features o) X Option.none false).map
      (fun s => s.attrs.scaler_instance) = Except.ok Option.none := by
  have h1 := metaFor_nil_of_ne features "scaling" "one hot encoding" honly (by decide)
  have h2 := metaFor_nil_of_ne features "scaling" "hashing" honly (by decide)
  have h3 := metaFor_nil_of_ne features "scaling" "count_vectorizing" honly (by decide)
  have h4 := metaFor_nil_of_ne features "scaling" "tf_idf" honly (by decide)
  have h5 := metaFor_nil_of_ne features "scaling" "text_similarity" honly (by decide)
  show ((fitBody (initConfig features o) emptyAttrs X).map
      (fun a => (⟨initConfig features o, a⟩ : PState))).map
      (fun s => s.attrs.scaler_instance) = Except.ok Option.none
  have hohe : (initConfig features o).ohe = false := by simp [initConfig, h1]
  have hhash : (initConfig features o).hash = false := by simp [initConfig, h2, coerceHashArgs]
  have hcv : (initConfig features o).cv = false := by simp [initConfig, h3, coerceVectArgs]
  have htfidf : (initConfig features o).tfidf = false := by simp [initConfig, h4, coerceVectArgs]
  have htext : (initConfig features o).text = false := by simp [initConfig, h5]
  have hmeta : (initConfig features o).scale_meta = metaFor features "scaling" := by
    simp [initConfig]
  have hsc : (initConfig features o).opts.scaler = o.scaler := by simp [initConfig]
  simp only [fitBody, fitOheStage, fitScaleStage, fitHashStage, fitCvStage,
    fitTfidfStage, fitTextStage, fitScalerStage, hohe, hhash, hcv, htfidf, htext,
    Bool.false_eq_true, if_false, ebind_ok, epure]
  cases hscale : (initConfig features o).scale with
  | false =>
    simp only [Bool.false_eq_true, if_false, ebind_ok, epure, emptyAttrs, emap_ok]
  | true =>
    simp only [if_true, hmeta, DF.selectCols, hsel, if_true, ebind_ok, epure]
    split
    · rename_i hlen
      have hgs : Preprocessor.get_scaler
          { cols := namesOf (metaFor features "scaling"),
            rows := X.rows.map (fun p =>
              (p.1, (namesOf (metaFor features "scaling")).map (cellAt X.cols p.2))) }
          (initConfig features o).opts.missing (initConfig features o).opts.scaler
          (initConfig features o).opts.kwargs = Except.error PErr.attributeError := by
        unfold Preprocessor.get_scaler
        rw [hsc, hscaler]
        simp
      rw [hgs]
      simp [epure, emap_ok, emptyAttrs]
    · simp [epure, emap_ok, emptyAttrs]

/-- Witness for C2 amended: the concrete unknown-scaler configuration. -/
theorem c2_amended_witness :
    knownScalers.contains c2opts.scaler = false ∧
      (Preprocessor.fit (construct c2feats c2opts) c2X Option.none false).map
        (fun s => s.attrs.scaler_instance) = Except.ok Option.none :=
  ⟨by decide, c2_amended c2feats c2opts c2X (by decide) (by decide) (by decide)⟩

/-! Evaluation helpers for the pre-fit transform analysis: each stage whose
strategy flag is off passes its input through unchanged, and a successful
`transformBody` that never assembled a result frame makes `transform` fail at
the final `self.X_transform.values` read (line 474) under `return_type='np'`. -/

theorem stageOhe_off {c : Config} {X : DF} {a : Attrs} {xt : Option DF}
    (hflag : c.ohe = false) : stageOhe c X (a, xt) = Except.ok (a, xt) := by
  unfold stageOhe
  simp only
  rw [hflag]
  rw [if_neg (by simp)]
  rfl

theorem stageHash_off {c : Config} {X : DF} {a : Attrs} {xt : Option DF}
    (hflag : c.hash = false) : stageHash c X (a, xt) = Except.ok (a, xt) := by
  unfold stageHash
  simp only
  rw [hflag]
  rw [if_neg (by simp)]
  rfl

theorem stageCv_off {c : Config} {X : DF} {a : Attrs} {xt : Option DF}
    (hflag : c.cv = false) : stageCv c X (a, xt) = Except.ok (a, xt) := by
  unfold stageCv
  simp only
  rw [hflag]
  rw [if_neg (by simp)]
  rfl

theorem stageTfidf_off {c : Config} {X : DF} {a : Attrs} {xt : Option DF}
    (hflag : c.tfidf = false) : stageTfidf c X (a, xt) = Except.ok (a, xt) := by
  unfold stageTfidf
  simp only
  rw [hflag]
  rw [if_neg (by simp)]
  rfl

theorem stageText_off {c : Config} {X : DF} {a : Attrs} {xt : Option DF}
    (hflag : c.text = false) : stageText c X (a, xt) = Except.ok (a, xt) := by
  unfold stageText
  simp only
  rw [hflag]
  rw [if_neg (by simp)]
  rfl

theorem stageHashRoute_off {c : Config} {a : Attrs} {xt : Option DF}
    (hflag : c.hash = false) : stageHashRoute c (a, xt) = Except.ok (a, xt) := by
  unfold stageHashRoute
  simp only
  rw [hflag]
  rw [Bool.false_and]
  rw [if_neg (by simp)]
  rw [if_neg (by simp)]
  rfl

theorem stageCvRoute_off {c : Config} {a : Attrs} {xt : Option DF}
    (hflag : c.cv = false) : stageCvRoute c (a, xt) = Except.ok (a, xt) := by
  unfold stageCvRoute
  simp only
  rw [hflag]
  rw [Bool.false_and]
  rw [if_neg (by simp)]
  rw [if_neg (by simp)]
  rfl

theorem stageTfidfRoute_off {c : Config} {a : Attrs} {xt : Option DF}
    (hflag : c.tfidf = false) : stageTfidfRoute c (a, xt) = Except.ok (a, xt) := by
  unfold stageTfidfRoute
  simp only
  rw [hflag]
  rw [Bool.false_and]
  rw [if_neg (by simp)]
  rw [if_neg (by simp)]
  rfl

theorem stageNoPrep_off {c : Config} {X : DF} {a : Attrs} {xt : Option DF}
    (hflag : c.no_prep = false) : stageNoPrep c X (a, xt) = Except.ok (a, xt) := by
  unfold stageNoPrep
  simp only
  rw [hflag]
  rw [if_neg (by simp)]
  rfl

theorem stageTryScale_no_structure (c : Config) (a : Attrs) (xt : Option DF)
    (hst : a.scale_df_structure = Option.none) :
    ∃ a2, stageTryScale c (a, xt) = Except.ok (a2, xt) := by
  unfold stageTryScale
  simp only
  cases hsd : a.scale_df with
  | none => exact ⟨a, rfl⟩
  | some sd =>
    simp only
    by_cases hr : 0 < sd.rows.length
    · rw [if_pos hr, hst]
      exact ⟨a, rfl⟩
    · rw [if_neg hr]
      exact ⟨a, rfl⟩

theorem transform_err_of_body {s : PState} {X : DF} {e : PErr}
    (hb : transformBody s.cfg s.attrs X = Except.error e) :
    Preprocessor.transform s X = Except.error e := by
  unfold Preprocessor.transform
  rw [hb]
  rfl

theorem transform_np_none {s : PState} {X : DF} {a2 : Attrs}
    (hb : transformBody s.cfg s.attrs X = Except.ok (a2, Option.none))
    (hrt : s.cfg.opts.return_type = "np") :
    Preprocessor.transform s X = Except.error PErr.attributeError := by
  unfold Preprocessor.transform
  rw [hb]
  simp only [ebind_ok]
  rw [hrt]
  rfl

/-- C3 amended: `transform` before any successful `fit` raises no dedicated
missing-state error.  Whichever of the four fitted-structure strategies the
pipeline reaches first — one-hot encoding, count-vectorizing, tf-idf,
text-similarity — fails with a generic `AttributeError` from reading its
never-assigned fit-time alignment structure (lines 306, 341, 359, 377); a
scaling-only configuration under the default `return_type='np'` also fails
before fit, but only at the final `self.X_transform.values` read (line 474),
after the try/except at lines 440-457 has silently swallowed the missing
`scale_df_structure`; and (per the counterexample) a hashing-only
configuration with `scale_hashed=False` does not fail at all. -/
theorem c3_amended (features : List FeatureSpec) (o : Opts) (X : DF) :
    ((initConfig features o).ohe = true →
      ((namesOf (initConfig features o).ohe_meta).all (fun c => X.cols.contains c)) = true →
      Preprocessor.transform (construct features o) X = Except.error PErr.attributeError) ∧
    ((initConfig features o).ohe = false → (initConfig features o).hash = false →
      (initConfig features o).cv = true →
      (∃ d0 d1, X.selectCols (namesOf (initConfig features o).cv_meta) = Except.ok d0 ∧
        vectFold (initConfig features o).cv_meta "count"
          (namesOf (initConfig features o).cv_meta) d0 = Except.ok d1) →
      Preprocessor.transform (construct features o) X = Except.error PErr.attributeError) ∧
    ((initConfig features o).ohe = false → (initConfig features o).hash = false →
      (initConfig features o).cv = false → (initConfig features o).tfidf = true →
      (∃ d0 d1, X.selectCols (namesOf (initConfig features o).tfidf_meta) = Except.ok d0 ∧
        vectFold (initConfig features o).tfidf_meta "tfidf"
          (namesOf (initConfig features o).tfidf_meta) d0 = Except.ok d1) →
      Preprocessor.transform (construct features o) X = Except.error PErr.attributeError) ∧
    ((initConfig features o).ohe = false → (initConfig features o).hash = false →
      (initConfig features o).cv = false → (initConfig features o).tfidf = false →
      (initConfig features o).text = true →
      (∃ d0 d1, X.selectCols (namesOf (initConfig features o).text_meta) = Except.ok d0 ∧
        textFold (namesOf (initConfig features o).text_meta) d0 = Except.ok d1) →
      Preprocessor.transform (construct features o) X = Except.error PErr.attributeError) ∧
    ((initConfig features o).ohe = false → (initConfig features o).hash = false →
      (initConfig features o).cv = false → (initConfig features o).tfidf = false →
      (initConfig features o).text = false → (initConfig features o).no_prep = false →
      (initConfig features o).scale = true → o.return_type = "np" →
      (∃ d0, X.selectCols (namesOf (initConfig features o).scale_meta) = Except.ok d0) →
      Preprocessor.transform (construct features o) X = Except.error PErr.attributeError) := by
  refine ⟨?_, ?_, ?_, ?_, ?_⟩
  · intro hohe hsel
    have h1 : stageOhe (initConfig features o) X (emptyAttrs, Option.none)
        = Except.error PErr.attributeError := by
      unfold stageOhe
      rw [hohe]
      simp only [if_true, DF.selectCols, hsel, ebind_ok, epure, ofOption, emptyAttrs, ebind_err]
    refine transform_err_of_body ?_
    show transformBody (initConfig features o) emptyAttrs X = _
    unfold transformBody
    rw [h1]
    rfl
  · intro hohe hhash hcv hex
    obtain ⟨d0, d1, hsel, hvf⟩ := hex
    have h3 : stageCv (initConfig features o) X (emptyAttrs, Option.none)
        = Except.error PErr.attributeError := by
      unfold stageCv
      simp only
      rw [hcv]
      rw [if_pos rfl]
      rw [hsel]
      simp only [ebind_ok]
      rw [hvf]
      simp only [ebind_ok]
      rfl
    refine transform_err_of_body ?_
    show transformBody (initConfig features o) emptyAttrs X = _
    unfold transformBody
    rw [stageOhe_off hohe]
    simp only [ebind_ok]
    rw [stageHash_off hhash]
    simp only [ebind_ok]
    rw [h3]
    rfl
  · intro hohe hhash hcv htf hex
    obtain ⟨d0, d1, hsel, hvf⟩ := hex
    have h4 : stageTfidf (initConfig features o) X (emptyAttrs, Option.none)
        = Except.error PErr.attributeError := by
      unfold stageTfidf
      simp only
      rw [htf]
      rw [if_pos rfl]
      rw [hsel]
      simp only [ebind_ok]
      rw [hvf]
      simp only [ebind_ok]
      rfl
    refine transform_err_of_body ?_
    show transformBody (initConfig features o) emptyAttrs X = _
    unfold transformBody
    rw [stageOhe_off hohe]
    simp only [ebind_ok]
    rw [stageHash_off hhash]
    simp only [ebind_ok]
    rw [stageCv_off hcv]
    simp only [ebind_ok]
    rw [h4]
    rfl
  · intro hohe hhash hcv htf htx hex
    obtain ⟨d0, d1, hsel, hvf⟩ := hex
    have h5 : stageText (initConfig features o) X (emptyAttrs, Option.none)
        = Except.error PErr.attributeError := by
      unfold stageText
      simp only
      rw [htx]
      rw [if_pos rfl]
      rw [hsel]
      simp only [ebind_ok]
      rw [hvf]
      simp only [ebind_ok]
      rfl
    refine transform_err_of_body ?_
    show transformBody (initConfig features o) emptyAttrs X = _
    unfold transformBody
    rw [stageOhe_off hohe]
    simp only [ebind_ok]
    rw [stageHash_off hhash]
    simp only [ebind_ok]
    rw [stageCv_off hcv]
    simp only [ebind_ok]
    rw [stageTfidf_off htf]
    simp only [ebind_ok]
    rw [h5]
    rfl
  · intro hohe hhash hcv htf htx hnp hsc hrt hex
    obtain ⟨d0, hsel⟩ := hex
    have h6 : stageScaleSel (initConfig features o) X (emptyAttrs, Option.none)
        = Except.ok ({ emptyAttrs with scale_df := some d0 }, Option.none) := by
      unfold stageScaleSel
      simp only
      rw [hsc]
      rw [if_pos rfl]
      rw [hsel]
      simp only [ebind_ok]
      rfl
    obtain ⟨a2, h10⟩ := stageTryScale_no_structure (initConfig features o)
      { emptyAttrs with scale_df := some d0 } Option.none rfl
    have hbody : transformBody (initConfig features o) emptyAttrs X
        = Except.ok (a2, Option.none) := by
      unfold transformBody
      rw [stageOhe_off hohe]
      simp only [ebind_ok]
      rw [stageHash_off hhash]
      simp only [ebind_ok]
      rw [stageCv_off hcv]
      simp only [ebind_ok]
      rw [stageTfidf_off htf]
      simp only [ebind_ok]
      rw [stageText_off htx]
      simp only [ebind_ok]
      rw [h6]
      simp only [ebind_ok]
      rw [stageHashRoute_off hhash]
      simp only [ebind_ok]
      rw [stageCvRoute_off hcv]
      simp only [ebind_ok]
      rw [stageTfidfRoute_off htf]
      simp only [ebind_ok]
      rw [h10]
      simp only [ebind_ok]
      rw [stageNoPrep_off hnp]
    exact transform_np_none hbody hrt

def c3wX : DF := ⟨["a"], [(0, [Cell.str "xx"]), (1, [Cell.str "yy"])]⟩

def c3ohef : List FeatureSpec := [⟨"a", "str", "one hot encoding", StratArg.none⟩]

def c3cvf : List FeatureSpec := [⟨"a", "str", "count_vectorizing", StratArg.none⟩]

def c3tff : List FeatureSpec := [⟨"a", "str", "tf_idf", StratArg.none⟩]

def c3txf : List FeatureSpec := [⟨"a", "str", "text_similarity", StratArg.none⟩]

def c3scf : List FeatureSpec := [⟨"a", "num", "scaling", StratArg.none⟩]

def c3cvSel : DF :=
  match c3wX.selectCols (namesOf (initConfig c3cvf defaultOpts).cv_meta) with
  | Except.ok d => d
  | Except.error _ => c3wX

def c3cvFold : DF :=
  match vectFold (initConfig c3cvf defaultOpts).cv_meta "count"
      (namesOf (initConfig c3cvf defaultOpts).cv_meta) c3cvSel with
  | Except.ok d => d
  | Except.error _ => c3wX

def c3tfSel : DF :=
  match c3wX.selectCols (namesOf (initConfig c3tff defaultOpts).tfidf_meta) with
  | Except.ok d => d
  | Except.error _ => c3wX

def c3tfFold : DF :=
  match vectFold (initConfig c3tff defaultOpts).tfidf_meta "tfidf"
      (namesOf (initConfig c3tff defaultOpts).tfidf_meta) c3tfSel with
  | Except.ok d => d
  | Except.error _ => c3wX

def c3txSel : DF :=
  match c3wX.selectCols (namesOf (initConfig c3txf defaultOpts).text_meta) with
  | Except.ok d => d
  | Except.error _ => c3wX

def c3txFold : DF :=
  match textFold (namesOf (initConfig c3txf defaultOpts).text_meta) c3txSel with
  | Except.ok d => d
  | Except.error _ => c3wX

def c3scSel : DF :=
  match c3wX.selectCols (namesOf (initConfig c3scf defaultOpts).scale_meta) with
  | Except.ok d => d
  | Except.error _ => c3wX

/-- Witness for C3 amended: all five pre-fit failure families exercised on
concrete single-column configurations — one-hot, count-vectorizing, tf-idf,
text-similarity, and scaling-only under `return_type='np'`. -/
theorem c3_amended_witness :
    Preprocessor.transform (construct c3ohef defaultOpts) c3wX
        = Except.error PErr.attributeError ∧
    Preprocessor.transform (construct c3cvf defaultOpts) c3wX
        = Except.error PErr.attributeError ∧
    Preprocessor.transform (construct c3tff defaultOpts) c3wX
        = Except.error PErr.attributeError ∧
    Preprocessor.transform (construct c3txf defaultOpts) c3wX
        = Except.error PErr.attributeError ∧
    Preprocessor.transform (construct c3scf defaultOpts) c3wX
        = Except.error PErr.attributeError :=
  ⟨(c3_amended c3ohef defaultOpts c3wX).1 (by decide) (by decide),
   (c3_amended c3cvf defaultOpts c3wX).2.1 (by decide) (by decide) (by decide)
     ⟨c3cvSel, c3cvFold, by decide, by decide⟩,
   (c3_amended c3tff defaultOpts c3wX).2.2.1 (by decide) (by decide) (by decide) (by decide)
     ⟨c3tfSel, c3tfFold, by decide, by decide⟩,
   (c3_amended c3txf defaultOpts c3wX).2.2.2.1 (by decide) (by decide) (by decide)
     (by decide) (by decide) ⟨c3txSel, c3txFold, by decide, by decide⟩,
   (c3_amended c3scf defaultOpts c3wX).2.2.2.2 (by decide) (by decide) (by decide)
     (by decide) (by decide) (by decide) (by decide) (by decide) ⟨c3scSel, by decide⟩⟩

/-! Inversion and list helper lemmas for the pipeline proofs. -/

theorem ebind_ok_inv {ε α β : Type} {x : Except ε α} {f : α → Except ε β} {b : β}
    (h : x >>= f = Except.ok b) : ∃ a, x = Except.ok a ∧ f a = Except.ok b := by
  cases x with
  | ok a => exact ⟨a, rfl, h⟩
  | error e => exact absurd h (by simp [ebind_err])

theorem toDigitsCore_length_mono (b : Nat) : ∀ (f n : Nat) (acc : List Char),
    acc.length ≤ (Nat.toDigitsCore b f n acc).length := by
  intro f
  induction f with
  | zero => intro n acc; simp [Nat.toDigitsCore]
  | succ f ih =>
    intro n acc
    simp only [Nat.toDigitsCore]
    split
    · simp
    · exact le_trans (by simp) (ih _ _)

theorem toDigits_ne_nil (b i : Nat) : Nat.toDigits b i ≠ [] := by
  unfold Nat.toDigits
  simp only [Nat.toDigitsCore]
  split
  · simp
  · intro h
    have h2 := toDigitsCore_length_mono b i (i / b) [Nat.digitChar (i % b)]
    rw [h] at h2
    simp at h2

theorem toStringNat_ne_empty (i : Nat) : toString i ≠ "" := by
  show Nat.repr i ≠ ""
  unfold Nat.repr
  intro h
  have h2 : (Nat.toDigits 10 i).asString.data = "".data := by rw [h]
  have h3 : (Nat.toDigits 10 i).asString.data = Nat.toDigits 10 i := rfl
  rw [h3] at h2
  exact toDigits_ne_nil 10 i (by simpa using h2)

theorem append_ne_self_of_ne_empty (c s : String) (hs : s ≠ "") : (c ++ s) ≠ c := by
  intro h
  have hd : (c ++ s).data = c.data := by rw [h]
  rw [String.data_append] at hd
  have h4 : s.data = [] :=
    List.append_cancel_left (hd.trans (List.append_nil c.data).symm)
  exact hs (by cases s; simp_all)

theorem flatMap_singleton {α β : Type} (l : List α) (f : α → List β) (g : α → β)
    (h : ∀ p ∈ l, f p = [g p]) : l.flatMap f = l.map g := by
  induction l with
  | nil => rfl
  | cons a rest ih =>
    simp only [List.flatMap_cons, List.map_cons, h a (by simp)]
    rw [ih (fun p hp => h p (by simp [hp]))]
    rfl

theorem mapStrs_eq (vals : List Cell) (strs : List String)
    (h : mapStrs vals = Except.ok strs) : vals = strs.map Cell.str := by
  induction vals generalizing strs with
  | nil =>
    simp only [mapStrs] at h
    cases h
    rfl
  | cons c rest ih =>
    simp only [mapStrs] at h
    obtain ⟨s, hs, h⟩ := ebind_ok_inv h
    obtain ⟨ss, hss, h⟩ := ebind_ok_inv h
    cases h
    cases c with
    | str s2 =>
      simp only [asStr] at hs
      cases hs
      simp [ih ss hss]
    | null => exact absurd hs (by simp [asStr])
    | num q => exact absurd hs (by simp [asStr])

theorem dedupFirstAux_nodup {α : Type} [DecidableEq α] :
    ∀ (l acc : List α), acc.Nodup → (dedupFirstAux l acc).Nodup := by
  intro l
  induction l with
  | nil => intro acc h; simpa [dedupFirstAux] using h
  | cons a rest ih =>
    intro acc h
    simp only [dedupFirstAux]
    split
    · exact ih acc h
    · rename_i hc
      refine ih (a :: acc) (List.nodup_cons.mpr ⟨?_, h⟩)
      intro hmem
      exact absurd (List.elem_eq_true_of_mem hmem) (by simp_all)

theorem dedupFirst_nodup {α : Type} [DecidableEq α] (l : List α) :
    (dedupFirst l).Nodup := dedupFirstAux_nodup l [] List.nodup_nil

theorem dedupFirstAux_mem {α : Type} [DecidableEq α] :
    ∀ (l acc : List α) (v : α), v ∈ l ∨ v ∈ acc → v ∈ dedupFirstAux l acc := by
  intro l
  induction l with
  | nil =>
    intro acc v h
    simp only [dedupFirstAux, List.mem_reverse]
    exact h.resolve_left (by simp)
  | cons a rest ih =>
    intro acc v h
    simp only [dedupFirstAux]
    split
    · rename_i hc
      refine ih acc v ?_
      rcases h with h | h
      · rcases List.mem_cons.mp h with h | h
        · subst h; exact Or.inr (List.mem_of_elem_eq_true hc)
        · exact Or.inl h
      · exact Or.inr h
    · refine ih (a :: acc) v ?_
      rcases h with h | h
      · rcases List.mem_cons.mp h with h | h
        · subst h; exact Or.inr (by simp)
        · exact Or.inl h
      · exact Or.inr (by simp [h])

theorem dedupFirst_mem {α : Type} [DecidableEq α] (l : List α) (v : α) (h : v ∈ l) :
    v ∈ dedupFirst l := dedupFirstAux_mem l [] v (Or.inl h)

theorem filter_key_len_le_one {α : Type} [DecidableEq α] {β : Type} :
    ∀ (l : List (α × β)) (v : α), (l.map Prod.fst).Nodup →
      (l.filter (fun q => q.1 == v)).length ≤ 1 := by
  intro l
  induction l with
  | nil => intro v h; simp
  | cons a rest ih =>
    intro v h
    simp only [List.map_cons, List.nodup_cons] at h
    by_cases hv : a.1 = v
    · subst hv
      rw [List.filter_cons_of_pos (by simp)]
      have hrest : rest.filter (fun q => q.1 == a.1) = [] := by
        rw [List.filter_eq_nil]
        intro q hq
        simp only [beq_iff_eq]
        intro hq1
        exact h.1 (hq1 ▸ List.mem_map_of_mem Prod.fst hq)
      rw [hrest]
      simp
    · rw [List.filter_cons_of_neg (by simp [hv])]
      exact ih v h.2

/-! Stage-level lemmas: which attributes each `transform` stage can modify.
Each lemma inverts a successful stage run. -/

theorem stageCv_hash_df {c : Config} {X : DF} {p p' : Attrs × Option DF}
    (h : stageCv c X p = Except.ok p') : p'.1.hash_df = p.1.hash_df := by
  obtain ⟨a, xt⟩ := p
  unfold stageCv at h
  simp only at h
  split at h
  · obtain ⟨d0, hd0, h⟩ := ebind_ok_inv h
    obtain ⟨d1, hd1, h⟩ := ebind_ok_inv h
    obtain ⟨st, hst, h⟩ := ebind_ok_inv h
    cases h
    rfl
  · cases h
    rfl

theorem stageTfidf_hash_df {c : Config} {X : DF} {p p' : Attrs × Option DF}
    (h : stageTfidf c X p = Except.ok p') : p'.1.hash_df = p.1.hash_df := by
  obtain ⟨a, xt⟩ := p
  unfold stageTfidf at h
  simp only at h
  split at h
  · obtain ⟨d0, hd0, h⟩ := ebind_ok_inv h
    obtain ⟨d1, hd1, h⟩ := ebind_ok_inv h
    obtain ⟨st, hst, h⟩ := ebind_ok_inv h
    cases h
    rfl
  · cases h
    rfl

theorem stageText_hash_df {c : Config} {X : DF} {p p' : Attrs × Option DF}
    (h : stageText c X p = Except.ok p') : p'.1.hash_df = p.1.hash_df := by
  obtain ⟨a, xt⟩ := p
  unfold stageText at h
  simp only at h
  split at h
  · obtain ⟨d0, hd0, h⟩ := ebind_ok_inv h
    obtain ⟨d1, hd1, h⟩ := ebind_ok_inv h
    obtain ⟨st, hst, h⟩ := ebind_ok_inv h
    obtain ⟨xt2, hxt2, h⟩ := ebind_ok_inv h
    cases h
    rfl
  · cases h
    rfl

theorem stageScaleSel_hash_df {c : Config} {X : DF} {p p' : Attrs × Option DF}
    (h : stageScaleSel c X p = Except.ok p') : p'.1.hash_df = p.1.hash_df := by
  obtain ⟨a, xt⟩ := p
  unfold stageScaleSel at h
  simp only at h
  split at h
  · obtain ⟨d0, hd0, h⟩ := ebind_ok_inv h
    cases h
    rfl
  · cases h
    rfl

theorem stageHashRoute_hash_df {c : Config} {p p' : Attrs × Option DF}
    (h : stageHashRoute c p = Except.ok p') : p'.1.hash_df = p.1.hash_df := by
  obtain ⟨a, xt⟩ := p
  unfold stageHashRoute at h
  simp only at h
  split at h
  · split at h
    · obtain ⟨sd, hsd, h⟩ := ebind_ok_inv h
      obtain ⟨hd, hhd, h⟩ := ebind_ok_inv h
      obtain ⟨j, hj, h⟩ := ebind_ok_inv h
      cases h
      rfl
    · obtain ⟨hd, hhd, h⟩ := ebind_ok_inv h
      obtain ⟨si, hsi, h⟩ := ebind_ok_inv h
      cases h
      rfl
  · split at h
    · obtain ⟨hd, hhd, h⟩ := ebind_ok_inv h
      obtain ⟨xt2, hxt2, h⟩ := ebind_ok_inv h
      cases h
      rfl
    · cases h
      rfl

theorem stageCvRoute_hash_df {c : Config} {p p' : Attrs × Option DF}
    (h : stageCvRoute c p = Except.ok p') : p'.1.hash_df = p.1.hash_df := by
  obtain ⟨a, xt⟩ := p
  unfold stageCvRoute at h
  simp only at h
  split at h
  · split at h
    · obtain ⟨sd, hsd, h⟩ := ebind_ok_inv h
      obtain ⟨cd, hcd, h⟩ := ebind_ok_inv h
      obtain ⟨j, hj, h⟩ := ebind_ok_inv h
      cases h
      rfl
    · obtain ⟨cd, hcd, h⟩ := ebind_ok_inv h
      obtain ⟨si, hsi, h⟩ := ebind_ok_inv h
      cases h
      rfl
  · split at h
    · obtain ⟨cd, hcd, h⟩ := ebind_ok_inv h
      obtain ⟨xt2, hxt2, h⟩ := ebind_ok_inv h
      cases h
      rfl
    · cases h
      rfl

theorem stageTfidfRoute_hash_df {c : Config} {p p' : Attrs × Option DF}
    (h : stageTfidfRoute c p = Except.ok p') : p'.1.hash_df = p.1.hash_df := by
  obtain ⟨a, xt⟩ := p
  unfold stageTfidfRoute at h
  simp only at h
  split at h
  · split at h
    · obtain ⟨sd, hsd, h⟩ := ebind_ok_inv h
      obtain ⟨td, htd, h⟩ := ebind_ok_inv h
      obtain ⟨j, hj, h⟩ := ebind_ok_inv h
      cases h
      rfl
    · obtain ⟨td, htd, h⟩ := ebind_ok_inv h
      obtain ⟨si, hsi, h⟩ := ebind_ok_inv h
      cases h
      rfl
  · split at h
    · obtain ⟨td, htd, h⟩ := ebind_ok_inv h
      obtain ⟨xt2, hxt2, h⟩ := ebind_ok_inv h
      cases h
      rfl
    · cases h
      rfl

theorem stageTryScale_hash_df {c : Config} {p p' : Attrs × Option DF}
    (h : stageTryScale c p = Except.ok p') : p'.1.hash_df = p.1.hash_df := by
  obtain ⟨a, xt⟩ := p
  unfold stageTryScale at h
  simp only at h
  split at h
  · cases h
    rfl
  · rename_i sd hsd
    split at h
    · split at h
      · cases h
        rfl
      · rename_i st hst
        split at h
        · cases h
          rfl
        · rename_i si hsi
          split at h
          · exact absurd h (by simp)
          · obtain ⟨xt2, hxt2, h⟩ := ebind_ok_inv h
            cases h
            rfl
    · cases h
      rfl

theorem stageNoPrep_hash_df {c : Config} {X : DF} {p p' : Attrs × Option DF}
    (h : stageNoPrep c X p = Except.ok p') : p'.1.hash_df = p.1.hash_df := by
  obtain ⟨a, xt⟩ := p
  unfold stageNoPrep at h
  simp only at h
  split at h
  · obtain ⟨d0, hd0, h⟩ := ebind_ok_inv h
    obtain ⟨xt2, hxt2, h⟩ := ebind_ok_inv h
    cases h
    rfl
  · cases h
    rfl

/-- Successful run of the hashing stage with the hashing flag set: the result
is exactly the fold of the per-column hashing loop over the selected subset,
stored in `hash_df`, with the accumulated result frame untouched. -/
theorem stageHash_ok {c : Config} {X : DF} {a : Attrs} {xt : Option DF}
    {p' : Attrs × Option DF} (hflag : c.hash = true)
    (h : stageHash c X (a, xt) = Except.ok p') :
    ∃ d0 d, X.selectCols (namesOf c.hash_meta) = Except.ok d0 ∧
      hashFold c.hash_meta (namesOf c.hash_meta) d0 = Except.ok d ∧
      p' = ({ a with hash_df := some d }, xt) := by
  unfold stageHash at h
  simp only at h
  rw [hflag] at h
  simp only [if_true] at h
  obtain ⟨d0, hd0, h⟩ := ebind_ok_inv h
  obtain ⟨d, hd, h⟩ := ebind_ok_inv h
  cases h
  exact ⟨d0, d, hd0, hd, rfl⟩

/-! Characterization of the single-column hashing pipeline. -/

theorem hashFold_single {ms : List FeatureSpec} {cname : String} {d0 d : DF}
    (h : hashFold ms [cname] d0 = Except.ok d) :
    ∃ u j, Preprocessor.hasher d0 cname (argFor ms cname) = Except.ok u ∧
      d0.joinOn cname u = Except.ok j ∧ d = j.dropCol cname := by
  simp only [hashFold] at h
  obtain ⟨u, hu, h⟩ := ebind_ok_inv h
  obtain ⟨j, hj, h⟩ := ebind_ok_inv h
  cases h
  exact ⟨u, j, hu, hj, rfl⟩

theorem hasher_ok_inv {d : DF} {c : String} {n : Nat} {u : KeyedDF}
    (h : Preprocessor.hasher d c (StratArg.nat n) = Except.ok u) :
    ∃ strs, mapStrs (dedupFirst (d.colVals c)) = Except.ok strs ∧
      u = ⟨(List.range n).map (fun i => c ++ toString i),
           strs.map (fun s => (Cell.str s, featureHash n s))⟩ := by
  unfold Preprocessor.hasher at h
  obtain ⟨strs, hstrs, h⟩ := ebind_ok_inv h
  simp only at h
  split at h
  · exact absurd h (by simp)
  · cases h
    exact ⟨strs, hstrs, rfl⟩

theorem joinOn_ok_inv {d : DF} {c : String} {u : KeyedDF} {j : DF}
    (h : d.joinOn c u = Except.ok j) :
    j = ⟨d.cols ++ u.cols, d.rows.flatMap (fun p =>
      match u.rows.filter (fun q => q.1 == cellAt d.cols p.2 c) with
      | [] => [(p.1, p.2 ++ u.cols.map (fun _ => Cell.null))]
      | ms => ms.map (fun q => (p.1, p.2 ++ q.2))) ⟩ := by
  unfold DF.joinOn at h
  split at h
  · exact absurd h (by simp)
  · cases h
    rfl

theorem joinOn_rows_map (d : DF) (c : String) (u : KeyedDF)
    (hnod : (u.rows.map Prod.fst).Nodup) :
    d.rows.flatMap (fun p =>
      match u.rows.filter (fun q => q.1 == cellAt d.cols p.2 c) with
      | [] => [(p.1, p.2 ++ u.cols.map (fun _ => Cell.null))]
      | ms => ms.map (fun q => (p.1, p.2 ++ q.2)))
    = d.rows.map (fun p => (p.1, p.2 ++
        (match u.rows.filter (fun q => q.1 == cellAt d.cols p.2 c) with
         | [] => u.cols.map (fun _ => Cell.null)
         | m :: _ => m.2))) := by
  apply flatMap_singleton
  intro p hp
  cases hf : u.rows.filter (fun q => q.1 == cellAt d.cols p.2 c) with
  | nil => rfl
  | cons m rest =>
    have hlen := filter_key_len_le_one u.rows (cellAt d.cols p.2 c) hnod
    rw [hf] at hlen
    simp only [List.length_cons] at hlen
    have hrest : rest = [] := List.eq_nil_of_length_eq_zero (by omega)
    subst hrest
    rfl

theorem cellAt_single (cname : String) (v : Cell) : cellAt [cname] [v] cname = v := by
  simp [cellAt]

/-- The hashed cells joined onto a row whose key is `v`. -/
def hashG (u : KeyedDF) (v : Cell) : List Cell :=
  match u.rows.filter (fun q => q.1 == v) with
  | [] => u.cols.map (fun _ => Cell.null)
  | m :: _ => m.2

/-- The full row of the hashed frame for a single hashed column with value
`v`: value and hashed cells joined, then the original column dropped. -/
def hashH (cname : String) (u : KeyedDF) (v : Cell) : List Cell :=
  (((cname :: u.cols).zip (v :: hashG u v)).filter (fun q => !(q.1 == cname))).map Prod.snd

/-- A successful single-hashing-column run: the hashed frame has exactly the
`n_features` bucket columns and each row is a function of the row's value in
the hashed column alone. -/
theorem hash_single_run {cname vt : String} {n : Nat} {X d0 d : DF}
    (hsel : X.selectCols [cname] = Except.ok d0)
    (hfold : hashFold [⟨cname, vt, "hashing", StratArg.nat n⟩] [cname] d0 = Except.ok d) :
    d.cols.length = n ∧
      ∃ H : Cell → List Cell,
        d.rows = X.rows.map (fun p => (p.1, H (cellAt X.cols p.2 cname))) := by
  obtain ⟨u, j, hu, hj, hd⟩ := hashFold_single hfold
  have harg : argFor [⟨cname, vt, "hashing", StratArg.nat n⟩] cname = StratArg.nat n := by
    simp [argFor, List.find?]
  rw [harg] at hu
  obtain ⟨strs, hstrs, huu⟩ := hasher_ok_inv hu
  have hvals := mapStrs_eq _ _ hstrs
  have hucols : u.cols = (List.range n).map (fun i => cname ++ toString i) := by rw [huu]
  have hnod : (u.rows.map Prod.fst).Nodup := by
    rw [huu]
    simp only [List.map_map]
    have hcomp : (Prod.fst ∘ fun s => (Cell.str s, featureHash n s)) = Cell.str := rfl
    rw [hcomp, ← hvals]
    exact dedupFirst_nodup _
  have hd0 : d0 = ⟨[cname], X.rows.map (fun p => (p.1, [cellAt X.cols p.2 cname]))⟩ := by
    unfold DF.selectCols at hsel
    split at hsel
    · cases hsel; rfl
    · exact absurd hsel (by simp)
  have hjj := joinOn_ok_inv hj
  have hkeep : u.cols.filter (fun x => !(x == cname)) = u.cols := by
    rw [List.filter_eq_self]
    intro x hx
    rw [hucols] at hx
    obtain ⟨i, hi, rfl⟩ := List.mem_map.mp hx
    simp only [Bool.not_eq_eq_eq_not, Bool.not_true]
    exact beq_eq_false_iff_ne.mpr
      (append_ne_self_of_ne_empty cname (toString i) (toStringNat_ne_empty i))
  constructor
  · rw [hd, hjj]
    show ((d0.cols ++ u.cols).filter (fun x => !(x == cname))).length = n
    rw [hd0]
    show (((cname :: u.cols)).filter (fun x => !(x == cname))).length = n
    rw [List.filter_cons_of_neg (by simp)]
    rw [hkeep, hucols]
    simp
  · refine ⟨hashH cname u, ?_⟩
    rw [hd, hjj]
    show ((⟨d0.cols ++ u.cols, _⟩ : DF).dropCol cname).rows
        = X.rows.map (fun p => (p.1, hashH cname u (cellAt X.cols p.2 cname)))
    unfold DF.dropCol
    simp only
    rw [joinOn_rows_map d0 cname u hnod]
    rw [hd0]
    simp only [List.map_map]
    apply List.map_congr_left
    intro p hp
    simp only [Function.comp]
    rw [cellAt_single]
    rfl

/-- Inversion of a successful `transform`: the pipeline body succeeded and the
returned state stores the assembled frame in `X_transform`. -/
theorem transform_inv {s : PState} {X : DF} {s2 : PState} {out : Option DF}
    (h : Preprocessor.transform s X = Except.ok (s2, out)) :
    ∃ a xt, transformBody s.cfg s.attrs X = Except.ok (a, xt) ∧
      s2 = ⟨s.cfg, { a with X_transform := xt }⟩ ∧ out = xt := by
  unfold Preprocessor.transform at h
  obtain ⟨⟨a, xt⟩, hb, h⟩ := ebind_ok_inv h
  refine ⟨a, xt, hb, ?_⟩
  simp only at h
  split at h
  · split at h
    · exact absurd h (by simp)
    · cases h
      exact ⟨rfl, rfl⟩
  · cases h
    exact ⟨rfl, rfl⟩

/-- Inversion of a successful `transformBody` into its eleven stages. -/
theorem transformBody_inv {c : Config} {a0 : Attrs} {X : DF} {r : Attrs × Option DF}
    (h : transformBody c a0 X = Except.ok r) :
    ∃ p1 p2 p3 p4 p5 p6 p7 p8 p9 p10,
      stageOhe c X (a0, Option.none) = Except.ok p1 ∧
      stageHash c X p1 = Except.ok p2 ∧
      stageCv c X p2 = Except.ok p3 ∧
      stageTfidf c X p3 = Except.ok p4 ∧
      stageText c X p4 = Except.ok p5 ∧
      stageScaleSel c X p5 = Except.ok p6 ∧
      stageHashRoute c p6 = Except.ok p7 ∧
      stageCvRoute c p7 = Except.ok p8 ∧
      stageTfidfRoute c p8 = Except.ok p9 ∧
      stageTryScale c p9 = Except.ok p10 ∧
      stageNoPrep c X p10 = Except.ok r := by
  unfold transformBody at h
  obtain ⟨p1, h1, h⟩ := ebind_ok_inv h
  obtain ⟨p2, h2, h⟩ := ebind_ok_inv h
  obtain ⟨p3, h3, h⟩ := ebind_ok_inv h
  obtain ⟨p4, h4, h⟩ := ebind_ok_inv h
  obtain ⟨p5, h5, h⟩ := ebind_ok_inv h
  obtain ⟨p6, h6, h⟩ := ebind_ok_inv h
  obtain ⟨p7, h7, h⟩ := ebind_ok_inv h
  obtain ⟨p8, h8, h⟩ := ebind_ok_inv h
  obtain ⟨p9, h9, h⟩ := ebind_ok_inv h
  obtain ⟨p10, h10, h⟩ := ebind_ok_inv h
  exact ⟨p1, p2, p3, p4, p5, p6, p7, p8, p9, p10, h1, h2, h3, h4, h5, h6, h7, h8, h9, h10, h⟩

/-- C9: for a Preprocessor whose hashing group is a single column `cname` with
bucket count `n`, any successful `transform` produces a hashed frame
(`hash_df`, the per-column hashed block of the output) with exactly `n`
columns, one row per input row, in which any two rows carrying the same value
in `cname` receive identical hashed feature vectors. -/
theorem c9_hashing (s : PState) (X : DF) (cname vt : String) (n : Nat)
    (hmeta : s.cfg.hash_meta = [⟨cname, vt, "hashing", StratArg.nat n⟩])
    (hflag : s.cfg.hash = true)
    (s2 : PState) (out : Option DF)
    (htr : Preprocessor.transform s X = Except.ok (s2, out)) :
    ∃ d, s2.attrs.hash_df = some d ∧ d.cols.length = n ∧ d.nrows = X.nrows ∧
      ∀ (k l : Nat) (pk pl : Nat × List Cell),
        X.rows[k]? = some pk → X.rows[l]? = some pl →
        cellAt X.cols pk.2 cname = cellAt X.cols pl.2 cname →
        ∃ rk rl : Nat × List Cell,
          d.rows[k]? = some rk ∧ d.rows[l]? = some rl ∧ rk.2 = rl.2 := by
  obtain ⟨a, xt, hbody, hs2, hout⟩ := transform_inv htr
  obtain ⟨p1, p2, p3, p4, p5, p6, p7, p8, p9, p10,
    h1, h2, h3, h4, h5, h6, h7, h8, h9, h10, h11⟩ := transformBody_inv hbody
  obtain ⟨a1, xt1⟩ := p1
  obtain ⟨d0, d, hsel, hfold, hp2⟩ := stageHash_ok hflag h2
  rw [hmeta] at hsel hfold
  have hnames : namesOf [(⟨cname, vt, "hashing", StratArg.nat n⟩ : FeatureSpec)] = [cname] := rfl
  rw [hnames] at hsel hfold
  obtain ⟨hcols, H, hrows⟩ := hash_single_run hsel hfold
  have hpres : a.hash_df = some d := by
    rw [hp2] at h3
    have e3 := stageCv_hash_df h3
    have e4 := stageTfidf_hash_df h4
    have e5 := stageText_hash_df h5
    have e6 := stageScaleSel_hash_df h6
    have e7 := stageHashRoute_hash_df h7
    have e8 := stageCvRoute_hash_df h8
    have e9 := stageTfidfRoute_hash_df h9
    have e10 := stageTryScale_hash_df h10
    have e11 := stageNoPrep_hash_df h11
    rw [e11, e10, e9, e8, e7, e6, e5, e4, e3]
  refine ⟨d, ?_, hcols, ?_, ?_⟩
  · rw [hs2]
    exact hpres
  · show d.rows.length = X.rows.length
    rw [hrows, List.length_map]
  · intro k l pk pl hk hl hvv
    refine ⟨(pk.1, H (cellAt X.cols pk.2 cname)), (pl.1, H (cellAt X.cols pl.2 cname)),
      ?_, ?_, by simp [hvv]⟩
    · rw [hrows, List.getElem?_map, hk]
      rfl
    · rw [hrows, List.getElem?_map, hl]
      rfl

def c9X : DF := ⟨["h"], [(0, [Cell.str "aa"]), (1, [Cell.str "aa"])]⟩

def c9hashDf : DF :=
  ⟨["h0", "h1"], [(0, [Cell.num ⟨0, 1⟩, Cell.num ⟨-1, 1⟩]),
                  (1, [Cell.num ⟨0, 1⟩, Cell.num ⟨-1, 1⟩])]⟩

def c9s2 : PState :=
  ⟨initConfig c3feats c3opts,
   { emptyAttrs with hash_df := some c9hashDf, X_transform := some c9hashDf }⟩

/-- Witness for C9: the single hashing column `h` with two buckets, on a
two-row input carrying the same value twice. -/
theorem c9_hashing_witness :
    (construct c3feats c3opts).cfg.hash_meta = [⟨"h", "str", "hashing", StratArg.nat 2⟩] ∧
      Preprocessor.transform (construct c3feats c3opts) c9X = Except.ok (c9s2, some c9hashDf) ∧
      ∃ d, c9s2.attrs.hash_df = some d ∧ d.cols.length = 2 ∧ d.nrows = c9X.nrows ∧
        ∀ (k l : Nat) (pk pl : Nat × List Cell),
          c9X.rows[k]? = some pk → c9X.rows[l]? = some pl →
          cellAt c9X.cols pk.2 "h" = cellAt c9X.cols pl.2 "h" →
          ∃ rk rl : Nat × List Cell,
            d.rows[k]? = some rk ∧ d.rows[l]? = some rl ∧ rk.2 = rl.2 :=
  have htr : Preprocessor.transform (construct c3feats c3opts) c9X
      = Except.ok (c9s2, some c9hashDf) := by decide
  ⟨by decide, htr,
   c9_hashing (construct c3feats c3opts) c9X "h" "str" 2 (by decide) (by decide)
     c9s2 (some c9hashDf) htr⟩

/-! Shape lemmas: each transform stage is, on success, a record update of a
known set of attributes. -/

theorem stageOhe_shape {c : Config} {X : DF} {a : Attrs} {xt : Option DF}
    {p' : Attrs × Option DF} (h : stageOhe c X (a, xt) = Except.ok p') :
    ∃ dOpt xt2, p' = ({ a with ohe_df := dOpt }, xt2) := by
  unfold stageOhe at h
  simp only at h
  split at h
  · obtain ⟨d0, hd0, h⟩ := ebind_ok_inv h
    obtain ⟨st, hst, h⟩ := ebind_ok_inv h
    cases h
    exact ⟨_, _, rfl⟩
  · cases h
    exact ⟨a.ohe_df, xt, rfl⟩

theorem stageHash_shape {c : Config} {X : DF} {a : Attrs} {xt : Option DF}
    {p' : Attrs × Option DF} (h : stageHash c X (a, xt) = Except.ok p') :
    ∃ dOpt, p' = ({ a with hash_df := dOpt }, xt) := by
  unfold stageHash at h
  simp only at h
  split at h
  · obtain ⟨d0, hd0, h⟩ := ebind_ok_inv h
    obtain ⟨d, hd, h⟩ := ebind_ok_inv h
    cases h
    exact ⟨_, rfl⟩
  · cases h
    exact ⟨a.hash_df, rfl⟩

theorem stageCv_shape {c : Config} {X : DF} {a : Attrs} {xt : Option DF}
    {p' : Attrs × Option DF} (h : stageCv c X (a, xt) = Except.ok p') :
    ∃ dOpt, p' = ({ a with cv_df := dOpt }, xt) := by
  unfold stageCv at h
  simp only at h
  split at h
  · obtain ⟨d0, hd0, h⟩ := ebind_ok_inv h
    obtain ⟨d1, hd1, h⟩ := ebind_ok_inv h
    obtain ⟨st, hst, h⟩ := ebind_ok_inv h
    cases h
    exact ⟨_, rfl⟩
  · cases h
    exact ⟨a.cv_df, rfl⟩

theorem stageTfidf_shape {c : Config} {X : DF} {a : Attrs} {xt : Option DF}
    {p' : Attrs × Option DF} (h : stageTfidf c X (a, xt) = Except.ok p') :
    ∃ dOpt, p' = ({ a with tfidf_df := dOpt }, xt) := by
  unfold stageTfidf at h
  simp only at h
  split at h
  · obtain ⟨d0, hd0, h⟩ := ebind_ok_inv h
    obtain ⟨d1, hd1, h⟩ := ebind_ok_inv h
    obtain ⟨st, hst, h⟩ := ebind_ok_inv h
    cases h
    exact ⟨_, rfl⟩
  · cases h
    exact ⟨a.tfidf_df, rfl⟩

theorem stageText_shape {c : Config} {X : DF} {a : Attrs} {xt : Option DF}
    {p' : Attrs × Option DF} (h : stageText c X (a, xt) = Except.ok p') :
    ∃ dOpt xt2, p' = ({ a with text_df := dOpt }, xt2) := by
  unfold stageText at h
  simp only at h
  split at h
  · obtain ⟨d0, hd0, h⟩ := ebind_ok_inv h
    obtain ⟨d1, hd1, h⟩ := ebind_ok_inv h
    obtain ⟨st, hst, h⟩ := ebind_ok_inv h
    obtain ⟨xt2, hxt2, h⟩ := ebind_ok_inv h
    cases h
    exact ⟨_, _, rfl⟩
  · cases h
    exact ⟨a.text_df, xt, rfl⟩

theorem stageScaleSel_shape {c : Config} {X : DF} {a : Attrs} {xt : Option DF}
    {p' : Attrs × Option DF} (h : stageScaleSel c X (a, xt) = Except.ok p') :
    ∃ sdOpt, p' = ({ a with scale_df := sdOpt }, xt) := by
  unfold stageScaleSel at h
  simp only at h
  split at h
  · obtain ⟨d0, hd0, h⟩ := ebind_ok_inv h
    cases h
    exact ⟨_, rfl⟩
  · cases h
    exact ⟨a.scale_df, rfl⟩

theorem stageHashRoute_shape {c : Config} {a : Attrs} {xt : Option DF}
    {p' : Attrs × Option DF} (h : stageHashRoute c (a, xt) = Except.ok p') :
    ∃ sdOpt siOpt xt2, p' = ({ a with scale_df := sdOpt, scaler_instance := siOpt }, xt2) := by
  unfold stageHashRoute at h
  simp only at h
  split at h
  · split at h
    · obtain ⟨sd, hsd, h⟩ := ebind_ok_inv h
      obtain ⟨hd, hhd, h⟩ := ebind_ok_inv h
      obtain ⟨j, hj, h⟩ := ebind_ok_inv h
      cases h
      exact ⟨_, a.scaler_instance, xt, rfl⟩
    · obtain ⟨hd, hhd, h⟩ := ebind_ok_inv h
      obtain ⟨si, hsi, h⟩ := ebind_ok_inv h
      cases h
      exact ⟨_, _, xt, rfl⟩
  · split at h
    · obtain ⟨hd, hhd, h⟩ := ebind_ok_inv h
      obtain ⟨xt2, hxt2, h⟩ := ebind_ok_inv h
      cases h
      exact ⟨a.scale_df, a.scaler_instance, xt2, rfl⟩
    · cases h
      exact ⟨a.scale_df, a.scaler_instance, xt, rfl⟩

theorem stageCvRoute_shape {c : Config} {a : Attrs} {xt : Option DF}
    {p' : Attrs × Option DF} (h : stageCvRoute c (a, xt) = Except.ok p') :
    ∃ sdOpt siOpt xt2, p' = ({ a with scale_df := sdOpt, scaler_instance := siOpt }, xt2) := by
  unfold stageCvRoute at h
  simp only at h
  split at h
  · split at h
    · obtain ⟨sd, hsd, h⟩ := ebind_ok_inv h
      obtain ⟨cd, hcd, h⟩ := ebind_ok_inv h
      obtain ⟨j, hj, h⟩ := ebind_ok_inv h
      cases h
      exact ⟨_, a.scaler_instance, xt, rfl⟩
    · obtain ⟨cd, hcd, h⟩ := ebind_ok_inv h
      obtain ⟨si, hsi, h⟩ := ebind_ok_inv h
      cases h
      exact ⟨_, _, xt, rfl⟩
  · split at h
    · obtain ⟨cd, hcd, h⟩ := ebind_ok_inv h
      obtain ⟨xt2, hxt2, h⟩ := ebind_ok_inv h
      cases h
      exact ⟨a.scale_df, a.scaler_instance, xt2, rfl⟩
    · cases h
      exact ⟨a.scale_df, a.scaler_instance, xt, rfl⟩

theorem stageTfidfRoute_shape {c : Config} {a : Attrs} {xt : Option DF}
    {p' : Attrs × Option DF} (h : stageTfidfRoute c (a, xt) = Except.ok p') :
    ∃ sdOpt siOpt xt2, p' = ({ a with scale_df := sdOpt, scaler_instance := siOpt }, xt2) := by
  unfold stageTfidfRoute at h
  simp only at h
  split at h
  · split at h
    · obtain ⟨sd, hsd, h⟩ := ebind_ok_inv h
      obtain ⟨td, htd, h⟩ := ebind_ok_inv h
      obtain ⟨j, hj, h⟩ := ebind_ok_inv h
      cases h
      exact ⟨_, a.scaler_instance, xt, rfl⟩
    · obtain ⟨td, htd, h⟩ := ebind_ok_inv h
      obtain ⟨si, hsi, h⟩ := ebind_ok_inv h
      cases h
      exact ⟨_, _, xt, rfl⟩
  · split at h
    · obtain ⟨td, htd, h⟩ := ebind_ok_inv h
      obtain ⟨xt2, hxt2, h⟩ := ebind_ok_inv h
      cases h
      exact ⟨a.scale_df, a.scaler_instance, xt2, rfl⟩
    · cases h
      exact ⟨a.scale_df, a.scaler_instance, xt, rfl⟩

theorem stageTryScale_shape {c : Config} {a : Attrs} {xt : Option DF}
    {p' : Attrs × Option DF} (h : stageTryScale c (a, xt) = Except.ok p') :
    ∃ sdOpt xt2, p' = ({ a with scale_df := sdOpt }, xt2) := by
  unfold stageTryScale at h
  simp only at h
  split at h
  · cases h
    exact ⟨a.scale_df, xt, rfl⟩
  · split at h
    · split at h
      · cases h
        exact ⟨a.scale_df, xt, rfl⟩
      · split at h
        · cases h
          exact ⟨_, xt, rfl⟩
        · split at h
          · exact absurd h (by simp)
          · obtain ⟨xt2, hxt2, h⟩ := ebind_ok_inv h
            cases h
            exact ⟨_, _, rfl⟩
    · cases h
      exact ⟨a.scale_df, xt, rfl⟩

theorem stageNoPrep_shape {c : Config} {X : DF} {a : Attrs} {xt : Option DF}
    {p' : Attrs × Option DF} (h : stageNoPrep c X (a, xt) = Except.ok p') :
    ∃ dOpt xt2, p' = ({ a with no_prep_df := dOpt }, xt2) := by
  unfold stageNoPrep at h
  simp only at h
  split at h
  · obtain ⟨d0, hd0, h⟩ := ebind_ok_inv h
    obtain ⟨xt2, hxt2, h⟩ := ebind_ok_inv h
    cases h
    exact ⟨_, _, rfl⟩
  · cases h
    exact ⟨a.no_prep_df, xt, rfl⟩

/-! Cell-access and one-hot content lemmas. -/

theorem cellAt_not_mem : ∀ (cols : List String) (r : List Cell) (c : String),
    cols.contains c = false → cellAt cols r c = Cell.null := by
  intro cols
  induction cols with
  | nil => intro r c h; cases r <;> rfl
  | cons c0 cs ih =>
    intro r c h
    simp only [List.contains_cons, Bool.or_eq_false_iff] at h
    cases r with
    | nil => rfl
    | cons x xs =>
      simp only [cellAt]
      rw [if_neg (by simp_all [BEq.comm])]
      exact ih xs c h.2

theorem cellAt_map_self (f : String → Cell) (t : String) : ∀ (cols : List String),
    cellAt cols (cols.map f) t = if cols.contains t then f t else Cell.null := by
  intro cols
  induction cols with
  | nil => rfl
  | cons c0 cs ih =>
    simp only [List.map_cons, cellAt, List.contains_cons]
    by_cases h : c0 = t
    · subst h
      simp
    · rw [if_neg (by simpa using h), ih]
      have hbeq : (t == c0) = false := by simpa using fun he => h he.symm
      rw [hbeq]
      simp

theorem insertLe_mem {α : Type} (le : α → α → Bool) (a x : α) : ∀ (l : List α),
    x ∈ insertLe le a l ↔ x = a ∨ x ∈ l := by
  intro l
  induction l with
  | nil => simp [insertLe]
  | cons b r ih =>
    simp only [insertLe]
    split
    · simp [List.mem_cons]
    · simp only [List.mem_cons, ih]
      tauto

theorem sortLe_mem {α : Type} (le : α → α → Bool) (x : α) : ∀ (l : List α),
    x ∈ sortLe le l ↔ x ∈ l := by
  intro l
  induction l with
  | nil => simp [sortLe]
  | cons b r ih =>
    simp only [sortLe, List.foldr_cons]
    rw [insertLe_mem]
    simp only [List.mem_cons]
    constructor
    · rintro (h | h)
      · exact Or.inl h
      · exact Or.inr ((ih).mp (by simpa [sortLe] using h))
    · rintro (h | h)
      · exact Or.inl h
      · exact Or.inr (by simpa [sortLe] using (ih).mpr h)

theorem dedupFirstAux_subset {α : Type} [DecidableEq α] :
    ∀ (l acc : List α) (x : α), x ∈ dedupFirstAux l acc → x ∈ l ∨ x ∈ acc := by
  intro l
  induction l with
  | nil =>
    intro acc x h
    simp only [dedupFirstAux, List.mem_reverse] at h
    exact Or.inr h
  | cons a rest ih =>
    intro acc x h
    simp only [dedupFirstAux] at h
    split at h
    · rcases ih acc x h with h2 | h2
      · exact Or.inl (by simp [h2])
      · exact Or.inr h2
    · rcases ih (a :: acc) x h with h2 | h2
      · exact Or.inl (by simp [h2])
      · rcases List.mem_cons.mp h2 with h3 | h3
        · exact Or.inl (by simp [h3])
        · exact Or.inr h3

theorem dedupFirst_subset {α : Type} [DecidableEq α] (l : List α) (x : α)
    (h : x ∈ dedupFirst l) : x ∈ l :=
  (dedupFirstAux_subset l [] x h).resolve_right (by simp)

theorem dummyVals_subset (cells : List Cell) (v : Cell) (h : v ∈ dummyVals cells) :
    v ∈ cells ∧ v ≠ Cell.null := by
  unfold dummyVals at h
  rw [sortLe_mem] at h
  have h2 := dedupFirst_subset _ _ h
  have h3 := List.of_mem_filter h2
  refine ⟨List.mem_of_mem_filter h2, ?_⟩
  simpa using h3

theorem getD_succ_tail {α : Type} (l : List α) (i : Nat) (d : α) :
    l.getD (i + 1) d = l.tail.getD i d := by
  cases l <;> rfl

theorem fillzeros_enumFrom (rest : List Cell) : ∀ (k : Nat) (fills : List Cell),
    (∀ i, i < rest.length → fills.getD (k + i) Cell.null = Cell.num 0) →
    (List.enumFrom k rest).map
        (fun q => if q.2 == Cell.null then fills.getD q.1 Cell.null else q.2)
      = rest.map (fun x => if x == Cell.null then Cell.num 0 else x) := by
  induction rest with
  | nil => intro k fills h; rfl
  | cons a rest ih =>
    intro k fills h
    rw [List.enumFrom_cons]
    simp only [List.map_cons]
    congr 1
    · have h0 := h 0 (by simp)
      rw [Nat.add_zero] at h0
      rw [h0]
    · rw [← ih (k + 1) fills (fun i hi => by
        rw [Nat.add_assoc, Nat.add_comm 1 i] at *
        exact h (i + 1) (by simpa using hi))]

theorem fillzeros_row (r : List Cell) (fills : List Cell)
    (h : ∀ i, i < r.length → fills.getD i Cell.null = Cell.num 0) :
    r.enum.map (fun q => if q.2 == Cell.null then fills.getD q.1 Cell.null else q.2)
      = r.map (fun x => if x == Cell.null then Cell.num 0 else x) := by
  show (List.enumFrom 0 r).map _ = _
  exact fillzeros_enumFrom r 0 fills (fun i hi => by simpa using h i hi)

/-- Filling an exact-width frame with zeros replaces every `null` cell by
numeric `0`. -/
theorem fillna_zeros_rows (cols : List String) (rows : List (Nat × List Cell))
    (hw : ∀ p ∈ rows, (p.2 : List Cell).length ≤ cols.length) :
    Preprocessor.fillna ⟨cols, rows⟩ "zeros"
      = ⟨cols, rows.map (fun p =>
          (p.1, p.2.map (fun x => if x == Cell.null then Cell.num 0 else x)))⟩ := by
  show fillBy ⟨cols, rows⟩ (fun _ => Cell.num 0) = _
  unfold fillBy
  simp only
  congr 1
  apply List.map_congr_left
  intro p hp
  congr 1
  apply fillzeros_row
  intro i hi
  have hlt : i < cols.length := lt_of_lt_of_le hi (hw p hp)
  rw [List.getD_eq_getElem?_getD]
  rw [List.getElem?_map]
  simp [List.getElem?_range, hlt]

theorem contains_false_of_not_mem {α : Type} [BEq α] [LawfulBEq α] {l : List α} {x : α}
    (h : x ∉ l) : l.contains x = false := by
  rw [← Bool.not_eq_true]
  intro hc
  exact h (List.mem_of_elem_eq_true hc)

theorem string_append_left_cancel {s a b : String} (h : s ++ a = s ++ b) : a = b := by
  have h2 : (s ++ a).data = (s ++ b).data := by rw [h]
  rw [String.data_append, String.data_append] at h2
  have h3 := List.append_cancel_left h2
  cases a
  cases b
  simp_all

/-- The selected one-column frame `X[[c]]`. -/
def oheSel (cname : String) (X : DF) : DF :=
  ⟨[cname], X.rows.map (fun p => (p.1, [cellAt X.cols p.2 cname]))⟩

theorem selectCols_single {X : DF} {cname : String} (h : X.cols.contains cname = true) :
    X.selectCols [cname] = Except.ok (oheSel cname X) := by
  unfold DF.selectCols
  rw [if_pos (by simp [List.mem_of_elem_eq_true h])]
  rfl

theorem getDummies_single (cname : String) (rows : List (Nat × List Cell)) :
    getDummies ⟨[cname], rows⟩
      = ⟨(dummyVals (rows.map (fun p => p.2.getD 0 Cell.null))).map
            (fun v => cname ++ "_" ++ cellStr v),
         rows.map (fun p =>
           (p.1, (dummyVals (rows.map (fun q => q.2.getD 0 Cell.null))).map
             (fun v => if p.2.getD 0 Cell.null == v then Cell.num 1 else Cell.num 0)))⟩ := by
  unfold getDummies DF.colCells
  simp [List.enum]

theorem oheSel_colCells (cname : String) (X : DF) :
    (oheSel cname X).rows.map (fun p => p.2.getD 0 Cell.null) = X.colVals cname := by
  unfold oheSel DF.colVals
  rw [List.map_map]
  rfl

/-- The feature definitions row of a single one-hot column. -/
def oheFeat (cname vt : String) (arg : StratArg) : FeatureSpec :=
  ⟨cname, vt, "one hot encoding", arg⟩

/-- The transform-time one-hot block: encode, align to the fit-time structure,
zero-fill. -/
def oheBlock (cname : String) (st : DF) (X : DF) : DF :=
  Preprocessor.fillna (alignRight (getDummies (oheSel cname X)) st) "zeros"

theorem fit_ohe_only (cname vt : String) (arg : StratArg) (o : Opts) (X0 : DF)
    (hsel0 : X0.cols.contains cname = true) :
    Preprocessor.fit (construct [oheFeat cname vt arg] o) X0 Option.none false
      = Except.ok ⟨initConfig [oheFeat cname vt arg] o,
          { emptyAttrs with
            ohe_df := some (getDummies (oheSel cname X0)),
            ohe_df_structure := some (structureOf (getDummies (oheSel cname X0))) }⟩ := by
  have honly : ∀ f ∈ [oheFeat cname vt arg], f.feature_strategy = "one hot encoding" := by
    simp [oheFeat]
  have h2 := metaFor_nil_of_ne _ "one hot encoding" "hashing" honly (by decide)
  have h3 := metaFor_nil_of_ne _ "one hot encoding" "count_vectorizing" honly (by decide)
  have h4 := metaFor_nil_of_ne _ "one hot encoding" "tf_idf" honly (by decide)
  have h5 := metaFor_nil_of_ne _ "one hot encoding" "text_similarity" honly (by decide)
  have h6 := metaFor_nil_of_ne _ "one hot encoding" "scaling" honly (by decide)
  have hohe : (initConfig [oheFeat cname vt arg] o).ohe = true := by
    simp [initConfig, metaFor, oheFeat]
  have hhash : (initConfig [oheFeat cname vt arg] o).hash = false := by
    simp [initConfig, h2, coerceHashArgs]
  have hcv : (initConfig [oheFeat cname vt arg] o).cv = false := by
    simp [initConfig, h3, coerceVectArgs]
  have htfidf : (initConfig [oheFeat cname vt arg] o).tfidf = false := by
    simp [initConfig, h4, coerceVectArgs]
  have htext : (initConfig [oheFeat cname vt arg] o).text = false := by
    simp [initConfig, h5]
  have hscale : (initConfig [oheFeat cname vt arg] o).scale = false := by
    simp [initConfig, h6]
  have hmeta : (initConfig [oheFeat cname vt arg] o).ohe_meta = [oheFeat cname vt arg] := by
    simp [initConfig, metaFor, oheFeat]
  have hnames : namesOf [oheFeat cname vt arg] = [cname] := rfl
  show (fitBody (initConfig [oheFeat cname vt arg] o) emptyAttrs X0).map
      (fun a => (⟨initConfig [oheFeat cname vt arg] o, a⟩ : PState)) = _
  simp only [fitBody, fitOheStage, fitScaleStage, fitHashStage, fitCvStage,
    fitTfidfStage, fitTextStage, fitScalerStage, hohe, hhash, hcv, htfidf, htext,
    hscale, hmeta, hnames, Bool.false_eq_true, if_false, if_true, ebind_ok, epure,
    selectCols_single hsel0]
  rfl

theorem transform_ohe_only (cname vt : String) (arg : StratArg) (o : Opts) (X : DF)
    (a : Attrs) (st : DF)
    (hsel : X.cols.contains cname = true)
    (hst : a.ohe_df_structure = some st)
    (hsd : a.scale_df = Option.none) :
    Preprocessor.transform ⟨initConfig [oheFeat cname vt arg] o, a⟩ X
      = Except.ok
          (⟨initConfig [oheFeat cname vt arg] o,
            { a with ohe_df := some (oheBlock cname st X),
                     X_transform := some (oheBlock cname st X) }⟩,
           some (oheBlock cname st X)) := by
  have honly : ∀ f ∈ [oheFeat cname vt arg], f.feature_strategy = "one hot encoding" := by
    simp [oheFeat]
  have h2 := metaFor_nil_of_ne _ "one hot encoding" "hashing" honly (by decide)
  have h3 := metaFor_nil_of_ne _ "one hot encoding" "count_vectorizing" honly (by decide)
  have h4 := metaFor_nil_of_ne _ "one hot encoding" "tf_idf" honly (by decide)
  have h5 := metaFor_nil_of_ne _ "one hot encoding" "text_similarity" honly (by decide)
  have h6 := metaFor_nil_of_ne _ "one hot encoding" "scaling" honly (by decide)
  have h7 := metaFor_nil_of_ne _ "one hot encoding" "none" honly (by decide)
  have hohe : (initConfig [oheFeat cname vt arg] o).ohe = true := by
    simp [initConfig, metaFor, oheFeat]
  have hhash : (initConfig [oheFeat cname vt arg] o).hash = false := by
    simp [initConfig, h2, coerceHashArgs]
  have hcv : (initConfig [oheFeat cname vt arg] o).cv = false := by
    simp [initConfig, h3, coerceVectArgs]
  have htfidf : (initConfig [oheFeat cname vt arg] o).tfidf = false := by
    simp [initConfig, h4, coerceVectArgs]
  have htext : (initConfig [oheFeat cname vt arg] o).text = false := by
    simp [initConfig, h5]
  have hscale : (initConfig [oheFeat cname vt arg] o).scale = false := by
    simp [initConfig, h6]
  have hnp : (initConfig [oheFeat cname vt arg] o).no_prep = false := by
    simp [initConfig, h7]
  have hmeta : (initConfig [oheFeat cname vt arg] o).ohe_meta = [oheFeat cname vt arg] := by
    simp [initConfig, metaFor, oheFeat]
  have hnames : namesOf [oheFeat cname vt arg] = [cname] := rfl
  have hbody : transformBody (initConfig [oheFeat cname vt arg] o) a X
      = Except.ok ({ a with ohe_df := some (oheBlock cname st X) },
                   some (oheBlock cname st X)) := by
    unfold transformBody
    simp only [stageOhe, stageHash, stageCv, stageTfidf, stageText, stageScaleSel,
      stageHashRoute, stageCvRoute, stageTfidfRoute, stageTryScale, stageNoPrep,
      hohe, hhash, hcv, htfidf, htext, hscale, hnp, hmeta, hnames,
      Bool.false_eq_true, Bool.false_and, Bool.and_self, if_false, if_true,
      ebind_ok, epure, selectCols_single hsel, hst, ofOption, hsd, oheBlock]
  unfold Preprocessor.transform
  rw [hbody]
  simp only [ebind_ok]
  split
  · rfl
  · rfl

theorem getDummies_oheSel (cname : String) (X : DF) :
    getDummies (oheSel cname X)
      = ⟨(dummyVals (X.colVals cname)).map (fun v => cname ++ "_" ++ cellStr v),
         (oheSel cname X).rows.map (fun p =>
           (p.1, (dummyVals (X.colVals cname)).map
             (fun v => if p.2.getD 0 Cell.null == v then Cell.num 1 else Cell.num 0)))⟩ := by
  have h := getDummies_single cname (oheSel cname X).rows
  rw [oheSel_colCells] at h
  exact h

theorem oheBlock_shape (cname : String) (st X : DF) :
    (oheBlock cname st X).cols = st.cols ∧
    ∀ r ∈ (oheBlock cname st X).rows, ∃ pr : List Cell,
      r.2 = st.cols.map (fun cc =>
        if cellAt (getDummies (oheSel cname X)).cols pr cc == Cell.null then Cell.num 0
        else cellAt (getDummies (oheSel cname X)).cols pr cc) := by
  unfold oheBlock
  unfold alignRight
  rw [fillna_zeros_rows st.cols _ (by
    intro p hp
    obtain ⟨q, hq, rfl⟩ := List.mem_map.mp hp
    simp)]
  refine ⟨rfl, ?_⟩
  intro r hr
  simp only at hr
  rw [List.map_map] at hr
  obtain ⟨q, hq, rfl⟩ := List.mem_map.mp hr
  refine ⟨q.2, ?_⟩
  simp only [Function.comp, List.map_map]
  rfl

/-- C8: for every Preprocessor over a single one-hot column `cname`, fitted on
`X0` and transformed on `X` (both containing the column), the transform-time
one-hot block carries exactly the fit-time dummy columns (so a category seen
only in the transform input contributes no column and raises no error), and
the indicator column of a fit-time category whose rendered value does not
occur in the transform input is all zeros. -/
theorem c8_one_hot (cname vt : String) (arg : StratArg) (o : Opts) (X0 X : DF)
    (hsel0 : X0.cols.contains cname = true) (hsel : X.cols.contains cname = true) :
    ∃ s1 : PState,
      Preprocessor.fit (construct [oheFeat cname vt arg] o) X0 Option.none false
        = Except.ok s1 ∧
      ∃ r : PState × Option DF, Preprocessor.transform s1 X = Except.ok r ∧
        ∃ bl : DF, r.2 = some bl ∧
          bl.cols = (dummyVals (X0.colVals cname)).map (fun v => cname ++ "_" ++ cellStr v) ∧
          (∀ v ∈ dummyVals (X0.colVals cname),
            cellStr v ∉ (X.colVals cname).map cellStr →
              (cname ++ "_" ++ cellStr v) ∈ bl.cols ∧
              ∀ r2 ∈ bl.rows,
                cellAt bl.cols r2.2 (cname ++ "_" ++ cellStr v) = Cell.num 0) ∧
          (∀ w : Cell, cellStr w ∉ (X0.colVals cname).map cellStr →
            (cname ++ "_" ++ cellStr w) ∉ bl.cols) := by
  have hfit := fit_ohe_only cname vt arg o X0 hsel0
  set st := structureOf (getDummies (oheSel cname X0)) with hstdef
  have htr := transform_ohe_only cname vt arg o X
    { emptyAttrs with
      ohe_df := some (getDummies (oheSel cname X0)),
      ohe_df_structure := some st } st hsel rfl rfl
  refine ⟨_, hfit, _, htr, oheBlock cname st X, rfl, ?_, ?_, ?_⟩
  all_goals
    have hset := oheBlock_shape cname st X
    have hstcols : st.cols
        = (dummyVals (X0.colVals cname)).map (fun v => cname ++ "_" ++ cellStr v) := by
      rw [hstdef]
      show (getDummies (oheSel cname X0)).cols = _
      rw [getDummies_oheSel]
  · rw [hset.1, hstcols]
  · intro v hv hvabs
    have hmem : (cname ++ "_" ++ cellStr v) ∈ (oheBlock cname st X).cols := by
      rw [hset.1, hstcols]
      exact List.mem_map_of_mem _ hv
    refine ⟨hmem, ?_⟩
    intro r2 hr2
    obtain ⟨pr, hpr⟩ := hset.2 r2 hr2
    rw [hset.1, hpr]
    rw [cellAt_map_self]
    rw [if_pos (by
      rw [hstcols]
      exact List.elem_eq_true_of_mem (List.mem_map_of_mem _ hv))]
    have hnotin : (cname ++ "_" ++ cellStr v) ∉ (getDummies (oheSel cname X)).cols := by
      rw [getDummies_oheSel]
      intro hmem2
      obtain ⟨w, hw, hww⟩ := List.mem_map.mp hmem2
      have hcv : cellStr w = cellStr v := string_append_left_cancel hww
      have hw2 := (dummyVals_subset _ _ hw).1
      exact hvabs (hcv ▸ List.mem_map_of_mem cellStr hw2)
    rw [cellAt_not_mem _ pr _ (contains_false_of_not_mem hnotin)]
    rfl
  · intro w hw hmem
    rw [hset.1, hstcols] at hmem
    obtain ⟨v2, hv2, hvw⟩ := List.mem_map.mp hmem
    have hcv : cellStr v2 = cellStr w := string_append_left_cancel hvw
    have hv3 := (dummyVals_subset _ _ hv2).1
    exact hw (hcv ▸ List.mem_map_of_mem cellStr hv3)

def c8X0 : DF := ⟨["a"], [(0, [Cell.str "x"]), (1, [Cell.str "y"])]⟩

def c8X : DF := ⟨["a"], [(0, [Cell.str "y"]), (1, [Cell.str "z"])]⟩

/-- Witness for C8: fit on categories x and y, transform on y and z. -/
theorem c8_one_hot_witness :
    ∃ s1 : PState,
      Preprocessor.fit (construct [oheFeat "a" "str" StratArg.none] defaultOpts) c8X0
          Option.none false = Except.ok s1 ∧
      ∃ r : PState × Option DF, Preprocessor.transform s1 c8X = Except.ok r ∧
        ∃ bl : DF, r.2 = some bl ∧
          bl.cols = (dummyVals (c8X0.colVals "a")).map (fun v => "a" ++ "_" ++ cellStr v) ∧
          (∀ v ∈ dummyVals (c8X0.colVals "a"),
            cellStr v ∉ (c8X.colVals "a").map cellStr →
              ("a" ++ "_" ++ cellStr v) ∈ bl.cols ∧
              ∀ r2 ∈ bl.rows,
                cellAt bl.cols r2.2 ("a" ++ "_" ++ cellStr v) = Cell.num 0) ∧
          (∀ w : Cell, cellStr w ∉ (c8X0.colVals "a").map cellStr →
            ("a" ++ "_" ++ cellStr w) ∉ bl.cols) :=
  c8_one_hot "a" "str" StratArg.none defaultOpts c8X0 c8X (by decide) (by decide)

/-! Column-shape lemmas for the lockstep (schema-stability) proof. -/

theorem fillna_cols (d : DF) (m : String) : (Preprocessor.fillna d m).cols = d.cols := by
  unfold Preprocessor.fillna
  split
  · rfl
  · split
    · rfl
    · split
      · rfl
      · split
        · rfl
        · rfl

theorem fillna_isEmpty (d : DF) (m : String) :
    (Preprocessor.fillna d m).rows.isEmpty = d.rows.isEmpty := by
  have hfb : ∀ f, (fillBy d f).rows.isEmpty = d.rows.isEmpty := by
    intro f
    show (d.rows.map _).isEmpty = d.rows.isEmpty
    cases d.rows <;> simp
  unfold Preprocessor.fillna
  split
  · exact hfb _
  · split
    · exact hfb _
    · split
      · exact hfb _
      · split
        · rfl
        · exact hfb _

theorem alignRight_cols (d t : DF) : (alignRight d t).cols = t.cols := rfl

theorem alignRight_isEmpty (d t : DF) : (alignRight d t).rows.isEmpty = d.rows.isEmpty := by
  show (d.rows.map _).isEmpty = d.rows.isEmpty
  cases d.rows <;> simp

theorem selectCols_ok_inv {X : DF} {ns : List String} {d : DF}
    (h : X.selectCols ns = Except.ok d) :
    d = ⟨ns, X.rows.map (fun p => (p.1, ns.map (cellAt X.cols p.2)))⟩ := by
  unfold DF.selectCols at h
  split at h
  · cases h
    rfl
  · exact absurd h (by simp)

theorem flatMap_isEmpty {α β : Type} (l : List α) (f : α → List β)
    (h : ∀ p ∈ l, f p ≠ []) : (l.flatMap f).isEmpty = l.isEmpty := by
  cases l with
  | nil => rfl
  | cons a rest =>
    simp only [List.flatMap_cons]
    have ha := h a (by simp)
    cases hf : f a with
    | nil => exact absurd hf ha
    | cons x xs => simp [hf]

theorem join_ok_inv {a b j : DF} (h : a.join b = Except.ok j) :
    j.cols = a.cols ++ b.cols ∧ j.rows.isEmpty = a.rows.isEmpty := by
  unfold DF.join at h
  split at h
  · exact absurd h (by simp)
  · cases h
    refine ⟨rfl, ?_⟩
    apply flatMap_isEmpty
    intro p hp
    cases hf : b.rows.filter (fun q => q.1 == p.1) with
    | nil => simp
    | cons m rest => simp

theorem joinOn_isEmpty {d : DF} {c : String} {u : KeyedDF} {j : DF}
    (h : d.joinOn c u = Except.ok j) : j.rows.isEmpty = d.rows.isEmpty := by
  rw [joinOn_ok_inv h]
  apply flatMap_isEmpty
  intro p hp
  cases hf : u.rows.filter (fun q => q.1 == cellAt d.cols p.2 c) with
  | nil => simp
  | cons m rest => simp

theorem dropCol_cols (d : DF) (c : String) :
    (d.dropCol c).cols = d.cols.filter (fun x => !(x == c)) := rfl

theorem dropCol_isEmpty (d : DF) (c : String) :
    (d.dropCol c).rows.isEmpty = d.rows.isEmpty := by
  show (d.rows.map _).isEmpty = d.rows.isEmpty
  cases d.rows <;> simp

/-- The bucket column labels contributed by hashing one column; they depend
only on the column name and its configured bucket count. -/
def hasherCols (c : String) (arg : StratArg) : List String :=
  match arg with
  | StratArg.nat n => (List.range n).map (fun i => c ++ toString i)
  | _ => []

theorem hasher_cols {d : DF} {c : String} {arg : StratArg} {u : KeyedDF}
    (h : Preprocessor.hasher d c arg = Except.ok u) : u.cols = hasherCols c arg := by
  unfold Preprocessor.hasher at h
  obtain ⟨strs, hstrs, h⟩ := ebind_ok_inv h
  cases arg with
  | nat n =>
    simp only at h
    split at h
    · exact absurd h (by simp)
    · cases h
      rfl
  | none => exact absurd h (by simp)
  | str s => exact absurd h (by simp)
  | kwargs ks => exact absurd h (by simp)

/-- Evolution of the column labels along the hashing fold; a pure function of
the metadata and the starting labels. -/
def hashFoldCols (ms : List FeatureSpec) : List String → List String → List String
  | [], acc => acc
  | c :: rest, acc =>
    hashFoldCols ms rest ((acc ++ hasherCols c (argFor ms c)).filter (fun x => !(x == c)))

theorem hashFold_shape {ms : List FeatureSpec} : ∀ {cs : List String} {d e : DF},
    hashFold ms cs d = Except.ok e →
    e.cols = hashFoldCols ms cs d.cols ∧ e.rows.isEmpty = d.rows.isEmpty := by
  intro cs
  induction cs with
  | nil =>
    intro d e h
    simp only [hashFold] at h
    cases h
    exact ⟨rfl, rfl⟩
  | cons c rest ih =>
    intro d e h
    simp only [hashFold] at h
    obtain ⟨u, hu, h⟩ := ebind_ok_inv h
    obtain ⟨j, hj, h⟩ := ebind_ok_inv h
    obtain ⟨hc, he⟩ := ih h
    have hjc := (joinOn_ok_inv hj)
    constructor
    · rw [hc]
      simp only [hashFoldCols, dropCol_cols]
      rw [hjc]
      simp only
      rw [hasher_cols hu]
    · rw [he, dropCol_isEmpty, joinOn_isEmpty hj]

theorem vectFold_isEmpty {ms : List FeatureSpec} {ty : String} :
    ∀ {cs : List String} {d e : DF}, vectFold ms ty cs d = Except.ok e →
      e.rows.isEmpty = d.rows.isEmpty := by
  intro cs
  induction cs with
  | nil =>
    intro d e h
    simp only [vectFold] at h
    cases h
    rfl
  | cons c rest ih =>
    intro d e h
    simp only [vectFold] at h
    obtain ⟨u, hu, h⟩ := ebind_ok_inv h
    obtain ⟨j, hj, h⟩ := ebind_ok_inv h
    rw [ih h, dropCol_isEmpty, joinOn_isEmpty hj]

theorem textFold_isEmpty : ∀ {cs : List String} {d e : DF},
    textFold cs d = Except.ok e → e.rows.isEmpty = d.rows.isEmpty := by
  intro cs
  induction cs with
  | nil =>
    intro d e h
    simp only [textFold] at h
    cases h
    rfl
  | cons c rest ih =>
    intro d e h
    simp only [textFold] at h
    obtain ⟨u, hu, h⟩ := ebind_ok_inv h
    obtain ⟨j, hj, h⟩ := ebind_ok_inv h
    rw [ih h, dropCol_isEmpty, joinOn_isEmpty hj]

theorem scaler_transform_shape {sc : ScalerState} {d e : DF}
    (h : sc.transform d = Except.ok e) :
    e.cols = d.cols ∧ e.rows.isEmpty = d.rows.isEmpty := by
  unfold ScalerState.transform at h
  split at h
  · exact absurd h (by simp)
  · split at h
    · exact absurd h (by simp)
    · cases h
      refine ⟨rfl, ?_⟩
      show (d.rows.map _).isEmpty = d.rows.isEmpty
      cases d.rows <;> simp

theorem get_scaler_cols {d : DF} {m sc : String} {ks : List (String × String)}
    {si : ScalerState} (h : Preprocessor.get_scaler d m sc ks = Except.ok si) :
    si.cols = d.cols := by
  unfold Preprocessor.get_scaler at h
  split at h
  · exact absurd h (by simp)
  · simp only at h
    split at h
    · exact absurd h (by simp)
    · cases h
      exact fillna_cols d m

theorem joinOpt_cols {xt : Option DF} {d : DF} {xt2 : Option DF}
    (h : joinOpt xt d = Except.ok xt2) :
    xt2.map DF.cols = some (((xt.map DF.cols).getD []) ++ d.cols) := by
  unfold joinOpt at h
  cases xt with
  | none =>
    cases h
    simp
  | some x =>
    simp only at h
    cases hx : x.join d with
    | error e => rw [hx] at h; exact absurd h (by simp [Except.map])
    | ok j =>
      rw [hx] at h
      simp only [Except.map] at h
      cases h
      simp [(join_ok_inv hx).1]

theorem ofOption_ok_inv {α : Type} {o : Option α} {x : α}
    (h : ofOption o = Except.ok x) : o = some x := by
  cases o with
  | none => exact absurd h (by simp [ofOption])
  | some a =>
    simp only [ofOption] at h
    cases h
    rfl

theorem map_isEmpty {α β : Type} (l : List α) (f : α → β) :
    (l.map f).isEmpty = l.isEmpty := by
  cases l <;> simp

def ocols (o : Option DF) : Option (List String) := o.map DF.cols

def oshape (o : Option DF) : Option (List String × Bool) :=
  o.map (fun d => (d.cols, d.rows.isEmpty))

/-- The parts of the mutable attribute state that determine the column layout
of everything `transform` later reads: the alignment structures, the frames
routed into later joins, and the fitted scaler columns. -/
structure ColEq (a b : Attrs) : Prop where
  ohe_st : ocols a.ohe_df_structure = ocols b.ohe_df_structure
  cv_st : ocols a.cv_df_structure = ocols b.cv_df_structure
  tfidf_st : ocols a.tfidf_df_structure = ocols b.tfidf_df_structure
  text_st : ocols a.text_df_structure = ocols b.text_df_structure
  scale_st : ocols a.scale_df_structure = ocols b.scale_df_structure
  hashdf : oshape a.hash_df = oshape b.hash_df
  cvdf : oshape a.cv_df = oshape b.cv_df
  tfidfdf : oshape a.tfidf_df = oshape b.tfidf_df
  scaledf : oshape a.scale_df = oshape b.scale_df
  scaler : a.scaler_instance.map ScalerState.cols = b.scaler_instance.map ScalerState.cols

theorem ColEq.rfl (a : Attrs) : ColEq a a :=
  ⟨Eq.refl _, Eq.refl _, Eq.refl _, Eq.refl _, Eq.refl _, Eq.refl _, Eq.refl _,
   Eq.refl _, Eq.refl _, Eq.refl _⟩

theorem stageOhe_lockstep {c : Config} {X1 X2 : DF} {a1 a2 : Attrs} {xt1 xt2 : Option DF}
    {p1 p2 : Attrs × Option DF}
    (h1 : stageOhe c X1 (a1, xt1) = Except.ok p1)
    (h2 : stageOhe c X2 (a2, xt2) = Except.ok p2)
    (hA : ColEq a1 a2) (hx : ocols xt1 = ocols xt2) :
    ColEq p1.1 p2.1 ∧ ocols p1.2 = ocols p2.2 := by
  unfold stageOhe at h1 h2
  simp only at h1 h2
  by_cases hc : c.ohe = true
  · rw [if_pos hc] at h1 h2
    obtain ⟨d1, hd1, h1⟩ := ebind_ok_inv h1
    obtain ⟨st1, hst1, h1⟩ := ebind_ok_inv h1
    obtain ⟨d2, hd2, h2⟩ := ebind_ok_inv h2
    obtain ⟨st2, hst2, h2⟩ := ebind_ok_inv h2
    cases h1
    cases h2
    have hsteq : st1.cols = st2.cols := by
      have e1 := ofOption_ok_inv hst1
      have e2 := ofOption_ok_inv hst2
      have := hA.ohe_st
      rw [e1, e2] at this
      simpa [ocols] using this
    refine ⟨⟨hA.ohe_st, hA.cv_st, hA.tfidf_st, hA.text_st, hA.scale_st, hA.hashdf,
      hA.cvdf, hA.tfidfdf, hA.scaledf, hA.scaler⟩, ?_⟩
    simp [ocols, fillna_cols, alignRight_cols, hsteq]
  · rw [if_neg hc] at h1 h2
    cases h1
    cases h2
    exact ⟨hA, hx⟩

theorem stageHash_lockstep {c : Config} {X1 X2 : DF} {a1 a2 : Attrs} {xt1 xt2 : Option DF}
    {p1 p2 : Attrs × Option DF}
    (h1 : stageHash c X1 (a1, xt1) = Except.ok p1)
    (h2 : stageHash c X2 (a2, xt2) = Except.ok p2)
    (hA : ColEq a1 a2) (hx : ocols xt1 = ocols xt2)
    (hne1 : X1.rows.isEmpty = false) (hne2 : X2.rows.isEmpty = false) :
    ColEq p1.1 p2.1 ∧ ocols p1.2 = ocols p2.2 := by
  unfold stageHash at h1 h2
  simp only at h1 h2
  by_cases hc : c.hash = true
  · rw [if_pos hc] at h1 h2
    obtain ⟨d1, hd1, h1⟩ := ebind_ok_inv h1
    obtain ⟨e1, he1, h1⟩ := ebind_ok_inv h1
    obtain ⟨d2, hd2, h2⟩ := ebind_ok_inv h2
    obtain ⟨e2, he2, h2⟩ := ebind_ok_inv h2
    cases h1
    cases h2
    have hs1 := hashFold_shape he1
    have hs2 := hashFold_shape he2
    have hd1e := selectCols_ok_inv hd1
    have hd2e := selectCols_ok_inv hd2
    refine ⟨⟨hA.ohe_st, hA.cv_st, hA.tfidf_st, hA.text_st, hA.scale_st, ?_,
      hA.cvdf, hA.tfidfdf, hA.scaledf, hA.scaler⟩, hx⟩
    have hcols : e1.cols = e2.cols := by rw [hs1.1, hs2.1, hd1e, hd2e]
    have hemp : e1.rows.isEmpty = e2.rows.isEmpty := by
      rw [hs1.2, hs2.2, hd1e, hd2e]
      simp only
      rw [map_isEmpty, map_isEmpty, hne1, hne2]
    show (some (e1.cols, e1.rows.isEmpty) : Option (List String × Bool))
        = some (e2.cols, e2.rows.isEmpty)
    rw [hcols, hemp]
  · rw [if_neg hc] at h1 h2
    cases h1
    cases h2
    exact ⟨hA, hx⟩

theorem stageCv_lockstep {c : Config} {X1 X2 : DF} {a1 a2 : Attrs} {xt1 xt2 : Option DF}
    {p1 p2 : Attrs × Option DF}
    (h1 : stageCv c X1 (a1, xt1) = Except.ok p1)
    (h2 : stageCv c X2 (a2, xt2) = Except.ok p2)
    (hA : ColEq a1 a2) (hx : ocols xt1 = ocols xt2)
    (hne1 : X1.rows.isEmpty = false) (hne2 : X2.rows.isEmpty = false) :
    ColEq p1.1 p2.1 ∧ ocols p1.2 = ocols p2.2 := by
  unfold stageCv at h1 h2
  simp only at h1 h2
  by_cases hc : c.cv = true
  · rw [if_pos hc] at h1 h2
    obtain ⟨d1, hd1, h1⟩ := ebind_ok_inv h1
    obtain ⟨e1, he1, h1⟩ := ebind_ok_inv h1
    obtain ⟨st1, hst1, h1⟩ := ebind_ok_inv h1
    obtain ⟨d2, hd2, h2⟩ := ebind_ok_inv h2
    obtain ⟨e2, he2, h2⟩ := ebind_ok_inv h2
    obtain ⟨st2, hst2, h2⟩ := ebind_ok_inv h2
    cases h1
    cases h2
    have hsteq : st1.cols = st2.cols := by
      have q1 := ofOption_ok_inv hst1
      have q2 := ofOption_ok_inv hst2
      have q3 := hA.cv_st
      rw [q1, q2] at q3
      simpa [ocols] using q3
    have hemp : e1.rows.isEmpty = false ∧ e2.rows.isEmpty = false := by
      rw [vectFold_isEmpty he1, vectFold_isEmpty he2,
        selectCols_ok_inv hd1, selectCols_ok_inv hd2]
      simp only
      rw [map_isEmpty, map_isEmpty, hne1, hne2]
      exact ⟨Eq.refl _, Eq.refl _⟩
    refine ⟨⟨hA.ohe_st, hA.cv_st, hA.tfidf_st, hA.text_st, hA.scale_st, hA.hashdf, ?_,
      hA.tfidfdf, hA.scaledf, hA.scaler⟩, hx⟩
    have hc1 : (Preprocessor.fillna (alignRight e1 st1) "zeros").cols
        = (Preprocessor.fillna (alignRight e2 st2) "zeros").cols := by
      rw [fillna_cols, fillna_cols, alignRight_cols, alignRight_cols, hsteq]
    have hi1 : (Preprocessor.fillna (alignRight e1 st1) "zeros").rows.isEmpty
        = (Preprocessor.fillna (alignRight e2 st2) "zeros").rows.isEmpty := by
      rw [fillna_isEmpty, fillna_isEmpty, alignRight_isEmpty, alignRight_isEmpty,
        hemp.1, hemp.2]
    unfold oshape
    simp only [Option.map]
    rw [hc1, hi1]
  · rw [if_neg hc] at h1 h2
    cases h1
    cases h2
    exact ⟨hA, hx⟩

theorem stageTfidf_lockstep {c : Config} {X1 X2 : DF} {a1 a2 : Attrs} {xt1 xt2 : Option DF}
    {p1 p2 : Attrs × Option DF}
    (h1 : stageTfidf c X1 (a1, xt1) = Except.ok p1)
    (h2 : stageTfidf c X2 (a2, xt2) = Except.ok p2)
    (hA : ColEq a1 a2) (hx : ocols xt1 = ocols xt2)
    (hne1 : X1.rows.isEmpty = false) (hne2 : X2.rows.isEmpty = false) :
    ColEq p1.1 p2.1 ∧ ocols p1.2 = ocols p2.2 := by
  unfold stageTfidf at h1 h2
  simp only at h1 h2
  by_cases hc : c.tfidf = true
  · rw [if_pos hc] at h1 h2
    obtain ⟨d1, hd1, h1⟩ := ebind_ok_inv h1
    obtain ⟨e1, he1, h1⟩ := ebind_ok_inv h1
    obtain ⟨st1, hst1, h1⟩ := ebind_ok_inv h1
    obtain ⟨d2, hd2, h2⟩ := ebind_ok_inv h2
    obtain ⟨e2, he2, h2⟩ := ebind_ok_inv h2
    obtain ⟨st2, hst2, h2⟩ := ebind_ok_inv h2
    cases h1
    cases h2
    have hsteq : st1.cols = st2.cols := by
      have q1 := ofOption_ok_inv hst1
      have q2 := ofOption_ok_inv hst2
      have q3 := hA.tfidf_st
      rw [q1, q2] at q3
      simpa [ocols] using q3
    have hemp : e1.rows.isEmpty = false ∧ e2.rows.isEmpty = false := by
      rw [vectFold_isEmpty he1, vectFold_isEmpty he2,
        selectCols_ok_inv hd1, selectCols_ok_inv hd2]
      simp only
      rw [map_isEmpty, map_isEmpty, hne1, hne2]
      exact ⟨Eq.refl _, Eq.refl _⟩
    refine ⟨⟨hA.ohe_st, hA.cv_st, hA.tfidf_st, hA.text_st, hA.scale_st, hA.hashdf,
      hA.cvdf, ?_, hA.scaledf, hA.scaler⟩, hx⟩
    have hc1 : (Preprocessor.fillna (alignRight e1 st1) "zeros").cols
        = (Preprocessor.fillna (alignRight e2 st2) "zeros").cols := by
      rw [fillna_cols, fillna_cols, alignRight_cols, alignRight_cols, hsteq]
    have hi1 : (Preprocessor.fillna (alignRight e1 st1) "zeros").rows.isEmpty
        = (Preprocessor.fillna (alignRight e2 st2) "zeros").rows.isEmpty := by
      rw [fillna_isEmpty, fillna_isEmpty, alignRight_isEmpty, alignRight_isEmpty,
        hemp.1, hemp.2]
    unfold oshape
    simp only [Option.map]
    rw [hc1, hi1]
  · rw [if_neg hc] at h1 h2
    cases h1
    cases h2
    exact ⟨hA, hx⟩

theorem stageText_lockstep {c : Config} {X1 X2 : DF} {a1 a2 : Attrs} {xt1 xt2 : Option DF}
    {p1 p2 : Attrs × Option DF}
    (h1 : stageText c X1 (a1, xt1) = Except.ok p1)
    (h2 : stageText c X2 (a2, xt2) = Except.ok p2)
    (hA : ColEq a1 a2) (hx : ocols xt1 = ocols xt2) :
    ColEq p1.1 p2.1 ∧ ocols p1.2 = ocols p2.2 := by
  unfold stageText at h1 h2
  simp only at h1 h2
  by_cases hc : c.text = true
  · rw [if_pos hc] at h1 h2
    obtain ⟨d1, hd1, h1⟩ := ebind_ok_inv h1
    obtain ⟨e1, he1, h1⟩ := ebind_ok_inv h1
    obtain ⟨st1, hst1, h1⟩ := ebind_ok_inv h1
    obtain ⟨y1, hy1, h1⟩ := ebind_ok_inv h1
    obtain ⟨d2, hd2, h2⟩ := ebind_ok_inv h2
    obtain ⟨e2, he2, h2⟩ := ebind_ok_inv h2
    obtain ⟨st2, hst2, h2⟩ := ebind_ok_inv h2
    obtain ⟨y2, hy2, h2⟩ := ebind_ok_inv h2
    cases h1
    cases h2
    have hsteq : st1.cols = st2.cols := by
      have q1 := ofOption_ok_inv hst1
      have q2 := ofOption_ok_inv hst2
      have q3 := hA.text_st
      rw [q1, q2] at q3
      simpa [ocols] using q3
    refine ⟨⟨hA.ohe_st, hA.cv_st, hA.tfidf_st, hA.text_st, hA.scale_st, hA.hashdf,
      hA.cvdf, hA.tfidfdf, hA.scaledf, hA.scaler⟩, ?_⟩
    show y1.map DF.cols = y2.map DF.cols
    rw [joinOpt_cols hy1, joinOpt_cols hy2]
    have hxm : xt1.map DF.cols = xt2.map DF.cols := hx
    rw [hxm]
    simp [fillna_cols, alignRight_cols, hsteq]
  · rw [if_neg hc] at h1 h2
    cases h1
    cases h2
    exact ⟨hA, hx⟩

theorem stageScaleSel_lockstep {c : Config} {X1 X2 : DF} {a1 a2 : Attrs}
    {xt1 xt2 : Option DF} {p1 p2 : Attrs × Option DF}
    (h1 : stageScaleSel c X1 (a1, xt1) = Except.ok p1)
    (h2 : stageScaleSel c X2 (a2, xt2) = Except.ok p2)
    (hA : ColEq a1 a2) (hx : ocols xt1 = ocols xt2)
    (hne1 : X1.rows.isEmpty = false) (hne2 : X2.rows.isEmpty = false) :
    ColEq p1.1 p2.1 ∧ ocols p1.2 = ocols p2.2 := by
  unfold stageScaleSel at h1 h2
  simp only at h1 h2
  by_cases hc : c.scale = true
  · rw [if_pos hc] at h1 h2
    obtain ⟨d1, hd1, h1⟩ := ebind_ok_inv h1
    obtain ⟨d2, hd2, h2⟩ := ebind_ok_inv h2
    cases h1
    cases h2
    refine ⟨⟨hA.ohe_st, hA.cv_st, hA.tfidf_st, hA.text_st, hA.scale_st, hA.hashdf,
      hA.cvdf, hA.tfidfdf, ?_, hA.scaler⟩, hx⟩
    rw [selectCols_ok_inv hd1, selectCols_ok_inv hd2]
    show (some (_, _) : Option (List String × Bool)) = some (_, _)
    simp only
    rw [map_isEmpty, map_isEmpty, hne1, hne2]
  · rw [if_neg hc] at h1 h2
    cases h1
    cases h2
    exact ⟨hA, hx⟩

theorem omap_none {α β : Type} (f : α → β) {o1 o2 : Option α}
    (h : o1.map f = o2.map f) (h1 : o1 = Option.none) : o2 = Option.none := by
  subst h1
  cases o2 with
  | none => rfl
  | some y => simp at h

theorem omap_some_elim {α β : Type} (f : α → β) {o1 o2 : Option α} {x : α}
    (h : o1.map f = o2.map f) (h1 : o1 = some x) : ∃ y, o2 = some y ∧ f x = f y := by
  subst h1
  cases o2 with
  | none => simp at h
  | some y => exact ⟨y, rfl, by simpa using h⟩

theorem oshape_pair {x y : DF} (h : oshape (some x) = oshape (some y)) :
    x.cols = y.cols ∧ x.rows.isEmpty = y.rows.isEmpty := by
  simpa [oshape, Prod.ext_iff] using h

theorem stageHashRoute_lockstep {c : Config} {a1 a2 : Attrs} {xt1 xt2 : Option DF}
    {p1 p2 : Attrs × Option DF}
    (h1 : stageHashRoute c (a1, xt1) = Except.ok p1)
    (h2 : stageHashRoute c (a2, xt2) = Except.ok p2)
    (hA : ColEq a1 a2) (hx : ocols xt1 = ocols xt2) :
    ColEq p1.1 p2.1 ∧ ocols p1.2 = ocols p2.2 := by
  unfold stageHashRoute at h1 h2
  simp only at h1 h2
  by_cases hc : (c.hash && c.opts.scale_hashed) = true
  · rw [if_pos hc] at h1 h2
    by_cases hs : c.scale = true
    · rw [if_pos hs] at h1 h2
      obtain ⟨sd1, hsd1, h1⟩ := ebind_ok_inv h1
      obtain ⟨hd1, hhd1, h1⟩ := ebind_ok_inv h1
      obtain ⟨j1, hj1, h1⟩ := ebind_ok_inv h1
      obtain ⟨sd2, hsd2, h2⟩ := ebind_ok_inv h2
      obtain ⟨hd2, hhd2, h2⟩ := ebind_ok_inv h2
      obtain ⟨j2, hj2, h2⟩ := ebind_ok_inv h2
      cases h1
      cases h2
      have hsd : sd1.cols = sd2.cols ∧ sd1.rows.isEmpty = sd2.rows.isEmpty := by
        have q := hA.scaledf
        rw [ofOption_ok_inv hsd1, ofOption_ok_inv hsd2] at q
        exact oshape_pair q
      have hhd : hd1.cols = hd2.cols := by
        have q := hA.hashdf
        rw [ofOption_ok_inv hhd1, ofOption_ok_inv hhd2] at q
        exact (oshape_pair q).1
      refine ⟨⟨hA.ohe_st, hA.cv_st, hA.tfidf_st, hA.text_st, hA.scale_st, hA.hashdf,
        hA.cvdf, hA.tfidfdf, ?_, hA.scaler⟩, hx⟩
      have q1 := join_ok_inv hj1
      have q2 := join_ok_inv hj2
      unfold oshape
      simp only [Option.map]
      rw [q1.1, q2.1, q1.2, q2.2, hsd.1, hsd.2, hhd]
    · rw [if_neg hs] at h1 h2
      obtain ⟨hd1, hhd1, h1⟩ := ebind_ok_inv h1
      obtain ⟨si1, hsi1, h1⟩ := ebind_ok_inv h1
      obtain ⟨hd2, hhd2, h2⟩ := ebind_ok_inv h2
      obtain ⟨si2, hsi2, h2⟩ := ebind_ok_inv h2
      cases h1
      cases h2
      have hhd : hd1.cols = hd2.cols ∧ hd1.rows.isEmpty = hd2.rows.isEmpty := by
        have q := hA.hashdf
        rw [ofOption_ok_inv hhd1, ofOption_ok_inv hhd2] at q
        exact oshape_pair q
      refine ⟨⟨hA.ohe_st, hA.cv_st, hA.tfidf_st, hA.text_st, hA.scale_st, hA.hashdf,
        hA.cvdf, hA.tfidfdf, ?_, ?_⟩, hx⟩
      · unfold oshape
        simp only [Option.map]
        rw [hhd.1, hhd.2]
      · simp only [Option.map]
        rw [get_scaler_cols hsi1, get_scaler_cols hsi2, hhd.1]
  · rw [if_neg hc] at h1 h2
    by_cases hh : c.hash = true
    · rw [if_pos hh] at h1 h2
      obtain ⟨hd1, hhd1, h1⟩ := ebind_ok_inv h1
      obtain ⟨y1, hy1, h1⟩ := ebind_ok_inv h1
      obtain ⟨hd2, hhd2, h2⟩ := ebind_ok_inv h2
      obtain ⟨y2, hy2, h2⟩ := ebind_ok_inv h2
      cases h1
      cases h2
      have hhd : hd1.cols = hd2.cols := by
        have q := hA.hashdf
        rw [ofOption_ok_inv hhd1, ofOption_ok_inv hhd2] at q
        exact (oshape_pair q).1
      refine ⟨hA, ?_⟩
      show y1.map DF.cols = y2.map DF.cols
      rw [joinOpt_cols hy1, joinOpt_cols hy2]
      have hxm : xt1.map DF.cols = xt2.map DF.cols := hx
      rw [hxm, hhd]
    · rw [if_neg hh] at h1 h2
      cases h1
      cases h2
      exact ⟨hA, hx⟩

theorem stageCvRoute_lockstep {c : Config} {a1 a2 : Attrs} {xt1 xt2 : Option DF}
    {p1 p2 : Attrs × Option DF}
    (h1 : stageCvRoute c (a1, xt1) = Except.ok p1)
    (h2 : stageCvRoute c (a2, xt2) = Except.ok p2)
    (hA : ColEq a1 a2) (hx : ocols xt1 = ocols xt2) :
    ColEq p1.1 p2.1 ∧ ocols p1.2 = ocols p2.2 := by
  unfold stageCvRoute at h1 h2
  simp only at h1 h2
  by_cases hc : (c.cv && c.opts.scale_vectors) = true
  · rw [if_pos hc] at h1 h2
    by_cases hs : (c.scale || (c.hash && c.opts.scale_hashed)) = true
    · rw [if_pos hs] at h1 h2
      obtain ⟨sd1, hsd1, h1⟩ := ebind_ok_inv h1
      obtain ⟨cd1, hcd1, h1⟩ := ebind_ok_inv h1
      obtain ⟨j1, hj1, h1⟩ := ebind_ok_inv h1
      obtain ⟨sd2, hsd2, h2⟩ := ebind_ok_inv h2
      obtain ⟨cd2, hcd2, h2⟩ := ebind_ok_inv h2
      obtain ⟨j2, hj2, h2⟩ := ebind_ok_inv h2
      cases h1
      cases h2
      have hsd : sd1.cols = sd2.cols ∧ sd1.rows.isEmpty = sd2.rows.isEmpty := by
        have q := hA.scaledf
        rw [ofOption_ok_inv hsd1, ofOption_ok_inv hsd2] at q
        exact oshape_pair q
      have hcd : cd1.cols = cd2.cols := by
        have q := hA.cvdf
        rw [ofOption_ok_inv hcd1, ofOption_ok_inv hcd2] at q
        exact (oshape_pair q).1
      refine ⟨⟨hA.ohe_st, hA.cv_st, hA.tfidf_st, hA.text_st, hA.scale_st, hA.hashdf,
        hA.cvdf, hA.tfidfdf, ?_, hA.scaler⟩, hx⟩
      have q1 := join_ok_inv hj1
      have q2 := join_ok_inv hj2
      unfold oshape
      simp only [Option.map]
      rw [q1.1, q2.1, q1.2, q2.2, hsd.1, hsd.2, hcd]
    · rw [if_neg hs] at h1 h2
      obtain ⟨cd1, hcd1, h1⟩ := ebind_ok_inv h1
      obtain ⟨si1, hsi1, h1⟩ := ebind_ok_inv h1
      obtain ⟨cd2, hcd2, h2⟩ := ebind_ok_inv h2
      obtain ⟨si2, hsi2, h2⟩ := ebind_ok_inv h2
      cases h1
      cases h2
      have hcd : cd1.cols = cd2.cols ∧ cd1.rows.isEmpty = cd2.rows.isEmpty := by
        have q := hA.cvdf
        rw [ofOption_ok_inv hcd1, ofOption_ok_inv hcd2] at q
        exact oshape_pair q
      refine ⟨⟨hA.ohe_st, hA.cv_st, hA.tfidf_st, hA.text_st, hA.scale_st, hA.hashdf,
        hA.cvdf, hA.tfidfdf, ?_, ?_⟩, hx⟩
      · unfold oshape
        simp only [Option.map]
        rw [hcd.1, hcd.2]
      · simp only [Option.map]
        rw [get_scaler_cols hsi1, get_scaler_cols hsi2, hcd.1]
  · rw [if_neg hc] at h1 h2
    by_cases hh : c.cv = true
    · rw [if_pos hh] at h1 h2
      obtain ⟨cd1, hcd1, h1⟩ := ebind_ok_inv h1
      obtain ⟨y1, hy1, h1⟩ := ebind_ok_inv h1
      obtain ⟨cd2, hcd2, h2⟩ := ebind_ok_inv h2
      obtain ⟨y2, hy2, h2⟩ := ebind_ok_inv h2
      cases h1
      cases h2
      have hcd : cd1.cols = cd2.cols := by
        have q := hA.cvdf
        rw [ofOption_ok_inv hcd1, ofOption_ok_inv hcd2] at q
        exact (oshape_pair q).1
      refine ⟨hA, ?_⟩
      show y1.map DF.cols = y2.map DF.cols
      rw [joinOpt_cols hy1, joinOpt_cols hy2]
      have hxm : xt1.map DF.cols = xt2.map DF.cols := hx
      rw [hxm, hcd]
    · rw [if_neg hh] at h1 h2
      cases h1
      cases h2
      exact ⟨hA, hx⟩

theorem stageTfidfRoute_lockstep {c : Config} {a1 a2 : Attrs} {xt1 xt2 : Option DF}
    {p1 p2 : Attrs × Option DF}
    (h1 : stageTfidfRoute c (a1, xt1) = Except.ok p1)
    (h2 : stageTfidfRoute c (a2, xt2) = Except.ok p2)
    (hA : ColEq a1 a2) (hx : ocols xt1 = ocols xt2) :
    ColEq p1.1 p2.1 ∧ ocols p1.2 = ocols p2.2 := by
  unfold stageTfidfRoute at h1 h2
  simp only at h1 h2
  by_cases hc : (c.tfidf && c.opts.scale_vectors) = true
  · rw [if_pos hc] at h1 h2
    by_cases hs : (c.scale || (c.hash && c.opts.scale_hashed) || c.cv) = true
    · rw [if_pos hs] at h1 h2
      obtain ⟨sd1, hsd1, h1⟩ := ebind_ok_inv h1
      obtain ⟨cd1, hcd1, h1⟩ := ebind_ok_inv h1
      obtain ⟨j1, hj1, h1⟩ := ebind_ok_inv h1
      obtain ⟨sd2, hsd2, h2⟩ := ebind_ok_inv h2
      obtain ⟨cd2, hcd2, h2⟩ := ebind_ok_inv h2
      obtain ⟨j2, hj2, h2⟩ := ebind_ok_inv h2
      cases h1
      cases h2
      have hsd : sd1.cols = sd2.cols ∧ sd1.rows.isEmpty = sd2.rows.isEmpty := by
        have q := hA.scaledf
        rw [ofOption_ok_inv hsd1, ofOption_ok_inv hsd2] at q
        exact oshape_pair q
      have hcd : cd1.cols = cd2.cols := by
        have q := hA.tfidfdf
        rw [ofOption_ok_inv hcd1, ofOption_ok_inv hcd2] at q
        exact (oshape_pair q).1
      refine ⟨⟨hA.ohe_st, hA.cv_st, hA.tfidf_st, hA.text_st, hA.scale_st, hA.hashdf,
        hA.cvdf, hA.tfidfdf, ?_, hA.scaler⟩, hx⟩
      have q1 := join_ok_inv hj1
      have q2 := join_ok_inv hj2
      unfold oshape
      simp only [Option.map]
      rw [q1.1, q2.1, q1.2, q2.2, hsd.1, hsd.2, hcd]
    · rw [if_neg hs] at h1 h2
      obtain ⟨cd1, hcd1, h1⟩ := ebind_ok_inv h1
      obtain ⟨si1, hsi1, h1⟩ := ebind_ok_inv h1
      obtain ⟨cd2, hcd2, h2⟩ := ebind_ok_inv h2
      obtain ⟨si2, hsi2, h2⟩ := ebind_ok_inv h2
      cases h1
      cases h2
      have hcd : cd1.cols = cd2.cols ∧ cd1.rows.isEmpty = cd2.rows.isEmpty := by
        have q := hA.tfidfdf
        rw [ofOption_ok_inv hcd1, ofOption_ok_inv hcd2] at q
        exact oshape_pair q
      refine ⟨⟨hA.ohe_st, hA.cv_st, hA.tfidf_st, hA.text_st, hA.scale_st, hA.hashdf,
        hA.cvdf, hA.tfidfdf, ?_, ?_⟩, hx⟩
      · unfold oshape
        simp only [Option.map]
        rw [hcd.1, hcd.2]
      · simp only [Option.map]
        rw [get_scaler_cols hsi1, get_scaler_cols hsi2, hcd.1]
  · rw [if_neg hc] at h1 h2
    by_cases hh : c.tfidf = true
    · rw [if_pos hh] at h1 h2
      obtain ⟨cd1, hcd1, h1⟩ := ebind_ok_inv h1
      obtain ⟨y1, hy1, h1⟩ := ebind_ok_inv h1
      obtain ⟨cd2, hcd2, h2⟩ := ebind_ok_inv h2
      obtain ⟨y2, hy2, h2⟩ := ebind_ok_inv h2
      cases h1
      cases h2
      have hcd : cd1.cols = cd2.cols := by
        have q := hA.tfidfdf
        rw [ofOption_ok_inv hcd1, ofOption_ok_inv hcd2] at q
        exact (oshape_pair q).1
      refine ⟨hA, ?_⟩
      show y1.map DF.cols = y2.map DF.cols
      rw [joinOpt_cols hy1, joinOpt_cols hy2]
      have hxm : xt1.map DF.cols = xt2.map DF.cols := hx
      rw [hxm, hcd]
    · rw [if_neg hh] at h1 h2
      cases h1
      cases h2
      exact ⟨hA, hx⟩

theorem length_pos_iff_isEmpty_false {α : Type} (l : List α) :
    (0 < l.length) ↔ l.isEmpty = false := by
  cases l <;> simp

theorem stageTryScale_lockstep {c : Config} {a1 a2 : Attrs} {xt1 xt2 : Option DF}
    {p1 p2 : Attrs × Option DF}
    (h1 : stageTryScale c (a1, xt1) = Except.ok p1)
    (h2 : stageTryScale c (a2, xt2) = Except.ok p2)
    (hA : ColEq a1 a2) (hx : ocols xt1 = ocols xt2) :
    ColEq p1.1 p2.1 ∧ ocols p1.2 = ocols p2.2 := by
  unfold stageTryScale at h1 h2
  simp only at h1 h2
  cases hc1 : a1.scale_df with
  | none =>
    have hc2 : a2.scale_df = Option.none := omap_none _ hA.scaledf hc1
    rw [hc1] at h1
    rw [hc2] at h2
    cases h1
    cases h2
    exact ⟨hA, hx⟩
  | some sd1 =>
    obtain ⟨sd2, hc2, hfe⟩ := omap_some_elim _ hA.scaledf hc1
    rw [hc1] at h1
    rw [hc2] at h2
    simp only at h1 h2
    have hsdc : sd1.cols = sd2.cols := congrArg Prod.fst hfe
    have hsde : sd1.rows.isEmpty = sd2.rows.isEmpty := congrArg Prod.snd hfe
    by_cases hlen : 0 < sd1.rows.length
    · have hlen2 : 0 < sd2.rows.length := by
        rw [length_pos_iff_isEmpty_false] at hlen ⊢
        rw [← hsde]
        exact hlen
      rw [if_pos hlen] at h1
      rw [if_pos hlen2] at h2
      cases hst1 : a1.scale_df_structure with
      | none =>
        have hst2 : a2.scale_df_structure = Option.none := omap_none _ hA.scale_st hst1
        rw [hst1] at h1
        rw [hst2] at h2
        cases h1
        cases h2
        exact ⟨hA, hx⟩
      | some st1 =>
        obtain ⟨st2, hst2, hstc⟩ := omap_some_elim _ hA.scale_st hst1
        rw [hst1] at h1
        rw [hst2] at h2
        simp only at h1 h2
        have hstcols : st1.cols = st2.cols := hstc
        have hshape2 : oshape (some (Preprocessor.fillna (alignRight sd1 st1) c.opts.missing))
            = oshape (some (Preprocessor.fillna (alignRight sd2 st2) c.opts.missing)) := by
          unfold oshape
          simp only [Option.map]
          rw [fillna_cols, fillna_cols, alignRight_cols, alignRight_cols, hstcols,
            fillna_isEmpty, fillna_isEmpty, alignRight_isEmpty, alignRight_isEmpty, hsde]
        cases hsi1 : a1.scaler_instance with
        | none =>
          have hsi2 : a2.scaler_instance = Option.none := omap_none _ hA.scaler hsi1
          rw [hsi1] at h1
          rw [hsi2] at h2
          cases h1
          cases h2
          refine ⟨⟨hA.ohe_st, hA.cv_st, hA.tfidf_st, hA.text_st, ?_, hA.hashdf,
            hA.cvdf, hA.tfidfdf, hshape2, ?_⟩, hx⟩
          · show ocols (some st1) = ocols (some st2)
            simp only [ocols, Option.map]
            rw [hstcols]
          · rfl
        | some si1 =>
          obtain ⟨si2, hsi2, hsic⟩ := omap_some_elim _ hA.scaler hsi1
          rw [hsi1] at h1
          rw [hsi2] at h2
          simp only at h1 h2
          cases htr1 : si1.transform (Preprocessor.fillna (alignRight sd1 st1) c.opts.missing) with
          | error e =>
            rw [htr1] at h1
            exact absurd h1 (by simp)
          | ok sd31 =>
            cases htr2 : si2.transform (Preprocessor.fillna (alignRight sd2 st2) c.opts.missing) with
            | error e =>
              rw [htr2] at h2
              exact absurd h2 (by simp)
            | ok sd32 =>
              rw [htr1] at h1
              rw [htr2] at h2
              simp only at h1 h2
              obtain ⟨y1, hy1, h1⟩ := ebind_ok_inv h1
              obtain ⟨y2, hy2, h2⟩ := ebind_ok_inv h2
              cases h1
              cases h2
              have hq1 := scaler_transform_shape htr1
              have hq2 := scaler_transform_shape htr2
              have hs3 : sd31.cols = sd32.cols ∧ sd31.rows.isEmpty = sd32.rows.isEmpty := by
                constructor
                · rw [hq1.1, hq2.1, fillna_cols, fillna_cols, alignRight_cols,
                    alignRight_cols, hstcols]
                · rw [hq1.2, hq2.2, fillna_isEmpty, fillna_isEmpty, alignRight_isEmpty,
                    alignRight_isEmpty, hsde]
              refine ⟨⟨hA.ohe_st, hA.cv_st, hA.tfidf_st, hA.text_st, ?_, hA.hashdf,
                hA.cvdf, hA.tfidfdf, ?_, ?_⟩, ?_⟩
              · show ocols (some st1) = ocols (some st2)
                simp only [ocols, Option.map]
                rw [hstcols]
              · unfold oshape
                simp only [Option.map]
                rw [hs3.1, hs3.2]
              · show (some si1).map ScalerState.cols = (some si2).map ScalerState.cols
                simp only [Option.map]
                rw [hsic]
              · show y1.map DF.cols = y2.map DF.cols
                rw [joinOpt_cols hy1, joinOpt_cols hy2]
                have hxm : xt1.map DF.cols = xt2.map DF.cols := hx
                rw [hxm, hs3.1]
    · have hlen2 : ¬(0 < sd2.rows.length) := by
        rw [length_pos_iff_isEmpty_false] at hlen ⊢
        rw [← hsde]
        exact hlen
      rw [if_neg hlen] at h1
      rw [if_neg hlen2] at h2
      cases h1
      cases h2
      exact ⟨hA, hx⟩

theorem stageNoPrep_lockstep {c : Config} {X1 X2 : DF} {a1 a2 : Attrs}
    {xt1 xt2 : Option DF} {p1 p2 : Attrs × Option DF}
    (h1 : stageNoPrep c X1 (a1, xt1) = Except.ok p1)
    (h2 : stageNoPrep c X2 (a2, xt2) = Except.ok p2)
    (hA : ColEq a1 a2) (hx : ocols xt1 = ocols xt2) :
    ColEq p1.1 p2.1 ∧ ocols p1.2 = ocols p2.2 := by
  unfold stageNoPrep at h1 h2
  simp only at h1 h2
  by_cases hc : c.no_prep = true
  · rw [if_pos hc] at h1 h2
    obtain ⟨d1, hd1, h1⟩ := ebind_ok_inv h1
    obtain ⟨y1, hy1, h1⟩ := ebind_ok_inv h1
    obtain ⟨d2, hd2, h2⟩ := ebind_ok_inv h2
    obtain ⟨y2, hy2, h2⟩ := ebind_ok_inv h2
    cases h1
    cases h2
    have hdc : d1.cols = d2.cols := by
      rw [selectCols_ok_inv hd1, selectCols_ok_inv hd2]
    refine ⟨⟨hA.ohe_st, hA.cv_st, hA.tfidf_st, hA.text_st, hA.scale_st, hA.hashdf,
      hA.cvdf, hA.tfidfdf, hA.scaledf, hA.scaler⟩, ?_⟩
    show y1.map DF.cols = y2.map DF.cols
    rw [joinOpt_cols hy1, joinOpt_cols hy2]
    have hxm : xt1.map DF.cols = xt2.map DF.cols := hx
    rw [hxm, hdc]
  · rw [if_neg hc] at h1 h2
    cases h1
    cases h2
    exact ⟨hA, hx⟩

/-- C5 amended: for one Preprocessor state and any two successful transforms
on non-empty input tables, the assembled output frames have the identical
column list (set and order).  (The non-emptiness proviso is forced by the
counterexample: for an empty input the `len(scale_df) > 0` guard silently
drops the scaled block.) -/
theorem c5_schema_stability (s : PState) (X1 X2 : DF)
    (r1 r2 : PState × Option DF)
    (h1 : Preprocessor.transform s X1 = Except.ok r1)
    (h2 : Preprocessor.transform s X2 = Except.ok r2)
    (hne1 : X1.rows ≠ []) (hne2 : X2.rows ≠ [])
    (d1 d2 : DF) (ho1 : r1.2 = some d1) (ho2 : r2.2 = some d2) :
    d1.cols = d2.cols := by
  have hni1 : X1.rows.isEmpty = false := by
    cases hX : X1.rows with
    | nil => exact absurd hX hne1
    | cons p rest => simp
  have hni2 : X2.rows.isEmpty = false := by
    cases hX : X2.rows with
    | nil => exact absurd hX hne2
    | cons p rest => simp
  obtain ⟨aa1, xx1, hbody1, hs1, hout1⟩ := transform_inv h1
  obtain ⟨aa2, xx2, hbody2, hs2, hout2⟩ := transform_inv h2
  obtain ⟨q1, q2, q3, q4, q5, q6, q7, q8, q9, q10,
    g1, g2, g3, g4, g5, g6, g7, g8, g9, g10, g11⟩ := transformBody_inv hbody1
  obtain ⟨w1, w2, w3, w4, w5, w6, w7, w8, w9, w10,
    f1, f2, f3, f4, f5, f6, f7, f8, f9, f10, f11⟩ := transformBody_inv hbody2
  obtain ⟨qa1, qx1⟩ := q1
  obtain ⟨wa1, wx1⟩ := w1
  have L1 := stageOhe_lockstep g1 f1 (ColEq.rfl s.attrs) (Eq.refl _)
  obtain ⟨qa2, qx2⟩ := q2
  obtain ⟨wa2, wx2⟩ := w2
  have L2 := stageHash_lockstep g2 f2 L1.1 L1.2 hni1 hni2
  obtain ⟨qa3, qx3⟩ := q3
  obtain ⟨wa3, wx3⟩ := w3
  have L3 := stageCv_lockstep g3 f3 L2.1 L2.2 hni1 hni2
  obtain ⟨qa4, qx4⟩ := q4
  obtain ⟨wa4, wx4⟩ := w4
  have L4 := stageTfidf_lockstep g4 f4 L3.1 L3.2 hni1 hni2
  obtain ⟨qa5, qx5⟩ := q5
  obtain ⟨wa5, wx5⟩ := w5
  have L5 := stageText_lockstep g5 f5 L4.1 L4.2
  obtain ⟨qa6, qx6⟩ := q6
  obtain ⟨wa6, wx6⟩ := w6
  have L6 := stageScaleSel_lockstep g6 f6 L5.1 L5.2 hni1 hni2
  obtain ⟨qa7, qx7⟩ := q7
  obtain ⟨wa7, wx7⟩ := w7
  have L7 := stageHashRoute_lockstep g7 f7 L6.1 L6.2
  obtain ⟨qa8, qx8⟩ := q8
  obtain ⟨wa8, wx8⟩ := w8
  have L8 := stageCvRoute_lockstep g8 f8 L7.1 L7.2
  obtain ⟨qa9, qx9⟩ := q9
  obtain ⟨wa9, wx9⟩ := w9
  have L9 := stageTfidfRoute_lockstep g9 f9 L8.1 L8.2
  obtain ⟨qa10, qx10⟩ := q10
  obtain ⟨wa10, wx10⟩ := w10
  have L10 := stageTryScale_lockstep g10 f10 L9.1 L9.2
  have L11 := stageNoPrep_lockstep g11 f11 L10.1 L10.2
  have hx1 : xx1 = some d1 := by rw [← hout1, ho1]
  have hx2 : xx2 = some d2 := by rw [← hout2, ho2]
  have hfin := L11.2
  rw [hx1, hx2] at hfin
  simpa [ocols] using hfin

def c5s1 : PState :=
  match Preprocessor.fit c5p c5X1 Option.none false with
  | Except.ok s => s
  | Except.error _ => c5p

def c5X2 : DF :=
  ⟨["a", "b"], [(0, [Cell.str "z", Cell.num 5]), (1, [Cell.str "x", Cell.num 7])]⟩

def c5r1 : PState × Option DF :=
  match Preprocessor.transform c5s1 c5X1 with
  | Except.ok r => r
  | Except.error _ => (c5s1, Option.none)

def c5r2 : PState × Option DF :=
  match Preprocessor.transform c5s1 c5X2 with
  | Except.ok r => r
  | Except.error _ => (c5s1, Option.none)

def c5d1 : DF := c5r1.2.getD ⟨[], []⟩

def c5d2 : DF := c5r2.2.getD ⟨[], []⟩

/-- Witness for the C5 amended schema-stability theorem: one fitted state,
two different non-empty inputs, the same output columns. -/
theorem c5_schema_stability_witness :
    Preprocessor.transform c5s1 c5X1 = Except.ok c5r1 ∧
    Preprocessor.transform c5s1 c5X2 = Except.ok c5r2 ∧
    c5r1.2 = some c5d1 ∧ c5r2.2 = some c5d2 ∧ c5d1.cols = c5d2.cols :=
  have ha : Preprocessor.transform c5s1 c5X1 = Except.ok c5r1 := by decide
  have hb : Preprocessor.transform c5s1 c5X2 = Except.ok c5r2 := by decide
  have hc : c5r1.2 = some c5d1 := by decide
  have hd : c5r2.2 = some c5d2 := by decide
  ⟨ha, hb, hc, hd,
   c5_schema_stability c5s1 c5X1 c5X2 c5r1 c5r2 ha hb (by decide) (by decide) c5d1 c5d2 hc hd⟩

/-! Row-index preservation lemmas. -/

theorem map_fst_map {α β γ : Type} (l : List (α × β)) (f : α × β → γ) :
    (l.map (fun p => (p.1, f p))).map Prod.fst = l.map Prod.fst := by
  rw [List.map_map]
  rfl

theorem selectCols_idx {X : DF} {ns : List String} {d : DF}
    (h : X.selectCols ns = Except.ok d) : d.idx = X.idx := by
  rw [selectCols_ok_inv h]
  show List.map Prod.fst _ = _
  rw [map_fst_map]
  rfl

theorem alignRight_idx (d t : DF) : (alignRight d t).idx = d.idx := by
  unfold DF.idx alignRight
  simp only
  rw [map_fst_map]

theorem fillna_idx (d : DF) (m : String) : (Preprocessor.fillna d m).idx = d.idx := by
  have hfb : ∀ f, (fillBy d f).idx = d.idx := by
    intro f
    unfold DF.idx fillBy
    simp only
    rw [map_fst_map]
  unfold Preprocessor.fillna
  split
  · exact hfb _
  · split
    · exact hfb _
    · split
      · exact hfb _
      · split
        · rfl
        · exact hfb _

theorem dropCol_idx (d : DF) (c : String) : (d.dropCol c).idx = d.idx := by
  unfold DF.idx DF.dropCol
  simp only
  rw [map_fst_map]

theorem getDummies_idx (d : DF) : (getDummies d).idx = d.idx := by
  unfold DF.idx getDummies
  simp only
  rw [map_fst_map]

theorem scaler_transform_idx {sc : ScalerState} {d e : DF}
    (h : sc.transform d = Except.ok e) : e.idx = d.idx := by
  unfold ScalerState.transform at h
  split at h
  · exact absurd h (by simp)
  · split at h
    · exact absurd h (by simp)
    · cases h
      unfold DF.idx
      simp only
      rw [map_fst_map]

theorem joinOn_idx {d : DF} {c : String} {u : KeyedDF} {j : DF}
    (h : d.joinOn c u = Except.ok j)
    (hnod : (u.rows.map Prod.fst).Nodup) : j.idx = d.idx := by
  rw [joinOn_ok_inv h]
  unfold DF.idx
  simp only
  rw [joinOn_rows_map d c u hnod, map_fst_map]

theorem join_rows_map (a b : DF) (hnod : (b.rows.map Prod.fst).Nodup) :
    a.rows.flatMap (fun p =>
      match b.rows.filter (fun q => q.1 == p.1) with
      | [] => [(p.1, p.2 ++ b.cols.map (fun _ => Cell.null))]
      | ms => ms.map (fun q => (p.1, p.2 ++ q.2)))
    = a.rows.map (fun p => (p.1, p.2 ++
        (match b.rows.filter (fun q => q.1 == p.1) with
         | [] => b.cols.map (fun _ => Cell.null)
         | m :: _ => m.2))) := by
  apply flatMap_singleton
  intro p hp
  cases hf : b.rows.filter (fun q => q.1 == p.1) with
  | nil => rfl
  | cons m rest =>
    have hlen := filter_key_len_le_one b.rows p.1 hnod
    rw [hf] at hlen
    simp only [List.length_cons] at hlen
    have hrest : rest = [] := List.eq_nil_of_length_eq_zero (by omega)
    subst hrest
    rfl

theorem join_idx {a b j : DF} (h : a.join b = Except.ok j)
    (hnod : b.idx.Nodup) : j.idx = a.idx := by
  unfold DF.join at h
  split at h
  · exact absurd h (by simp)
  · cases h
    unfold DF.idx
    simp only
    rw [join_rows_map a b hnod, map_fst_map]

theorem joinOpt_idx {xt : Option DF} {d : DF} {xt2 : Option DF} {ix : List Nat}
    (h : joinOpt xt d = Except.ok xt2)
    (hd : d.idx = ix) (hnod : ix.Nodup)
    (hxt : ∀ e, xt = some e → DF.idx e = ix) :
    ∀ e2, xt2 = some e2 → e2.idx = ix := by
  unfold joinOpt at h
  cases xt with
  | none =>
    cases h
    intro e2 he2
    cases he2
    exact hd
  | some x =>
    simp only at h
    cases hj : x.join d with
    | error e => rw [hj] at h; exact absurd h (by simp [Except.map])
    | ok j =>
      rw [hj] at h
      simp only [Except.map] at h
      cases h
      intro e2 he2
      cases he2
      rw [join_idx hj (hd ▸ hnod)]
      exact hxt x rfl

theorem keyed_rows_nodup {vals : List Cell} {strs : List String}
    (hstrs : mapStrs vals = Except.ok strs) {β : Type} (g : String → β)
    (hvals : vals.Nodup) :
    ((strs.map (fun s => (Cell.str s, g s))).map Prod.fst).Nodup := by
  simp only [List.map_map]
  have hcomp : (Prod.fst ∘ fun s => ((Cell.str s, g s) : Cell × β)) = Cell.str := rfl
  rw [hcomp, ← mapStrs_eq vals strs hstrs]
  exact hvals

theorem hasher_nodup {d : DF} {c : String} {arg : StratArg} {u : KeyedDF}
    (h : Preprocessor.hasher d c arg = Except.ok u) : (u.rows.map Prod.fst).Nodup := by
  unfold Preprocessor.hasher at h
  obtain ⟨strs, hstrs, h⟩ := ebind_ok_inv h
  cases arg with
  | nat n =>
    simp only at h
    split at h
    · exact absurd h (by simp)
    · cases h
      exact keyed_rows_nodup hstrs _ (dedupFirst_nodup _)
  | none => exact absurd h (by simp)
  | str s => exact absurd h (by simp)
  | kwargs ks => exact absurd h (by simp)

theorem text_vectorizer_nodup {d : DF} {c ty : String} {ks : List (String × String)}
    {u : KeyedDF} (h : Preprocessor.text_vectorizer d c ty ks = Except.ok u) :
    (u.rows.map Prod.fst).Nodup := by
  unfold Preprocessor.text_vectorizer at h
  obtain ⟨strs, hstrs, h⟩ := ebind_ok_inv h
  simp only at h
  split at h
  · exact absurd h (by simp)
  · cases h
    exact keyed_rows_nodup hstrs _ (dedupFirst_nodup _)

theorem text_similarity_nodup {d : DF} {c : String} {u : KeyedDF}
    (h : Preprocessor.text_similarity d c = Except.ok u) :
    (u.rows.map Prod.fst).Nodup := by
  unfold Preprocessor.text_similarity at h
  obtain ⟨strs, hstrs, h⟩ := ebind_ok_inv h
  cases h
  exact keyed_rows_nodup hstrs _ (dedupFirst_nodup _)

theorem hashFold_idx {ms : List FeatureSpec} : ∀ {cs : List String} {d e : DF},
    hashFold ms cs d = Except.ok e → e.idx = d.idx := by
  intro cs
  induction cs with
  | nil =>
    intro d e h
    simp only [hashFold] at h
    cases h
    rfl
  | cons c rest ih =>
    intro d e h
    simp only [hashFold] at h
    obtain ⟨u, hu, h⟩ := ebind_ok_inv h
    obtain ⟨j, hj, h⟩ := ebind_ok_inv h
    rw [ih h, dropCol_idx, joinOn_idx hj (hasher_nodup hu)]

theorem vectFold_idx {ms : List FeatureSpec} {ty : String} : ∀ {cs : List String} {d e : DF},
    vectFold ms ty cs d = Except.ok e → e.idx = d.idx := by
  intro cs
  induction cs with
  | nil =>
    intro d e h
    simp only [vectFold] at h
    cases h
    rfl
  | cons c rest ih =>
    intro d e h
    simp only [vectFold] at h
    obtain ⟨u, hu, h⟩ := ebind_ok_inv h
    obtain ⟨j, hj, h⟩ := ebind_ok_inv h
    rw [ih h, dropCol_idx, joinOn_idx hj (text_vectorizer_nodup hu)]

theorem textFold_idx : ∀ {cs : List String} {d e : DF},
    textFold cs d = Except.ok e → e.idx = d.idx := by
  intro cs
  induction cs with
  | nil =>
    intro d e h
    simp only [textFold] at h
    cases h
    rfl
  | cons c rest ih =>
    intro d e h
    simp only [textFold] at h
    obtain ⟨u, hu, h⟩ := ebind_ok_inv h
    obtain ⟨j, hj, h⟩ := ebind_ok_inv h
    rw [ih h, dropCol_idx, joinOn_idx hj (text_similarity_nodup hu)]

/-- The configurations under which the transform routing stages (lines
391-438) assign `self.scale_df` before the try-block at line 440 reads it. -/
def scaleDfSetB (c : Config) : Bool :=
  c.scale || (c.hash && c.opts.scale_hashed) || (c.cv && c.opts.scale_vectors)
    || (c.tfidf && c.opts.scale_vectors)

theorem stageOhe_idx {c : Config} {X : DF} {a : Attrs} {xt : Option DF}
    {p' : Attrs × Option DF} (h : stageOhe c X (a, xt) = Except.ok p')
    (hxt : ∀ e, xt = some e → e.idx = X.idx) :
    ∀ e, p'.2 = some e → e.idx = X.idx := by
  unfold stageOhe at h
  simp only at h
  split at h
  · obtain ⟨d0, hd0, h⟩ := ebind_ok_inv h
    obtain ⟨st, hst, h⟩ := ebind_ok_inv h
    cases h
    intro e he
    cases he
    rw [fillna_idx, alignRight_idx, getDummies_idx, selectCols_idx hd0]
  · cases h
    exact hxt

theorem stageHash_hashdf {c : Config} {X : DF} {a : Attrs} {xt : Option DF}
    {p' : Attrs × Option DF} (hflag : c.hash = true)
    (h : stageHash c X (a, xt) = Except.ok p') :
    ∃ d, p'.1.hash_df = some d ∧ d.idx = X.idx := by
  obtain ⟨d0, d, hd0, hd, hp⟩ := stageHash_ok hflag h
  refine ⟨d, ?_, ?_⟩
  · rw [hp]
  · rw [hashFold_idx hd, selectCols_idx hd0]

theorem stageCv_cvdf {c : Config} {X : DF} {a : Attrs} {xt : Option DF}
    {p' : Attrs × Option DF} (hflag : c.cv = true)
    (h : stageCv c X (a, xt) = Except.ok p') :
    ∃ d, p'.1.cv_df = some d ∧ d.idx = X.idx := by
  unfold stageCv at h
  simp only at h
  rw [hflag] at h
  simp only [if_true] at h
  obtain ⟨d0, hd0, h⟩ := ebind_ok_inv h
  obtain ⟨d1, hd1, h⟩ := ebind_ok_inv h
  obtain ⟨st, hst, h⟩ := ebind_ok_inv h
  cases h
  refine ⟨_, rfl, ?_⟩
  rw [fillna_idx, alignRight_idx, vectFold_idx hd1, selectCols_idx hd0]

theorem stageTfidf_tfidfdf {c : Config} {X : DF} {a : Attrs} {xt : Option DF}
    {p' : Attrs × Option DF} (hflag : c.tfidf = true)
    (h : stageTfidf c X (a, xt) = Except.ok p') :
    ∃ d, p'.1.tfidf_df = some d ∧ d.idx = X.idx := by
  unfold stageTfidf at h
  simp only at h
  rw [hflag] at h
  simp only [if_true] at h
  obtain ⟨d0, hd0, h⟩ := ebind_ok_inv h
  obtain ⟨d1, hd1, h⟩ := ebind_ok_inv h
  obtain ⟨st, hst, h⟩ := ebind_ok_inv h
  cases h
  refine ⟨_, rfl, ?_⟩
  rw [fillna_idx, alignRight_idx, vectFold_idx hd1, selectCols_idx hd0]

theorem stageText_idx {c : Config} {X : DF} {a : Attrs} {xt : Option DF}
    {p' : Attrs × Option DF} (h : stageText c X (a, xt) = Except.ok p')
    (hnod : X.idx.Nodup)
    (hxt : ∀ e, xt = some e → e.idx = X.idx) :
    ∀ e, p'.2 = some e → e.idx = X.idx := by
  unfold stageText at h
  simp only at h
  split at h
  · obtain ⟨d0, hd0, h⟩ := ebind_ok_inv h
    obtain ⟨d1, hd1, h⟩ := ebind_ok_inv h
    obtain ⟨st, hst, h⟩ := ebind_ok_inv h
    obtain ⟨xt2, hxt2, h⟩ := ebind_ok_inv h
    cases h
    have hd2 : (Preprocessor.fillna (alignRight d1 st) "zeros").idx = X.idx := by
      rw [fillna_idx, alignRight_idx, textFold_idx hd1, selectCols_idx hd0]
    exact joinOpt_idx hxt2 hd2 hnod hxt
  · cases h
    exact hxt

theorem stageScaleSel_on {c : Config} {X : DF} {a : Attrs} {xt : Option DF}
    {p' : Attrs × Option DF} (hflag : c.scale = true)
    (h : stageScaleSel c X (a, xt) = Except.ok p') :
    ∃ d, X.selectCols (namesOf c.scale_meta) = Except.ok d ∧
      p' = ({ a with scale_df := some d }, xt) := by
  unfold stageScaleSel at h
  simp only at h
  rw [hflag] at h
  simp only [if_true] at h
  obtain ⟨d0, hd0, h⟩ := ebind_ok_inv h
  cases h
  exact ⟨d0, hd0, rfl⟩

theorem stageScaleSel_off {c : Config} {X : DF} {a : Attrs} {xt : Option DF}
    {p' : Attrs × Option DF} (hflag : c.scale = false)
    (h : stageScaleSel c X (a, xt) = Except.ok p') : p' = (a, xt) := by
  unfold stageScaleSel at h
  simp only at h
  rw [hflag] at h
  rw [if_neg (by simp)] at h
  cases h
  rfl

theorem stageHashRoute_idx {c : Config} {a : Attrs} {xt : Option DF}
    {p' : Attrs × Option DF} {ix : List Nat}
    (h : stageHashRoute c (a, xt) = Except.ok p') (hnod : ix.Nodup)
    (hhash : c.hash = true → ∃ d, a.hash_df = some d ∧ d.idx = ix)
    (hsc : c.scale = true → ∃ d, a.scale_df = some d ∧ d.idx = ix)
    (hxt : ∀ e, xt = some e → e.idx = ix) :
    (∀ e, p'.2 = some e → e.idx = ix) ∧
    ((c.scale || (c.hash && c.opts.scale_hashed)) = true →
      ∃ d, p'.1.scale_df = some d ∧ d.idx = ix) ∧
    ((c.scale || (c.hash && c.opts.scale_hashed)) = false →
      p'.1.scale_df = a.scale_df) := by
  unfold stageHashRoute at h
  simp only at h
  by_cases hc : (c.hash && c.opts.scale_hashed) = true
  · rw [if_pos hc] at h
    have hh : c.hash = true := by
      have hcopy := hc
      simp only [Bool.and_eq_true] at hcopy
      exact hcopy.1
    by_cases hs : c.scale = true
    · rw [if_pos hs] at h
      obtain ⟨sd, hsd, h⟩ := ebind_ok_inv h
      obtain ⟨hd, hhd, h⟩ := ebind_ok_inv h
      obtain ⟨j, hj, h⟩ := ebind_ok_inv h
      cases h
      obtain ⟨sd0, hsd0, hsdix⟩ := hsc hs
      obtain ⟨hd0, hhd0, hhdix⟩ := hhash hh
      rw [ofOption_ok_inv hsd] at hsd0
      rw [ofOption_ok_inv hhd] at hhd0
      cases hsd0
      cases hhd0
      refine ⟨hxt, ?_, ?_⟩
      · intro _
        refine ⟨j, rfl, ?_⟩
        rw [join_idx hj (by rw [hhdix]; exact hnod), hsdix]
      · intro hor
        rw [hs] at hor
        exact absurd hor (by simp)
    · rw [if_neg hs] at h
      obtain ⟨hd, hhd, h⟩ := ebind_ok_inv h
      obtain ⟨si, hsi, h⟩ := ebind_ok_inv h
      cases h
      obtain ⟨hd0, hhd0, hhdix⟩ := hhash hh
      rw [ofOption_ok_inv hhd] at hhd0
      cases hhd0
      refine ⟨hxt, ?_, ?_⟩
      · intro _
        exact ⟨hd, rfl, hhdix⟩
      · intro hor
        rw [hc] at hor
        exact absurd hor (by simp)
  · rw [if_neg hc] at h
    by_cases hh : c.hash = true
    · rw [if_pos hh] at h
      obtain ⟨hd, hhd, h⟩ := ebind_ok_inv h
      obtain ⟨y, hy, h⟩ := ebind_ok_inv h
      cases h
      obtain ⟨hd0, hhd0, hhdix⟩ := hhash hh
      rw [ofOption_ok_inv hhd] at hhd0
      cases hhd0
      refine ⟨joinOpt_idx hy hhdix hnod hxt, ?_, fun _ => rfl⟩
      intro hor
      simp only [Bool.or_eq_true] at hor
      rcases hor with hs | hc2
      · exact hsc hs
      · exact absurd hc2 hc
    · rw [if_neg hh] at h
      cases h
      refine ⟨hxt, ?_, fun _ => rfl⟩
      intro hor
      simp only [Bool.or_eq_true] at hor
      rcases hor with hs | hc2
      · exact hsc hs
      · exact absurd hc2 hc

theorem stageCvRoute_idx {c : Config} {a : Attrs} {xt : Option DF}
    {p' : Attrs × Option DF} {ix : List Nat}
    (h : stageCvRoute c (a, xt) = Except.ok p') (hnod : ix.Nodup)
    (hcv : c.cv = true → ∃ d, a.cv_df = some d ∧ d.idx = ix)
    (hS : (c.scale || (c.hash && c.opts.scale_hashed)) = true →
      ∃ d, a.scale_df = some d ∧ d.idx = ix)
    (hxt : ∀ e, xt = some e → e.idx = ix) :
    (∀ e, p'.2 = some e → e.idx = ix) ∧
    ((c.scale || (c.hash && c.opts.scale_hashed) || (c.cv && c.opts.scale_vectors)) = true →
      ∃ d, p'.1.scale_df = some d ∧ d.idx = ix) ∧
    ((c.scale || (c.hash && c.opts.scale_hashed) || (c.cv && c.opts.scale_vectors)) = false →
      p'.1.scale_df = a.scale_df) := by
  unfold stageCvRoute at h
  simp only at h
  by_cases hc : (c.cv && c.opts.scale_vectors) = true
  · rw [if_pos hc] at h
    have hcvt : c.cv = true := by
      have hcopy := hc
      simp only [Bool.and_eq_true] at hcopy
      exact hcopy.1
    by_cases hg : (c.scale || (c.hash && c.opts.scale_hashed)) = true
    · rw [if_pos hg] at h
      obtain ⟨sd, hsd, h⟩ := ebind_ok_inv h
      obtain ⟨cd, hcd, h⟩ := ebind_ok_inv h
      obtain ⟨j, hj, h⟩ := ebind_ok_inv h
      cases h
      obtain ⟨sd0, hsd0, hsdix⟩ := hS hg
      obtain ⟨cd0, hcd0, hcdix⟩ := hcv hcvt
      rw [ofOption_ok_inv hsd] at hsd0
      rw [ofOption_ok_inv hcd] at hcd0
      cases hsd0
      cases hcd0
      refine ⟨hxt, ?_, ?_⟩
      · intro _
        refine ⟨j, rfl, ?_⟩
        rw [join_idx hj (by rw [hcdix]; exact hnod), hsdix]
      · intro hor
        rw [hg] at hor
        exact absurd hor (by simp)
    · rw [if_neg hg] at h
      obtain ⟨cd, hcd, h⟩ := ebind_ok_inv h
      obtain ⟨si, hsi, h⟩ := ebind_ok_inv h
      cases h
      obtain ⟨cd0, hcd0, hcdix⟩ := hcv hcvt
      rw [ofOption_ok_inv hcd] at hcd0
      cases hcd0
      refine ⟨hxt, ?_, ?_⟩
      · intro _
        exact ⟨cd, rfl, hcdix⟩
      · intro hor
        rw [hc] at hor
        exact absurd hor (by simp)
  · rw [if_neg hc] at h
    by_cases hcvt : c.cv = true
    · rw [if_pos hcvt] at h
      obtain ⟨cd, hcd, h⟩ := ebind_ok_inv h
      obtain ⟨y, hy, h⟩ := ebind_ok_inv h
      cases h
      obtain ⟨cd0, hcd0, hcdix⟩ := hcv hcvt
      rw [ofOption_ok_inv hcd] at hcd0
      cases hcd0
      refine ⟨joinOpt_idx hy hcdix hnod hxt, ?_, fun _ => rfl⟩
      intro hor
      simp only [Bool.or_eq_true] at hor
      rcases hor with hg | hc2
      · exact hS (by simp only [Bool.or_eq_true]; exact hg)
      · exact absurd hc2 hc
    · rw [if_neg hcvt] at h
      cases h
      refine ⟨hxt, ?_, fun _ => rfl⟩
      intro hor
      simp only [Bool.or_eq_true] at hor
      rcases hor with hg | hc2
      · exact hS (by simp only [Bool.or_eq_true]; exact hg)
      · exact absurd hc2 hc

theorem stageTfidfRoute_idx {c : Config} {a : Attrs} {xt : Option DF}
    {p' : Attrs × Option DF} {ix : List Nat}
    (h : stageTfidfRoute c (a, xt) = Except.ok p') (hnod : ix.Nodup)
    (htfidf : c.tfidf = true → ∃ d, a.tfidf_df = some d ∧ d.idx = ix)
    (hS : (c.scale || (c.hash && c.opts.scale_hashed) || (c.cv && c.opts.scale_vectors)) = true →
      ∃ d, a.scale_df = some d ∧ d.idx = ix)
    (hxt : ∀ e, xt = some e → e.idx = ix) :
    (∀ e, p'.2 = some e → e.idx = ix) ∧
    (scaleDfSetB c = true → ∃ d, p'.1.scale_df = some d ∧ d.idx = ix) ∧
    (scaleDfSetB c = false → p'.1.scale_df = a.scale_df) := by
  unfold stageTfidfRoute at h
  simp only at h
  by_cases hc : (c.tfidf && c.opts.scale_vectors) = true
  · rw [if_pos hc] at h
    have hcc : c.tfidf = true ∧ c.opts.scale_vectors = true := by
      have hcopy := hc
      simp only [Bool.and_eq_true] at hcopy
      exact hcopy
    by_cases hg : (c.scale || (c.hash && c.opts.scale_hashed) || c.cv) = true
    · rw [if_pos hg] at h
      obtain ⟨sd, hsd, h⟩ := ebind_ok_inv h
      obtain ⟨td, htd, h⟩ := ebind_ok_inv h
      obtain ⟨j, hj, h⟩ := ebind_ok_inv h
      cases h
      have hg2 : (c.scale || (c.hash && c.opts.scale_hashed)
          || (c.cv && c.opts.scale_vectors)) = true := by
        rw [hcc.2, Bool.and_true]
        exact hg
      obtain ⟨sd0, hsd0, hsdix⟩ := hS hg2
      obtain ⟨td0, htd0, htdix⟩ := htfidf hcc.1
      rw [ofOption_ok_inv hsd] at hsd0
      rw [ofOption_ok_inv htd] at htd0
      cases hsd0
      cases htd0
      refine ⟨hxt, ?_, ?_⟩
      · intro _
        refine ⟨j, rfl, ?_⟩
        rw [join_idx hj (by rw [htdix]; exact hnod), hsdix]
      · intro hset
        rw [scaleDfSetB, hc] at hset
        exact absurd hset (by simp)
    · rw [if_neg hg] at h
      obtain ⟨td, htd, h⟩ := ebind_ok_inv h
      obtain ⟨si, hsi, h⟩ := ebind_ok_inv h
      cases h
      obtain ⟨td0, htd0, htdix⟩ := htfidf hcc.1
      rw [ofOption_ok_inv htd] at htd0
      cases htd0
      refine ⟨hxt, ?_, ?_⟩
      · intro _
        exact ⟨td, rfl, htdix⟩
      · intro hset
        rw [scaleDfSetB, hc] at hset
        exact absurd hset (by simp)
  · rw [if_neg hc] at h
    by_cases htf : c.tfidf = true
    · rw [if_pos htf] at h
      obtain ⟨td, htd, h⟩ := ebind_ok_inv h
      obtain ⟨y, hy, h⟩ := ebind_ok_inv h
      cases h
      obtain ⟨td0, htd0, htdix⟩ := htfidf htf
      rw [ofOption_ok_inv htd] at htd0
      cases htd0
      refine ⟨joinOpt_idx hy htdix hnod hxt, ?_, fun _ => rfl⟩
      intro hset
      have hcf : (c.tfidf && c.opts.scale_vectors) = false := by
        simp only [Bool.not_eq_true] at hc
        exact hc
      rw [scaleDfSetB, hcf, Bool.or_false] at hset
      exact hS hset
    · rw [if_neg htf] at h
      cases h
      refine ⟨hxt, ?_, fun _ => rfl⟩
      intro hset
      have hcf : (c.tfidf && c.opts.scale_vectors) = false := by
        simp only [Bool.not_eq_true] at hc
        exact hc
      rw [scaleDfSetB, hcf, Bool.or_false] at hset
      exact hS hset

theorem stageTryScale_idx {c : Config} {a : Attrs} {xt : Option DF}
    {p' : Attrs × Option DF} {ix : List Nat}
    (h : stageTryScale c (a, xt) = Except.ok p') (hnod : ix.Nodup)
    (hS : scaleDfSetB c = true → ∀ d, a.scale_df = some d → d.idx = ix)
    (hN : scaleDfSetB c = false → a.scale_df = Option.none)
    (hxt : ∀ e, xt = some e → e.idx = ix) :
    ∀ e, p'.2 = some e → e.idx = ix := by
  unfold stageTryScale at h
  simp only at h
  split at h
  · cases h
    exact hxt
  next sd heq =>
    split at h
    · split at h
      · cases h
        exact hxt
      next st hsteq =>
        split at h
        · cases h
          exact hxt
        next si hsieq =>
          split at h
          · exact absurd h (by simp)
          next sd3 htr =>
            obtain ⟨xt2, hxt2, h⟩ := ebind_ok_inv h
            cases h
            have hsdix : sd.idx = ix := by
              cases hb : scaleDfSetB c with
              | false =>
                rw [hN hb] at heq
                exact absurd heq (by simp)
              | true => exact hS hb sd heq
            have hsd3 : sd3.idx = ix := by
              rw [scaler_transform_idx htr, fillna_idx, alignRight_idx, hsdix]
            exact joinOpt_idx hxt2 hsd3 hnod hxt
    · cases h
      exact hxt

theorem stageNoPrep_idx {c : Config} {X : DF} {a : Attrs} {xt : Option DF}
    {p' : Attrs × Option DF} (h : stageNoPrep c X (a, xt) = Except.ok p')
    (hnod : X.idx.Nodup) (hxt : ∀ e, xt = some e → e.idx = X.idx) :
    ∀ e, p'.2 = some e → e.idx = X.idx := by
  unfold stageNoPrep at h
  simp only at h
  split at h
  · obtain ⟨d0, hd0, h⟩ := ebind_ok_inv h
    obtain ⟨xt2, hxt2, h⟩ := ebind_ok_inv h
    cases h
    exact joinOpt_idx hxt2 (selectCols_idx hd0) hnod hxt
  · cases h
    exact hxt

theorem fit_no_retrain_inv {s : PState} {X : DF} {fo : Option (List FeatureSpec)}
    {s1 : PState} (h : Preprocessor.fit s X fo false = Except.ok s1) :
    s1.cfg = s.cfg ∧ fitBody s.cfg s.attrs X = Except.ok s1.attrs := by
  unfold Preprocessor.fit at h
  simp only at h
  rw [if_neg (by simp)] at h
  cases hb : fitBody s.cfg s.attrs X with
  | error e =>
    rw [hb] at h
    exact absurd h (by simp [Except.map])
  | ok a1 =>
    rw [hb] at h
    simp only [Except.map] at h
    cases h
    exact ⟨rfl, rfl⟩
theorem fitBody_scale_df_stale {c : Config} {a0 : Attrs} {X : DF} {a1 : Attrs}
    (h : fitBody c a0 X = Except.ok a1) (hset : scaleDfSetB c = false) :
    a1.scale_df = a0.scale_df := by
  simp only [scaleDfSetB, Bool.or_eq_false_iff] at hset
  obtain ⟨⟨⟨hs, hhs⟩, hcv⟩, htf⟩ := hset
  unfold fitBody at h
  obtain ⟨b1, hb1, h⟩ := ebind_ok_inv h
  obtain ⟨b2, hb2, h⟩ := ebind_ok_inv h
  obtain ⟨b3, hb3, h⟩ := ebind_ok_inv h
  obtain ⟨b4, hb4, h⟩ := ebind_ok_inv h
  obtain ⟨b5, hb5, h⟩ := ebind_ok_inv h
  obtain ⟨b6, hb6, h⟩ := ebind_ok_inv h
  have e1 : b1.scale_df = a0.scale_df := by
    unfold fitOheStage at hb1
    split at hb1
    · obtain ⟨d, hd, hb1⟩ := ebind_ok_inv hb1
      cases hb1
      rfl
    · cases hb1
      rfl
  have e2 : b2.scale_df = b1.scale_df := by
    unfold fitScaleStage at hb2
    rw [hs] at hb2
    rw [if_neg (by simp)] at hb2
    cases hb2
    rfl
  have e3 : b3.scale_df = b2.scale_df := by
    unfold fitHashStage at hb3
    by_cases hh : c.hash = true
    · rw [hh] at hb3
      rw [if_pos rfl] at hb3
      obtain ⟨d0, hd0, hb3⟩ := ebind_ok_inv hb3
      obtain ⟨d, hd, hb3⟩ := ebind_ok_inv hb3
      simp only at hb3
      have hshf : c.opts.scale_hashed = false := by
        rw [hh] at hhs
        simpa using hhs
      rw [hshf] at hb3
      rw [if_neg (by simp)] at hb3
      cases hb3
      rfl
    · have hh' : c.hash = false := by
        revert hh
        cases c.hash <;> simp
      rw [hh'] at hb3
      rw [if_neg (by simp)] at hb3
      cases hb3
      rfl
  have e4 : b4.scale_df = b3.scale_df := by
    unfold fitCvStage at hb4
    by_cases hc : c.cv = true
    · rw [hc] at hb4
      rw [if_pos rfl] at hb4
      obtain ⟨d0, hd0, hb4⟩ := ebind_ok_inv hb4
      obtain ⟨d, hd, hb4⟩ := ebind_ok_inv hb4
      simp only at hb4
      have hsvf : c.opts.scale_vectors = false := by
        rw [hc] at hcv
        simpa using hcv
      rw [hsvf] at hb4
      rw [if_neg (by simp)] at hb4
      cases hb4
      rfl
    · have hc' : c.cv = false := by
        revert hc
        cases c.cv <;> simp
      rw [hc'] at hb4
      rw [if_neg (by simp)] at hb4
      cases hb4
      rfl
  have e5 : b5.scale_df = b4.scale_df := by
    unfold fitTfidfStage at hb5
    by_cases ht : c.tfidf = true
    · rw [ht] at hb5
      rw [if_pos rfl] at hb5
      obtain ⟨d0, hd0, hb5⟩ := ebind_ok_inv hb5
      obtain ⟨d, hd, hb5⟩ := ebind_ok_inv hb5
      simp only at hb5
      have hsvf : c.opts.scale_vectors = false := by
        rw [ht] at htf
        simpa using htf
      rw [hsvf] at hb5
      rw [if_neg (by simp)] at hb5
      cases hb5
      rfl
    · have ht' : c.tfidf = false := by
        revert ht
        cases c.tfidf <;> simp
      rw [ht'] at hb5
      rw [if_neg (by simp)] at hb5
      cases hb5
      rfl
  have e6 : b6.scale_df = b5.scale_df := by
    unfold fitTextStage at hb6
    split at hb6
    · obtain ⟨d0, hd0, hb6⟩ := ebind_ok_inv hb6
      obtain ⟨d, hd, hb6⟩ := ebind_ok_inv hb6
      cases hb6
      rfl
    · cases hb6
      rfl
  have e7 : a1.scale_df = b6.scale_df := by
    unfold fitScalerStage at h
    split at h
    · cases h
      rfl
    · split at h
      · split at h
        · cases h
          rfl
        · exact absurd h (by simp)
        · cases h
          rfl
      · cases h
        rfl
  rw [e7, e6, e5, e4, e3, e2, e1]

theorem transformBody_idx {c : Config} {a0 : Attrs} {X : DF} {r : Attrs × Option DF}
    (h : transformBody c a0 X = Except.ok r) (hnod : X.idx.Nodup)
    (hstale : scaleDfSetB c = false → a0.scale_df = Option.none) :
    ∀ d, r.2 = some d → d.idx = X.idx := by
  obtain ⟨p1, p2, p3, p4, p5, p6, p7, p8, p9, p10, h1, h2, h3, h4, h5, h6, h7, h8, h9,
    h10, h11⟩ := transformBody_inv h
  obtain ⟨a1, xt1⟩ := p1
  obtain ⟨a2, xt2⟩ := p2
  obtain ⟨a3, xt3⟩ := p3
  obtain ⟨a4, xt4⟩ := p4
  obtain ⟨a5, xt5⟩ := p5
  obtain ⟨a6, xt6⟩ := p6
  obtain ⟨a7, xt7⟩ := p7
  obtain ⟨a8, xt8⟩ := p8
  obtain ⟨a9, xt9⟩ := p9
  obtain ⟨a10, xt10⟩ := p10
  obtain ⟨o1, y1, hp1⟩ := stageOhe_shape h1
  obtain ⟨o2, hp2⟩ := stageHash_shape h2
  obtain ⟨o3, hp3⟩ := stageCv_shape h3
  obtain ⟨o4, hp4⟩ := stageTfidf_shape h4
  obtain ⟨o5, y5, hp5⟩ := stageText_shape h5
  obtain ⟨o6, hp6⟩ := stageScaleSel_shape h6
  obtain ⟨o7, q7, y7, hp7⟩ := stageHashRoute_shape h7
  obtain ⟨o8, q8, y8, hp8⟩ := stageCvRoute_shape h8
  obtain ⟨o9, q9, y9, hp9⟩ := stageTfidfRoute_shape h9
  have ea1 : a1 = { a0 with ohe_df := o1 } := congrArg Prod.fst hp1
  have ea2 : a2 = { a1 with hash_df := o2 } := congrArg Prod.fst hp2
  have ea3 : a3 = { a2 with cv_df := o3 } := congrArg Prod.fst hp3
  have ea4 : a4 = { a3 with tfidf_df := o4 } := congrArg Prod.fst hp4
  have ea5 : a5 = { a4 with text_df := o5 } := congrArg Prod.fst hp5
  have ea6 : a6 = { a5 with scale_df := o6 } := congrArg Prod.fst hp6
  have ea7 : a7 = { a6 with scale_df := o7, scaler_instance := q7 } := congrArg Prod.fst hp7
  have ea8 : a8 = { a7 with scale_df := o8, scaler_instance := q8 } := congrArg Prod.fst hp8
  have ex2 : xt2 = xt1 := congrArg Prod.snd hp2
  have ex3 : xt3 = xt2 := congrArg Prod.snd hp3
  have ex4 : xt4 = xt3 := congrArg Prod.snd hp4
  have ex6 : xt6 = xt5 := congrArg Prod.snd hp6
  have w1 : ∀ e, xt1 = some e → e.idx = X.idx := by
    refine stageOhe_idx h1 ?_
    intro e he
    cases he
  have w4 : ∀ e, xt4 = some e → e.idx = X.idx := by
    rw [ex4, ex3, ex2]
    exact w1
  have w5 : ∀ e, xt5 = some e → e.idx = X.idx := stageText_idx h5 hnod w4
  have w6 : ∀ e, xt6 = some e → e.idx = X.idx := by
    rw [ex6]
    exact w5
  have fh : c.hash = true → ∃ d, a6.hash_df = some d ∧ d.idx = X.idx := by
    intro hh
    obtain ⟨d, hd, hdix⟩ := stageHash_hashdf hh h2
    refine ⟨d, ?_, hdix⟩
    rw [ea6, ea5, ea4, ea3]
    exact hd
  have fc : c.cv = true → ∃ d, a7.cv_df = some d ∧ d.idx = X.idx := by
    intro hcvt
    obtain ⟨d, hd, hdix⟩ := stageCv_cvdf hcvt h3
    refine ⟨d, ?_, hdix⟩
    rw [ea7, ea6, ea5, ea4]
    exact hd
  have ft : c.tfidf = true → ∃ d, a8.tfidf_df = some d ∧ d.idx = X.idx := by
    intro htft
    obtain ⟨d, hd, hdix⟩ := stageTfidf_tfidfdf htft h4
    refine ⟨d, ?_, hdix⟩
    rw [ea8, ea7, ea6, ea5]
    exact hd
  have fs6 : c.scale = true → ∃ d, a6.scale_df = some d ∧ d.idx = X.idx := by
    intro hsct
    obtain ⟨d, hseld, hp6on⟩ := stageScaleSel_on hsct h6
    have e6 : a6 = { a5 with scale_df := some d } := congrArg Prod.fst hp6on
    exact ⟨d, by rw [e6], selectCols_idx hseld⟩
  have r7 := stageHashRoute_idx h7 hnod fh fs6 w6
  have r8 := stageCvRoute_idx h8 hnod fc r7.2.1 r7.1
  have r9 := stageTfidfRoute_idx h9 hnod ft r8.2.1 r8.1
  have hS10 : scaleDfSetB c = true → ∀ d, a9.scale_df = some d → d.idx = X.idx := by
    intro hb d hd
    obtain ⟨d2, hd2, hd2ix⟩ := r9.2.1 hb
    rw [hd] at hd2
    cases hd2
    exact hd2ix
  have hN10 : scaleDfSetB c = false → a9.scale_df = Option.none := by
    intro hb
    have hb2 := hb
    simp only [scaleDfSetB, Bool.or_eq_false_iff] at hb2
    have n9 := r9.2.2 hb
    have hg2 : (c.scale || (c.hash && c.opts.scale_hashed)
        || (c.cv && c.opts.scale_vectors)) = false := by
      simp only [Bool.or_eq_false_iff]
      exact hb2.1
    have n8 := r8.2.2 hg2
    have hg1 : (c.scale || (c.hash && c.opts.scale_hashed)) = false := by
      simp only [Bool.or_eq_false_iff]
      exact hb2.1.1
    have n7 := r7.2.2 hg1
    have n6 : a6.scale_df = a5.scale_df := by
      have hoff := stageScaleSel_off hb2.1.1.1 h6
      have e65 : a6 = a5 := congrArg Prod.fst hoff
      rw [e65]
    have n5 : a5.scale_df = a0.scale_df := by
      rw [ea5, ea4, ea3, ea2, ea1]
    rw [n9, n8, n7, n6, n5, hstale hb]
  have w10 := stageTryScale_idx h10 hnod hS10 hN10 r9.1
  exact stageNoPrep_idx h11 hnod w10

def c7wX : DF :=
  ⟨["a", "b"], [(0, [Cell.str "x", Cell.str "u"]), (1, [Cell.str "y", Cell.str "v"])]⟩

def c7ws1 : PState :=
  match Preprocessor.fit c7p c7wX Option.none false with
  | Except.ok s => s
  | Except.error _ => c7p

def c7wr : PState × Option DF :=
  match Preprocessor.transform c7ws1 c7wX with
  | Except.ok r => r
  | Except.error _ => (c7ws1, Option.none)

def c7wd : DF :=
  match c7wr.2 with
  | some d => d
  | Option.none => c7wX

/-- C7 amended: for a freshly constructed and fitted Preprocessor and every
input table X whose row-index labels are pairwise distinct, every output frame
of `transform(X)` carries exactly the input's row index — same row count, same
labels, same order.  (By the counterexample, the duplicate-free proviso on the
index is required: the index joins at lines 389, 404, 419, 434, 449 and 465
replicate rows under duplicated labels.) -/
theorem c7_row_index_preserved (features : List FeatureSpec) (o : Opts) (X0 X : DF)
    (s1 : PState) (r : PState × Option DF)
    (hfit : Preprocessor.fit (construct features o) X0 Option.none false = Except.ok s1)
    (htr : Preprocessor.transform s1 X = Except.ok r)
    (hnod : X.idx.Nodup) :
    ∀ d, r.2 = some d → d.idx = X.idx ∧ d.nrows = X.nrows := by
  obtain ⟨s2, out⟩ := r
  obtain ⟨a, xt, hb, hs2, hout⟩ := transform_inv htr
  have hstale : scaleDfSetB s1.cfg = false → s1.attrs.scale_df = Option.none := by
    intro hbf
    obtain ⟨hcfg, hbody⟩ := fit_no_retrain_inv hfit
    rw [hcfg] at hbf
    have := fitBody_scale_df_stale hbody hbf
    rw [this]
    rfl
  have hmain := transformBody_idx hb hnod hstale
  intro d hd
  have hidx : d.idx = X.idx := by
    refine hmain d ?_
    rw [← hout]
    exact hd
  refine ⟨hidx, ?_⟩
  have hlen : ∀ t : DF, t.idx.length = t.rows.length := by
    intro t
    exact List.length_map t.rows Prod.fst
  show d.rows.length = X.rows.length
  rw [← hlen d, ← hlen X, hidx]

/-- Witness for C7 amended: the one-hot + text-similarity configuration of the
counterexample, fitted and transformed on a table with the duplicate-free
index [0, 1]. -/
theorem c7_row_index_preserved_witness :
    c7wX.idx.Nodup ∧ c7wd.idx = c7wX.idx ∧ c7wd.nrows = c7wX.nrows :=
  ⟨by decide,
   c7_row_index_preserved c7feats defaultOpts c7wX c7wX c7ws1 c7wr
     (by decide) (by decide) (by decide) c7wd (by decide)⟩
